import Mathlib

/-!
# MstHora: DCF77 telegram decoder and multi-source time arbiter

A shallow embedding of the time-acquisition code of the MstHora firmware
(`dcf77.c`, `datetime_utils.c`, `ustime.c`, `utils.c` and the arbiter in
`main.c`), followed by theorems about it.

Conventions of the embedding:
* C module-level variables become fields of a state record, and a C function
  that mutates them becomes a function from state to state;
* `uint32_t` values are `Nat` (always reduced modulo `2^32` by the operations
  that can wrap), `int`/`int8_t`/`int16_t` values are `Int`;
* the arrays `rx_bits_val[60]` and `rx_bits_len[60]` are functions of the index;
  the code's own bound checks keep every access inside `0..59`.
-/

namespace MstHora

/-! ## ustime.c -/

/-- Value of a C conversion to `int32_t` (two's complement wraparound). -/
def int32_wrap (z : Int) : Int := (z + 2147483648) % 4294967296 - 2147483648

/-- Value of a C conversion to `uint32_t`. -/
def uint32_wrap (z : Int) : Nat := (z % 4294967296).toNat

/-- Source `get_diff_ustime` (ustime.c 44-50): the signed 32-bit difference of
the two counters, negated when negative, returned as `uint32_t`. -/
def get_diff_ustime (end_ustime start_ustime : Nat) : Nat :=
  let diff : Int := int32_wrap (int32_wrap end_ustime - int32_wrap start_ustime)
  if diff < 0 then uint32_wrap (int32_wrap (-diff)) else uint32_wrap diff

/-- Source `get_diff_s_time` (ustime.c 58-64): same computation on the counter
of seconds. -/
def get_diff_s_time (end_time start_time : Nat) : Nat :=
  let diff : Int := int32_wrap (int32_wrap end_time - int32_wrap start_time)
  if diff < 0 then uint32_wrap (int32_wrap (-diff)) else uint32_wrap diff

/-! ## datetime_utils.c -/

/-- The pico-sdk `datetime_t` (quoted in datetime_utils.h 33-44). -/
structure datetime_t where
  year : Int
  month : Int
  day : Int
  dotw : Int
  hour : Int
  min : Int
  sec : Int
deriving DecidableEq

/-- Source `datetime_is_valid_time` (datetime_utils.c 178-189). -/
def datetime_is_valid_time (t : datetime_t) : Bool :=
  if t.sec < 0 ∨ t.sec > 59 then false
  else if t.min < 0 ∨ t.min > 59 then false
  else if t.hour < 0 ∨ t.hour > 23 then false
  else true

/-- Source `datetime_is_valid_date` (datetime_utils.c 196-209). -/
def datetime_is_valid_date (d : datetime_t) : Bool :=
  if d.day < 1 ∨ d.day > 31 then false
  else if d.month < 1 ∨ d.month > 12 then false
  else if d.year < 0 ∨ d.year > 4095 then false
  else if d.dotw < 0 ∨ d.dotw > 6 then false
  else true

/-- Source `datetime_clear` (datetime_utils.c 285-289): 00:00:00 01.01.2000. -/
def datetime_clear : datetime_t :=
  { year := 2000, month := 1, day := 1, dotw := 0, hour := 0, min := 0, sec := 0 }

/-- Source `datetime_copy_time` (datetime_utils.c 240-248). -/
def datetime_copy_time (out_time in_time : datetime_t) : datetime_t :=
  { out_time with hour := in_time.hour, min := in_time.min, sec := in_time.sec }

/-- Source `datetime_copy_date` (datetime_utils.c 270-279). -/
def datetime_copy_date (out_date in_date : datetime_t) : datetime_t :=
  { out_date with dotw := in_date.dotw, day := in_date.day, month := in_date.month,
                  year := in_date.year }

/-- Source `datetime_date_compare` (datetime_utils.c 363-381). -/
def datetime_date_compare (date1 date2 : datetime_t) : Int :=
  if date1.year < date2.year then -1
  else if date1.year > date2.year then 1
  else if date1.month < date2.month then -1
  else if date1.month > date2.month then 1
  else if date1.day < date2.day then -1
  else if date1.day > date2.day then 1
  else 0

/-- Source `datetime_time_to_sec` (datetime_utils.c 415-421). -/
def datetime_time_to_sec (time : datetime_t) : Int :=
  time.sec + time.min * 60 + time.hour * 3600

/-- Source `datetime_time_diff` (datetime_utils.c 429-432). -/
def datetime_time_diff (time1 time2 : datetime_t) : Int :=
  datetime_time_to_sec time1 - datetime_time_to_sec time2

/-! ## main.c: time source records and the arbiter -/

/-- Source `dt_src_t` (main.c 72-77). -/
inductive dt_src_t where
  | dt_src_none
  | dt_src_dcf
  | dt_src_rtc
  | dt_src_int
deriving DecidableEq

/-- Source `dt_t` (main.c 79-86). -/
structure dt_t where
  dt : datetime_t
  received : Bool
  in_sync : Bool
  ustime : Nat
  s_time : Nat
  sync_src : dt_src_t
deriving DecidableEq

/-- The module-level variables of main.c that the arbiter reads and writes,
together with a log of its two outward effects: the datetimes handed to
`i2c_man_req_rtc_set` (asynchronous write requests to the external RTC) and the
datetimes handed to `rtc_int_set` (synchronous writes of the internal RTC),
oldest first. -/
structure ArbState where
  dcf_dt : dt_t
  rtc_dt : dt_t
  int_dt : dt_t
  fin_dt : dt_t
  sys_ustime : Nat
  sys_s_time : Nat
  rtc_set_reqs : List datetime_t
  int_set_calls : List datetime_t
deriving DecidableEq

/-- Source `dt_clear` (main.c 197-205). -/
def dt_clear : dt_t :=
  { dt := datetime_clear, received := false, in_sync := false, ustime := 0, s_time := 0,
    sync_src := dt_src_t.dt_src_none }

/-- State of the arbiter after the four `dt_clear` calls of `main` (main.c
404-407), with both system counters at their initial value 0. -/
def arb_init : ArbState :=
  { dcf_dt := dt_clear, rtc_dt := dt_clear, int_dt := dt_clear, fin_dt := dt_clear,
    sys_ustime := 0, sys_s_time := 0, rtc_set_reqs := [], int_set_calls := [] }

/-- Source `dt_set_received` (main.c 212-222); a NULL `datetime_ptr` is `none`. -/
def dt_set_received (sys_ustime sys_s_time : Nat) (d : dt_t) (datetime_ptr : Option datetime_t)
    (sync_src : dt_src_t) : dt_t :=
  match datetime_ptr with
  | some v => { d with dt := v, ustime := sys_ustime, s_time := sys_s_time, received := true,
                       sync_src := sync_src }
  | none => d

/-- Source `dt_diff_flag` (main.c 232-237). -/
def dt_diff_flag (dt1 dt2 : dt_t) (sec : Int) : Bool :=
  let sec_diff := datetime_time_diff dt1.dt dt2.dt
  decide (sec_diff > sec) || decide (sec_diff < -sec)
    || decide (datetime_date_compare dt1.dt dt2.dt ≠ 0)

/-- Source `callback_i2c_rtc_set` (main.c 184-191); `success` tells whether the
reported `i2c_err_t` is `i2c_success`. -/
def callback_i2c_rtc_set (success : Bool) (s : ArbState) : ArbState :=
  if success then { s with rtc_dt := { s.rtc_dt with in_sync := true } } else s

/-- Source `dt_poll`, the block for the radio (main.c 255-274). Returns the new
state and the value of the local `fin_set_flag`. -/
def dt_poll_dcf (s : ArbState) : ArbState × Bool :=
  if s.dcf_dt.received then
    let s1 := { s with fin_dt := dt_set_received s.sys_ustime s.sys_s_time s.fin_dt
                                   (some s.dcf_dt.dt) dt_src_t.dt_src_dcf }
    let s2 := if dt_diff_flag s1.dcf_dt s1.rtc_dt 1 then
                { s1 with rtc_set_reqs := s1.rtc_set_reqs ++ [s1.dcf_dt.dt],
                          rtc_dt := { s1.rtc_dt with in_sync := false } }
              else s1
    ({ s2 with dcf_dt := { s2.dcf_dt with in_sync := true, received := false } }, true)
  else (s, false)

/-- Source `dt_poll`, the block for the external RTC (main.c 276-294). -/
def dt_poll_rtc (s : ArbState) (fin_set_flag : Bool) : ArbState × Bool :=
  if s.rtc_dt.received then
    let r : ArbState × Bool :=
      if !s.rtc_dt.in_sync then
        if !s.dcf_dt.in_sync then
          ({ s with rtc_dt := { s.rtc_dt with in_sync := true } }, fin_set_flag)
        else (s, fin_set_flag)
      else if !fin_set_flag then
        ({ s with fin_dt := dt_set_received s.sys_ustime s.sys_s_time s.fin_dt
                              (some s.rtc_dt.dt) dt_src_t.dt_src_rtc }, true)
      else (s, fin_set_flag)
    ({ r.1 with rtc_dt := { r.1.rtc_dt with received := false } }, r.2)
  else (s, fin_set_flag)

/-- Source `dt_poll`, the block for the internal RTC (main.c 296-311).
`rtc_set_datetime` is the pico-sdk call whose result `rtc_int_set`
(rtc_intern.c 97-108) returns. -/
def dt_poll_int (rtc_set_datetime : datetime_t → Bool) (s : ArbState) (fin_set_flag : Bool) :
    ArbState :=
  if s.int_dt.received then
    let s1 :=
      if (s.fin_dt.in_sync || fin_set_flag) && decide (s.fin_dt.sync_src ≠ dt_src_t.dt_src_int) then
        if dt_diff_flag s.int_dt s.fin_dt 1 then
          { s with int_dt := { s.int_dt with in_sync := rtc_set_datetime s.fin_dt.dt },
                   int_set_calls := s.int_set_calls ++ [s.fin_dt.dt] }
        else s
      else s
    { s1 with int_dt := { s1.int_dt with received := false } }
  else s

/-- Source `dt_poll` (main.c 251-315). -/
def dt_poll (rtc_set_datetime : datetime_t → Bool) (s : ArbState) : ArbState :=
  let r1 := dt_poll_dcf s
  let r2 := dt_poll_rtc r1.1 r1.2
  let s3 := dt_poll_int rtc_set_datetime r2.1 r2.2
  if r2.2 then { s3 with fin_dt := { s3.fin_dt with in_sync := true } } else s3

/-- Source `DCF_IN_SYNC_TOUT_S` (main.c 55). -/
def DCF_IN_SYNC_TOUT_S : Nat := 43200

/-- Source `dt_s_tout`, the three staleness checks of the source records
(main.c 325-353). -/
def dt_s_tout_sources (s : ArbState) : ArbState :=
  let s1 := if s.dcf_dt.in_sync && decide (get_diff_s_time s.sys_s_time s.dcf_dt.s_time > DCF_IN_SYNC_TOUT_S)
            then { s with dcf_dt := { s.dcf_dt with in_sync := false } } else s
  let s2 := if s1.rtc_dt.in_sync && decide (get_diff_s_time s1.sys_s_time s1.rtc_dt.s_time > 1)
            then { s1 with rtc_dt := { s1.rtc_dt with in_sync := false } } else s1
  if s2.int_dt.in_sync && decide (get_diff_s_time s2.sys_s_time s2.int_dt.s_time > 1)
  then { s2 with int_dt := { s2.int_dt with in_sync := false } } else s2

/-- Source `dt_s_tout`, the staleness check of the final record (main.c
355-364). -/
def dt_s_tout_fin_check (s : ArbState) : ArbState :=
  if s.fin_dt.in_sync && decide (get_diff_s_time s.sys_s_time s.fin_dt.s_time > 1)
  then { s with fin_dt := { s.fin_dt with in_sync := false } } else s

/-- Source `dt_s_tout`, the fallback to the internal RTC (main.c 365-371). -/
def dt_s_tout_fin_fallback (s : ArbState) : ArbState :=
  if !s.fin_dt.in_sync then
    let f := dt_set_received s.sys_ustime s.sys_s_time s.fin_dt (some s.int_dt.dt)
               dt_src_t.dt_src_int
    { s with fin_dt := { f with in_sync := s.int_dt.in_sync } }
  else s

/-- Source `dt_s_tout` (main.c 323-372). -/
def dt_s_tout (s : ArbState) : ArbState :=
  dt_s_tout_fin_fallback (dt_s_tout_fin_check (dt_s_tout_sources s))

/-! ## utils.c -/

/-- Source `bcd_to_int8` (utils.c 334-345); `in_bcd` is a `uint8_t`, the local
`res` is a `uint8_t` (hence the reduction modulo 256). -/
def bcd_to_int8 (in_bcd : Nat) : Int :=
  let res := in_bcd &&& 0xF
  if res > 9 then -1
  else
    let res := (res + (in_bcd >>> 4) * 10) % 256
    if res > 99 then -1 else (res : Int)

/-- Source `int8_to_bcd` (utils.c 352-358). -/
def int8_to_bcd (in_u8 : Nat) : Nat :=
  let res := ((in_u8 / 10) <<< 4) % 256
  res ||| (in_u8 % 10)

/-- Source `m_filter_int_t` (utils.h 38-43); the buffer the structure points
to is kept inside the record. -/
structure m_filter_int_t where
  buff : Nat → Int
  size : Nat
  sum : Int
  init_flag : Bool

/-- Source `m_filter_int_init` (utils.c 366-372). -/
def m_filter_int_init (buff : Nat → Int) (size : Nat) : m_filter_int_t :=
  { buff := buff, size := size, sum := 0, init_flag := false }

/-- Source `m_filter_int_add_val` (utils.c 380-409). Returns the filter and the
filtered value. The two `for` loops run over `i = 0 .. size-1` and
`i = 0 .. size-2` (the filter is only used with `size` at least 1 and below
2^31). The field `sum` is a `long`, 32 bits on the target (RP2040): every
result stored in it is reduced to the `int32_t` range (two's complement
wraparound). `val` and the buffer entries are `int`. The division is C division
(towards zero). -/
def m_filter_int_add_val (filter : m_filter_int_t) (val : Int) : m_filter_int_t × Int :=
  if !filter.init_flag then
    let buff := (List.range filter.size).foldl (fun b i => Function.update b i val) filter.buff
    ({ filter with buff := buff, init_flag := true,
                   sum := int32_wrap ((filter.size : Int) * val) }, val)
  else
    let sum := int32_wrap (filter.sum - filter.buff 0)
    let buff := (List.range (filter.size - 1)).foldl
                  (fun b i => Function.update b i (b (i + 1))) filter.buff
    let buff := Function.update buff (filter.size - 1) val
    let sum := int32_wrap (sum + val)
    ({ filter with buff := buff, sum := sum }, Int.tdiv sum (filter.size : Int))

/-! ## dcf77.h -/

/-- Source `DCF_BIT0_MIN` (dcf77.h 48). -/
def DCF_BIT0_MIN : Nat := 50000
/-- Source `DCF_BIT0_MAX` (dcf77.h 49). -/
def DCF_BIT0_MAX : Nat := 175000
/-- Source `DCF_BIT1_MIN` (dcf77.h 50). -/
def DCF_BIT1_MIN : Nat := 175001
/-- Source `DCF_BIT1_MAX` (dcf77.h 51). -/
def DCF_BIT1_MAX : Nat := 350000
/-- Source `DCF_SYNC_MIN` (dcf77.h 52). -/
def DCF_SYNC_MIN : Nat := 1500000
/-- Source `DCF_T_59SEC` (dcf77.h 54). -/
def DCF_T_59SEC : Nat := 59000000
/-- Source `DCF_T_1SEC` (dcf77.h 55). -/
def DCF_T_1SEC : Nat := 1000000
/-- Source `DCF_VALID_DATETIME_CNT` (dcf77.h 58). -/
def DCF_VALID_DATETIME_CNT : Int := 3
/-- Source `DCF_EDGE_RAISING` (dcf77.h 61). -/
def DCF_EDGE_RAISING : Nat := 0x01
/-- Source `DCF_EDGE_FALLING` (dcf77.h 62). -/
def DCF_EDGE_FALLING : Nat := 0x02
/-- Source `DCF_Q_FILTER` (dcf77.h 65). -/
def DCF_Q_FILTER : Nat := 10
/-- The C constant `INT_MAX` of a 32-bit `int`. -/
def INT_MAX : Int := 2147483647

/-- Source `dcf_bitval_t` (dcf77.h 68-72). The array `rx_bits_val` is declared
`int8_t` but only ever receives values of this enumeration (0 from `memset`,
otherwise `bit_s.val`). -/
inductive dcf_bitval_t where
  | dcf_bitval_none
  | dcf_bitval_false
  | dcf_bitval_true
deriving DecidableEq

/-- Source `dcf_bit_t` (dcf77.h 74-80); the field `end` is written `end_`. -/
structure dcf_bit_t where
  start : Nat
  end_ : Nat
  len : Nat
  edge : Nat
  val : dcf_bitval_t
deriving DecidableEq

/-- Source `DCF_CLEAR_BIT` (dcf77.h 82): all bytes zero. -/
def DCF_CLEAR_BIT : dcf_bit_t :=
  { start := 0, end_ := 0, len := 0, edge := 0, val := dcf_bitval_t.dcf_bitval_none }

/-! ## dcf77.c -/

/-- The module-level variables of dcf77.c (lines 43-67). -/
structure DcfState where
  pin_old : Bool
  pulse : dcf_bit_t
  bit_s : dcf_bit_t
  bit_c : dcf_bit_t
  sync_detected : Bool
  sync_valid : Bool
  sync_time : Nat
  rx_bits_val : Nat → dcf_bitval_t
  rx_bits_len : Nat → Nat
  dt_last : datetime_t
  dt_last_valid : Bool
  cnt_dt_valid : Int
  q_good_cnt : Int
  q_bad_cnt : Int
  q_time : Nat
  q_filter : m_filter_int_t
  q_quality : Int

/-- The variables of dcf77.c after `dcf_init` (dcf77.c 72-83): the static
initialisers, the three cleared bits and the initialised filter. Variables
without initialiser are zero (static storage). -/
def dcf_init : DcfState :=
  { pin_old := false, pulse := DCF_CLEAR_BIT, bit_s := DCF_CLEAR_BIT, bit_c := DCF_CLEAR_BIT,
    sync_detected := false, sync_valid := false, sync_time := 0,
    rx_bits_val := fun _ => dcf_bitval_t.dcf_bitval_none, rx_bits_len := fun _ => 0,
    dt_last := { year := 0, month := 0, day := 0, dotw := 0, hour := 0, min := 0, sec := 0 },
    dt_last_valid := false, cnt_dt_valid := 0, q_good_cnt := 0, q_bad_cnt := 0, q_time := 0,
    q_filter := m_filter_int_init (fun _ => 0) DCF_Q_FILTER, q_quality := 0 }

/-- Source `analyze_pulse`, the classification of a completed pulse (dcf77.c
125-136): the value written to `pulse.val` (which is `val` when no branch
assigns it) and the new `sync_valid`. -/
def analyze_pulse_classify (len : Nat) (val : dcf_bitval_t) (sync_valid : Bool) :
    dcf_bitval_t × Bool :=
  if len > DCF_BIT0_MIN ∧ len < DCF_BIT0_MAX then (dcf_bitval_t.dcf_bitval_false, sync_valid)
  else if len > DCF_BIT1_MIN ∧ len < DCF_BIT1_MAX then (dcf_bitval_t.dcf_bitval_true, sync_valid)
  else if len > DCF_BIT1_MAX then (val, false)
  else (val, sync_valid)

/-- Source `analyze_pulse` (dcf77.c 92-153). -/
def analyze_pulse (s : DcfState) (sys_ustime : Nat) (pin_val : Bool) : DcfState :=
  if pin_val then
    let s1 :=
      if s.pulse.edge &&& DCF_EDGE_FALLING ≠ 0 then
        if get_diff_ustime sys_ustime s.pulse.end_ > DCF_SYNC_MIN then
          { s with sync_detected := true, sync_time := sys_ustime }
        else s
      else s
    { s1 with pulse := { DCF_CLEAR_BIT with edge := DCF_EDGE_RAISING, start := sys_ustime } }
  else
    let len := get_diff_ustime sys_ustime s.pulse.start
    let pulse : dcf_bit_t :=
      { s.pulse with edge := s.pulse.edge ||| DCF_EDGE_FALLING, end_ := sys_ustime, len := len }
    if pulse.edge = DCF_EDGE_RAISING ||| DCF_EDGE_FALLING then
      let c := analyze_pulse_classify len pulse.val s.sync_valid
      let pulse := { pulse with val := c.1 }
      if pulse.val ≠ dcf_bitval_t.dcf_bitval_none then
        { s with pulse := pulse, sync_valid := c.2, bit_s := pulse, bit_c := pulse,
                 q_good_cnt := s.q_good_cnt + 1 }
      else
        { s with pulse := s.bit_c, sync_valid := c.2, q_bad_cnt := s.q_bad_cnt + 1 }
    else { s with pulse := pulse }

/-- Source `store_bit_s`, the slot index (dcf77.c 165-170) computed from the
delay `del_time` between sync and bit start: C division and remainder on
`int32_t`. -/
def store_bit_s_idx (del_time : Nat) : Int :=
  let d : Int := int32_wrap del_time
  let bit_idx := Int.tdiv d DCF_T_1SEC
  let rest := d - bit_idx * DCF_T_1SEC
  if rest > 500000 then bit_idx + 1 else bit_idx

/-- Source `store_bit_s` (dcf77.c 158-183). -/
def store_bit_s (s : DcfState) : DcfState :=
  let del_time := get_diff_ustime s.bit_s.start s.sync_time
  let bit_idx := store_bit_s_idx del_time
  if bit_idx ≥ 0 ∧ bit_idx < 60 then
    let i := bit_idx.toNat
    if s.rx_bits_val i ≠ dcf_bitval_t.dcf_bitval_none ∧ s.rx_bits_len i > s.bit_s.len then s
    else { s with rx_bits_val := Function.update s.rx_bits_val i s.bit_s.val,
                  rx_bits_len := Function.update s.rx_bits_len i s.bit_s.len }
  else s

/-- Source `rx_bits_to_uint8`, the `while` loop (dcf77.c 199-211): `n` slots
remain to be read from `idx` on; `val` and `mask` are `uint8_t`. -/
def rx_bits_to_uint8_loop (rx : Nat → dcf_bitval_t) : Nat → Nat → Nat → Nat → Option Nat
  | 0, _, val, _ => some val
  | n + 1, idx, val, mask =>
    if rx idx = dcf_bitval_t.dcf_bitval_none then none
    else
      rx_bits_to_uint8_loop rx n (idx + 1)
        (if rx idx = dcf_bitval_t.dcf_bitval_true then val ||| mask else val)
        ((mask <<< 1) % 256)

/-- Source `rx_bits_to_uint8` (dcf77.c 194-213); `none` is the result `false`. -/
def rx_bits_to_uint8 (rx : Nat → dcf_bitval_t) (start_idx end_idx : Int) : Option Nat :=
  if start_idx < 0 ∨ end_idx ≥ 60 then none
  else rx_bits_to_uint8_loop rx (end_idx + 1 - start_idx).toNat start_idx.toNat 0 1

/-- Source `calc_parity`, the `while` loop (dcf77.c 225-230) unrolled at most
`fuel` times. -/
def calc_parity_loop : Nat → Int → Nat → Int
  | 0, par_sum, _ => par_sum
  | fuel + 1, par_sum, val =>
    if val > 0 then
      calc_parity_loop fuel (if val &&& 1 ≠ 0 then par_sum + 1 else par_sum) (val >>> 1)
    else par_sum

/-- Source `calc_parity` (dcf77.c 223-232); `val` is a `uint8_t`, so the loop
ends within 8 rounds. -/
def calc_parity (par_sum : Int) (val : Nat) : Int := calc_parity_loop 8 par_sum val

/-- Source `check_parity` (dcf77.c 243-251). -/
def check_parity (par_sum : Int) (parity : dcf_bitval_t) : Bool :=
  if parity = dcf_bitval_t.dcf_bitval_true ∧ par_sum % 2 ≠ 0 then true
  else if parity = dcf_bitval_t.dcf_bitval_false ∧ ¬ (par_sum % 2 ≠ 0) then true
  else false

/-- Contents given to a local `datetime_t dt` that the C code declares without
initialiser (in `rx_bits_extract_time`, `rx_bits_extract_date` and
`interpret_rx_bits`). Every field is written before the code reads it: the time
fields by the time extraction, the date fields by the date extraction. -/
def datetime_uninit : datetime_t :=
  { year := 0, month := 0, day := 0, dotw := 0, hour := 0, min := 0, sec := 0 }

/-- Source `rx_bits_extract_time` (dcf77.c 260-313). The argument is the
caller's `datetime_t`; `some` carries it with the time copied in (result
`true`), `none` is the result `false` (the caller's value is then untouched). -/
def rx_bits_extract_time (rx : Nat → dcf_bitval_t) (datetime : datetime_t) : Option datetime_t :=
  if rx 28 = dcf_bitval_t.dcf_bitval_none then none
  else match rx_bits_to_uint8 rx 21 27 with
  | none => none
  | some val =>
    if !check_parity (calc_parity 0 val) (rx 28) then none
    else
      let min := bcd_to_int8 val
      if rx 35 = dcf_bitval_t.dcf_bitval_none then none
      else match rx_bits_to_uint8 rx 29 34 with
      | none => none
      | some val =>
        if !check_parity (calc_parity 0 val) (rx 35) then none
        else
          let hour := bcd_to_int8 val
          let dt : datetime_t := { datetime_uninit with sec := 0, min := min, hour := hour }
          if !datetime_is_valid_time dt then none
          else some (datetime_copy_time datetime dt)

/-- Source `rx_bits_extract_date` (dcf77.c 322-391), with the same convention
as `rx_bits_extract_time`. -/
def rx_bits_extract_date (rx : Nat → dcf_bitval_t) (datetime : datetime_t) : Option datetime_t :=
  if rx 58 = dcf_bitval_t.dcf_bitval_none then none
  else match rx_bits_to_uint8 rx 36 41 with
  | none => none
  | some val =>
    let day := bcd_to_int8 val
    let parity := calc_parity 0 val
    match rx_bits_to_uint8 rx 42 44 with
    | none => none
    | some val =>
      let dotw := bcd_to_int8 val
      let dotw := if dotw = 7 then 0 else dotw
      let parity := calc_parity parity val
      match rx_bits_to_uint8 rx 45 49 with
      | none => none
      | some val =>
        let month := bcd_to_int8 val
        let parity := calc_parity parity val
        match rx_bits_to_uint8 rx 50 57 with
        | none => none
        | some val =>
          let year := bcd_to_int8 val + 2000
          let parity := calc_parity parity val
          if !check_parity parity (rx 58) then none
          else
            let dt : datetime_t :=
              { datetime_uninit with day := day, dotw := dotw, month := month, year := year }
            if !datetime_is_valid_date dt then none
            else some (datetime_copy_date datetime dt)

/-- Source `interpret_rx_bits` (dcf77.c 400-468). Returns the new state and the
function's result. The body changes only `cnt_dt_valid`, `dt_last_valid` and
`dt_last`; the counter is carried in the local `cnt` until the state is
written back. -/
def interpret_rx_bits (s : DcfState) : DcfState × Bool :=
  if s.rx_bits_val 0 ≠ dcf_bitval_t.dcf_bitval_false then (s, false)
  else if s.rx_bits_val 20 ≠ dcf_bitval_t.dcf_bitval_true then (s, false)
  else
    let dt := datetime_uninit
    let t := rx_bits_extract_time s.rx_bits_val dt
    let valid_time := t.isSome
    let dt := t.getD dt
    let cnt :=
      if valid_time && s.dt_last_valid then
        if datetime_time_diff dt s.dt_last < 30 ∨ datetime_time_diff dt s.dt_last > 90 then 1
        else s.cnt_dt_valid
      else s.cnt_dt_valid
    let d := rx_bits_extract_date s.rx_bits_val dt
    let valid_date := d.isSome
    let dt := d.getD dt
    let cnt :=
      if valid_date && s.dt_last_valid then
        if datetime_date_compare dt s.dt_last ≠ 0 then 1 else cnt
      else cnt
    let dt_last_valid := valid_time && valid_date
    if dt_last_valid then
      let cnt := if cnt < INT_MAX then cnt + 1 else cnt
      ({ s with dt_last_valid := dt_last_valid, dt_last := dt, cnt_dt_valid := cnt },
       dt_last_valid && decide (cnt ≥ DCF_VALID_DATETIME_CNT))
    else
      ({ s with dt_last_valid := dt_last_valid, cnt_dt_valid := 0 },
       dt_last_valid && decide ((0 : Int) ≥ DCF_VALID_DATETIME_CNT))

/-- Source `dcf_sig_quality`, the raw quality of one period from the two pulse
counters (dcf77.c 538-566). -/
def dcf_sig_quality_raw (q_good_cnt q_bad_cnt : Int) : Int :=
  if q_good_cnt = 1 ∧ q_bad_cnt = 0 then 100
  else
    let q_bad_cnt := if q_good_cnt > 1 then q_bad_cnt + (q_good_cnt - 1) else q_bad_cnt
    if q_bad_cnt > 0 then
      if q_bad_cnt ≥ 5 then 0 else (5 - q_bad_cnt) * 20
    else 0

/-- Source `dcf_sig_quality` (dcf77.c 531-575). -/
def dcf_sig_quality (s : DcfState) (sys_ustime : Nat) : DcfState :=
  if get_diff_ustime sys_ustime s.q_time > DCF_T_1SEC then
    let quality := dcf_sig_quality_raw s.q_good_cnt s.q_bad_cnt
    let r := m_filter_int_add_val s.q_filter quality
    { s with q_time := sys_ustime, q_filter := r.1, q_quality := r.2, q_good_cnt := 0,
             q_bad_cnt := 0 }
  else s

/-- Source `dcf_poll` (dcf77.c 476-524). `gpio` is the level `gpio_get` reads
from the input pin in this cycle. -/
def dcf_poll (s : DcfState) (sys_ustime : Nat) (gpio : Bool) : DcfState × Bool :=
  let pin_val := !gpio
  if pin_val ≠ s.pin_old then
    ({ analyze_pulse s sys_ustime pin_val with pin_old := pin_val }, false)
  else
    let s1 := dcf_sig_quality s sys_ustime
    if s1.sync_detected then
      ({ s1 with sync_detected := false, sync_valid := true, bit_s := DCF_CLEAR_BIT,
                 rx_bits_val := fun _ => dcf_bitval_t.dcf_bitval_none,
                 rx_bits_len := fun _ => 0 }, false)
    else if !s1.sync_valid then (s1, false)
    else if get_diff_ustime sys_ustime s1.sync_time > DCF_T_59SEC then
      interpret_rx_bits { s1 with sync_valid := false }
    else if s1.bit_s.val ≠ dcf_bitval_t.dcf_bitval_none then
      ({ store_bit_s s1 with bit_s := DCF_CLEAR_BIT }, false)
    else (s1, false)

/-- Source `dcf_get_datetime` (dcf77.c 592-599); `none` is the NULL pointer. -/
def dcf_get_datetime (s : DcfState) : Option datetime_t :=
  if s.dt_last_valid then some s.dt_last else none

/-- Source `dcf_get_quality` (dcf77.c 581-584). -/
def dcf_get_quality (s : DcfState) : Int := s.q_quality

/-! ## Derived definitions used by the statements -/

/-- A cycle in which the radio and the external RTC both delivered a reading,
the RTC reading two seconds behind the radio reading; all three records and the
final record were in sync before. -/
def arb_radio_and_rtc : ArbState :=
  let t0 : datetime_t :=
    { year := 2024, month := 5, day := 17, dotw := 5, hour := 12, min := 30, sec := 0 }
  let t2 : datetime_t := { t0 with sec := 2 }
  { dcf_dt := { dt := t2, received := true, in_sync := false, ustime := 7000000, s_time := 7,
                sync_src := dt_src_t.dt_src_dcf },
    rtc_dt := { dt := t0, received := true, in_sync := true, ustime := 7000000, s_time := 7,
                sync_src := dt_src_t.dt_src_rtc },
    int_dt := { dt := t0, received := true, in_sync := true, ustime := 7000000, s_time := 7,
                sync_src := dt_src_t.dt_src_int },
    fin_dt := { dt := t0, received := true, in_sync := true, ustime := 6000000, s_time := 6,
                sync_src := dt_src_t.dt_src_rtc },
    sys_ustime := 7000000, sys_s_time := 7, rtc_set_reqs := [], int_set_calls := [] }

/-- The two extractions of `interpret_rx_bits` chained as the function chains
them (dcf77.c 416-452): the date extraction writes into the `datetime_t` the
time extraction filled. The result is `some dt` exactly when `valid_time` and
`valid_date` are both true, and `dt` is then the value copied to `dt_last`. -/
def frame_decode (rx : Nat → dcf_bitval_t) : Option datetime_t :=
  (rx_bits_extract_time rx datetime_uninit).bind (rx_bits_extract_date rx)

/-- Value of `cnt_dt_valid` that `interpret_rx_bits` leaves (dcf77.c 422-457)
when the frame decodes to `d`: the two resets to 1 followed by the saturating
increment. -/
def interpret_cnt_next (s : DcfState) (d : datetime_t) : Int :=
  let c := if s.dt_last_valid = true ∧
              (datetime_time_diff d s.dt_last < 30 ∨ datetime_time_diff d s.dt_last > 90 ∨
               datetime_date_compare d s.dt_last ≠ 0) then 1 else s.cnt_dt_valid
  if c < INT_MAX then c + 1 else c

/-- A slot value with the opposite bit: zero and one exchanged, an undefined
slot stays undefined. -/
def dcf_bit_invert : dcf_bitval_t → dcf_bitval_t
  | dcf_bitval_t.dcf_bitval_none => dcf_bitval_t.dcf_bitval_none
  | dcf_bitval_t.dcf_bitval_false => dcf_bitval_t.dcf_bitval_true
  | dcf_bitval_t.dcf_bitval_true => dcf_bitval_t.dcf_bitval_false

/-- Slot value of a transmitted bit. -/
def dcf_frame_bit (b : Bool) : dcf_bitval_t :=
  if b then dcf_bitval_t.dcf_bitval_true else dcf_bitval_t.dcf_bitval_false

/-- Test input: the slot buffer after a clean reception of the DCF77 minute
frame for the given minute, hour, day, day of week, month and two-digit year
(BCD fields least-significant bit first, even parity in slots 28, 35 and 58,
slots 0..19 zero, slot 20 one, slot 59 without pulse). -/
def dcf_frame (minute hour day dotw month year : Nat) : Nat → dcf_bitval_t := fun i =>
  let m := int8_to_bcd minute
  let h := int8_to_bcd hour
  let d := int8_to_bcd day
  let mo := int8_to_bcd month
  let y := int8_to_bcd year
  if i < 20 then dcf_bitval_t.dcf_bitval_false
  else if i = 20 then dcf_bitval_t.dcf_bitval_true
  else if i < 28 then dcf_frame_bit (m.testBit (i - 21))
  else if i = 28 then dcf_frame_bit (decide (calc_parity 0 m % 2 = 1))
  else if i < 35 then dcf_frame_bit (h.testBit (i - 29))
  else if i = 35 then dcf_frame_bit (decide (calc_parity 0 h % 2 = 1))
  else if i < 42 then dcf_frame_bit (d.testBit (i - 36))
  else if i < 45 then dcf_frame_bit (dotw.testBit (i - 42))
  else if i < 50 then dcf_frame_bit (mo.testBit (i - 45))
  else if i < 58 then dcf_frame_bit (y.testBit (i - 50))
  else if i = 58 then
    dcf_frame_bit (decide (calc_parity (calc_parity (calc_parity (calc_parity 0 d) dotw) mo) y % 2 = 1))
  else dcf_bitval_t.dcf_bitval_none

/-- The two extractions of `interpret_rx_bits` chained as the function chains
them (dcf77.c 416-452): the date extraction writes into the `datetime_t` the
time extraction filled. The result is `some dt` exactly when `valid_time` and
`valid_date` are both true, and `dt` is then the value copied to `dt_last`. -/
def frame_decodes_to (rx : Nat → dcf_bitval_t) (d : datetime_t) : Prop :=
  rx 0 = dcf_bitval_t.dcf_bitval_false ∧ rx 20 = dcf_bitval_t.dcf_bitval_true ∧
  frame_decode rx = some d

/-- One call of `interpret_rx_bits` on the slot contents `f` (the accumulator
refilled the buffer since the previous call). -/
def interpret_frame (s : DcfState) (f : Nat → dcf_bitval_t) : DcfState × Bool :=
  interpret_rx_bits { s with rx_bits_val := f }

/-- Test datetime: Friday 17.05.2024, 12:`minute`:00. -/
def dt_test (minute : Int) : datetime_t :=
  { year := 2024, month := 5, day := 17, dotw := 5, hour := 12, min := minute, sec := 0 }

/-- Test frame: the DCF77 frame of Friday 17.05.2024, 12:`minute`. -/
def frame_test (minute : Nat) : Nat → dcf_bitval_t := dcf_frame minute 12 17 5 5 24

/-- Decoder state after the frames of 12:28, 12:29 and 12:30 were interpreted
from the initial state: the telegram of 12:30 is confirmed. -/
def dcf_after_three : DcfState :=
  (interpret_frame (interpret_frame (interpret_frame dcf_init (frame_test 28)).1
    (frame_test 29)).1 (frame_test 30)).1

/-- Slot index as rounding to the nearest second states it: the quotient of the
delay `e` by one second, plus one when the remainder exceeds half a second. -/
def round_idx (e : Nat) : Nat := e / 1000000 + (if e % 1000000 > 500000 then 1 else 0)

/-- Test state of the accumulator: sync at 0 µs, slot 4 already holds a zero-bit
of 100,000 µs, and the last accepted bit, a one-bit of length `len`, starts
4,000,000 µs after the sync. -/
def dcf_slot4_conflict (len : Nat) : DcfState :=
  { dcf_init with
    sync_time := 0,
    bit_s := { start := 4000000, end_ := 4000000 + len, len := len, edge := 3,
               val := dcf_bitval_t.dcf_bitval_true },
    rx_bits_val := Function.update (fun _ => dcf_bitval_t.dcf_bitval_none) 4
                     dcf_bitval_t.dcf_bitval_false,
    rx_bits_len := Function.update (fun _ => 0) 4 100000 }

/-- State and `fin_set_flag` of `dt_poll` when it reaches the block of the
internal RTC (main.c 296): the radio block followed by the external RTC
block. -/
def dt_poll_before_int (s : ArbState) : ArbState × Bool :=
  dt_poll_rtc (dt_poll_dcf s).1 (dt_poll_dcf s).2

/-- The two datetimes differ by more than one second in time of day, or lie on
different dates. -/
def datetime_differs (a b : datetime_t) : Prop :=
  datetime_time_diff a b > 1 ∨ datetime_time_diff a b < -1 ∨
  a.year ≠ b.year ∨ a.month ≠ b.month ∨ a.day ≠ b.day

/-- A cycle without radio reading in which the external RTC delivered a reading
while its record is in sync, and the internal RTC delivered a reading five
seconds behind; the final record was last set from the external RTC. -/
def arb_rtc_only : ArbState :=
  let t0 : datetime_t :=
    { year := 2024, month := 5, day := 17, dotw := 5, hour := 12, min := 30, sec := 10 }
  let t1 : datetime_t := { t0 with sec := 5 }
  { dcf_dt := dt_clear,
    rtc_dt := { dt := t0, received := true, in_sync := true, ustime := 7000000, s_time := 7,
                sync_src := dt_src_t.dt_src_rtc },
    int_dt := { dt := t1, received := true, in_sync := true, ustime := 7000000, s_time := 7,
                sync_src := dt_src_t.dt_src_int },
    fin_dt := { dt := { t0 with sec := 9 }, received := true, in_sync := true, ustime := 6000000,
                s_time := 6, sync_src := dt_src_t.dt_src_rtc },
    sys_ustime := 7000000, sys_s_time := 7, rtc_set_reqs := [], int_set_calls := [] }

/-- The bad-pulse count after the good pulses beyond the first are folded into
it: `b + max (g - 1) 0`. -/
def q_bad_folded (g b : Int) : Int := b + max (g - 1) 0

/-- The slots `start .. start + width - 1` hold the binary digits of `v`, least
significant bit first (a one-bit for a digit 1, a zero-bit for a digit 0). -/
def slots_hold (rx : Nat → dcf_bitval_t) (start width v : Nat) : Prop :=
  ∀ i, i < width → rx (start + i) = dcf_frame_bit (v.testBit i)

instance (rx : Nat → dcf_bitval_t) (start width v : Nat) : Decidable (slots_hold rx start width v) := by
  unfold slots_hold
  infer_instance

/-- Number of one-bits among the `n` slots `start .. start + n - 1`. -/
def slot_ones (rx : Nat → dcf_bitval_t) (start : Nat) : Nat → Nat
  | 0 => 0
  | n + 1 => slot_ones rx start n + (if rx (start + n) = dcf_bitval_t.dcf_bitval_true then 1 else 0)

/-- Number of binary digits 1 among the lowest `n` digits of `v`. -/
def bit_ones (v : Nat) : Nat → Nat
  | 0 => 0
  | n + 1 => bit_ones v n + (if v.testBit n then 1 else 0)

/-- Slot buffer whose slots from `start` on hold the binary digits of `v`. -/
def bits_rx (start v : Nat) : Nat → dcf_bitval_t :=
  fun k => dcf_frame_bit (v.testBit (k - start))

/-- The window of a filter: the contents `buff[0 .. size-1]`, oldest entry first. -/
def m_filter_window (f : m_filter_int_t) : List Int := (List.range f.size).map f.buff

/-- The filter after `m_filter_int_add_val` was called with each of the samples
in turn. -/
def m_filter_feed (f : m_filter_int_t) (vals : List Int) : m_filter_int_t :=
  vals.foldl (fun g v => (m_filter_int_add_val g v).1) f

/-- The last `n` entries of a sequence. -/
def last_entries (n : Nat) (l : List Int) : List Int := l.drop (l.length - n)

/-- The values a raw quality sample can take. -/
def quality_sample (x : Int) : Prop := x = 0 ∨ x = 20 ∨ x = 40 ∨ x = 60 ∨ x = 80 ∨ x = 100

/-- The part of `dcf_poll` that runs when the pin did not change, after the call
of `dcf_sig_quality` (dcf77.c 495-521); `s1` is the state that call left. -/
def dcf_poll_tail (s1 : DcfState) (sys_ustime : Nat) : DcfState × Bool :=
  if s1.sync_detected then
    ({ s1 with sync_detected := false, sync_valid := true, bit_s := DCF_CLEAR_BIT,
               rx_bits_val := fun _ => dcf_bitval_t.dcf_bitval_none,
               rx_bits_len := fun _ => 0 }, false)
  else if !s1.sync_valid then (s1, false)
  else if get_diff_ustime sys_ustime s1.sync_time > DCF_T_59SEC then
    interpret_rx_bits { s1 with sync_valid := false }
  else if s1.bit_s.val ≠ dcf_bitval_t.dcf_bitval_none then
    ({ store_bit_s s1 with bit_s := DCF_CLEAR_BIT }, false)
  else (s1, false)

/-- One call into the decoder: `dcf_poll` with the time and the pin level of the
cycle, or `dcf_sig_quality` with the time. -/
inductive dcf_call where
  | poll (sys_ustime : Nat) (gpio : Bool)
  | sig_quality (sys_ustime : Nat)

/-- The state after one call. -/
def dcf_call_step (s : DcfState) : dcf_call → DcfState
  | dcf_call.poll t g => (dcf_poll s t g).1
  | dcf_call.sig_quality t => dcf_sig_quality s t

/-- The state after a sequence of calls made from the initial state. -/
def dcf_run (calls : List dcf_call) : DcfState := calls.foldl dcf_call_step dcf_init

/-- State of the quality estimator kept by every call: the filter has its ten
entries, every entry is a possible raw sample, the stored sum is the sum of the
window once the filter was seeded, and the smoothed value lies within every
range that contains the window. -/
def dcf_q_inv (s : DcfState) : Prop :=
  s.q_filter.size = DCF_Q_FILTER ∧
  (∀ x ∈ m_filter_window s.q_filter, quality_sample x) ∧
  (s.q_filter.init_flag = true → s.q_filter.sum = (m_filter_window s.q_filter).sum) ∧
  (∀ lo hi : Int, (∀ x ∈ m_filter_window s.q_filter, lo ≤ x ∧ x ≤ hi) →
    lo ≤ s.q_quality ∧ s.q_quality ≤ hi)

/-- Test datetime: "Saturday 31.02.2024", 12:`minute`:00 (no such day exists). -/
def dt_feb31 (minute : Int) : datetime_t :=
  { year := 2024, month := 2, day := 31, dotw := 6, hour := 12, min := minute, sec := 0 }

/-- Test frame: a DCF77 frame with correct markers and parity that encodes
day 31 of month 2 of year 24, weekday 6, 12:`minute`. -/
def frame_feb31 (minute : Nat) : Nat → dcf_bitval_t := dcf_frame minute 12 31 6 2 24

/-- The variables of `main` that drive the arbiter: the arbiter's state and the
time of the last second change, `us_s_time_diff` (main.c 95, 411-420). -/
structure MainState where
  arb : ArbState
  us_s_time_diff : Nat
deriving DecidableEq

/-- What one pass of the main loop gets from outside the arbiter: the
microsecond counter, the result reported by a finished write to the external
RTC (if one finished), and the datetimes delivered in this pass by the external
RTC, the radio decoder and the internal RTC (if any). -/
structure main_cycle_in where
  ustime : Nat
  rtc_set_result : Option Bool
  rtc : Option datetime_t
  dcf : Option datetime_t
  int : Option datetime_t

/-- The variables of `main` when the loop is entered (main.c 404-408). -/
def main_init : MainState := { arb := arb_init, us_s_time_diff := 0 }

/-- One pass of the main loop as far as the arbiter is concerned (main.c
409-447): the second counter, the three receptions, `dt_poll`, and `dt_s_tout`
when the second changed. -/
def main_cycle (rtc_set_datetime : datetime_t → Bool) (m : MainState) (c : main_cycle_in) :
    MainState :=
  let second_changed := decide (get_diff_ustime c.ustime m.us_s_time_diff ≥ 1000000)
  let us := if second_changed then c.ustime else m.us_s_time_diff
  let s0 : ArbState :=
    { m.arb with sys_ustime := c.ustime,
                 sys_s_time := if second_changed then (m.arb.sys_s_time + 1) % 4294967296
                               else m.arb.sys_s_time }
  let s1 := match c.rtc_set_result with
    | some r => callback_i2c_rtc_set r s0
    | none => s0
  let s2 := { s1 with rtc_dt := dt_set_received s1.sys_ustime s1.sys_s_time s1.rtc_dt c.rtc
                                  dt_src_t.dt_src_rtc }
  let s3 := { s2 with dcf_dt := dt_set_received s2.sys_ustime s2.sys_s_time s2.dcf_dt c.dcf
                                  dt_src_t.dt_src_dcf }
  let s4 := { s3 with int_dt := dt_set_received s3.sys_ustime s3.sys_s_time s3.int_dt c.int
                                  dt_src_t.dt_src_int }
  let s5 := dt_poll rtc_set_datetime s4
  { arb := if second_changed then dt_s_tout s5 else s5, us_s_time_diff := us }

/-- The variables of `main` after the given passes of the loop. -/
def main_run (rtc_set_datetime : datetime_t → Bool) (cycles : List main_cycle_in) : MainState :=
  cycles.foldl (main_cycle rtc_set_datetime) main_init

/-- A pass of the main loop at time `ustime` in which nothing is delivered. -/
def cycle_idle (ustime : Nat) : main_cycle_in :=
  { ustime := ustime, rtc_set_result := none, rtc := none, dcf := none, int := none }

/-- Test run: the external RTC delivers 12:30 of 17.05.2024 twice (first pass:
it becomes the only source and is marked in sync; second pass: it sets the
final record, and the internal RTC, which delivers another time, is set from
it); one second later the internal RTC delivers once more; then nothing is
delivered during the passes at seconds 2 and 3. -/
def run_int_fallback : List main_cycle_in :=
  [ { cycle_idle 100 with rtc := some (dt_test 30) },
    { cycle_idle 200 with rtc := some (dt_test 30), int := some datetime_clear },
    { cycle_idle 1000100 with int := some (dt_test 30) },
    cycle_idle 2000100,
    cycle_idle 3000100 ]

/-- Test state: the decoder after `dcf_init` with a completed pulse in the pulse
state whose falling edge was at 1000 µs. -/
def dcf_pulse_done : DcfState :=
  { dcf_init with pulse := { DCF_CLEAR_BIT with edge := DCF_EDGE_RAISING ||| DCF_EDGE_FALLING,
                                                start := 900, end_ := 1000, len := 100 } }

/-- State of the pulse record kept by every call: while the input level is high
(`pin_old` true, a pulse is running) the pulse state holds only the rising edge
and no value. -/
def dcf_pulse_inv (s : DcfState) : Prop :=
  s.pin_old = true → s.pulse.edge = DCF_EDGE_RAISING ∧ s.pulse.val = dcf_bitval_t.dcf_bitval_none

/-- Test frame: the frame of Friday 17.05, 12:`minute`, whose year slots 50..57
hold the code 0xA0, which is not BCD (its tens digit is 10); markers and the
three parity bits are correct. -/
def frame_bad_year (minute : Nat) : Nat → dcf_bitval_t := dcf_frame minute 12 17 5 5 100

/-! ## datetime_utils.c and i2c_rtc.c: the register image of the external RTC -/

/-- Source `datetime_is_valid` (datetime_utils.c 216-219). -/
def datetime_is_valid (d : datetime_t) : Bool :=
  datetime_is_valid_time d && datetime_is_valid_date d

/-- Value of a C conversion to `uint8_t`. -/
def uint8_wrap (z : Int) : Nat := (z % 256).toNat

/-- Source `rtc_mem_to_datetime` (i2c_rtc.c 103-130). `mem` is the byte buffer,
`ptr_datetime` the caller's `datetime_t`; the result is the caller's
`datetime_t` after the call and the returned count (7, or -1 on error, in which
case the caller's value is untouched). -/
def rtc_mem_to_datetime (ptr_datetime : datetime_t) (mem : Nat → Nat) (mem_size : Int) :
    datetime_t × Int :=
  if mem_size < 7 then (ptr_datetime, -1)
  else
    let dotw := bcd_to_int8 (mem 3)
    let dotw := if dotw = 7 then 0 else dotw
    let dt : datetime_t :=
      { sec := bcd_to_int8 (mem 0), min := bcd_to_int8 (mem 1), hour := bcd_to_int8 (mem 2),
        dotw := dotw, day := bcd_to_int8 (mem 4), month := bcd_to_int8 (mem 5 &&& 0x7F),
        year := bcd_to_int8 (mem 6) + 2000 }
    if !datetime_is_valid dt then (ptr_datetime, -1) else (dt, 7)

/-- Source `rtc_datetime_to_mem` (i2c_rtc.c 212-231). The result is the byte
buffer after the call and the returned count (7, or -1 on error, in which case
the buffer is untouched). The `int8_t` fields are converted to the `uint8_t`
parameter of `int8_to_bcd`; `year % 100` is C remainder, and its conversion to
`int8_t` and then `uint8_t` is the conversion to `uint8_t`. -/
def rtc_datetime_to_mem (mem : Nat → Nat) (mem_size : Int) (ptr_datetime : datetime_t) :
    (Nat → Nat) × Int :=
  if mem_size < 7 ∨ (!datetime_is_valid ptr_datetime) = true then (mem, -1)
  else
    let mem := Function.update mem 0 (int8_to_bcd (uint8_wrap ptr_datetime.sec))
    let mem := Function.update mem 1 (int8_to_bcd (uint8_wrap ptr_datetime.min))
    let mem := Function.update mem 2 (int8_to_bcd (uint8_wrap ptr_datetime.hour))
    let mem := Function.update mem 3 (int8_to_bcd (uint8_wrap ptr_datetime.dotw))
    let mem := if mem 3 = 0 then Function.update mem 3 7 else mem
    let mem := Function.update mem 4 (int8_to_bcd (uint8_wrap ptr_datetime.day))
    let mem := Function.update mem 5 (int8_to_bcd (uint8_wrap ptr_datetime.month))
    let mem := Function.update mem 6
      (int8_to_bcd (uint8_wrap (Int.tmod ptr_datetime.year 100)))
    (mem, 7)

/-- Test datetime: Sunday 19.05.2024, 23:59:58. -/
def dt_sunday : datetime_t :=
  { year := 2024, month := 5, day := 19, dotw := 0, hour := 23, min := 59, sec := 58 }

/-- A call in which `dcf_poll` interprets the slot buffer (dcf77.c 509-514): a
poll with no level change, no freshly detected sync, a valid sync and the sync
timeout elapsed. -/
def dcf_interprets (s : DcfState) : dcf_call → Bool
  | dcf_call.poll t gpio =>
    decide ((!gpio) = s.pin_old ∧ s.sync_detected = false ∧ s.sync_valid = true ∧
      get_diff_ustime t s.sync_time > DCF_T_59SEC)
  | dcf_call.sig_quality _ => false

/-- A call in which `dcf_poll` adopts a freshly detected sync (dcf77.c 494-502):
a poll with no level change while `sync_detected` is set. It makes the sync
valid and clears the slot buffer. -/
def dcf_adopts_sync (s : DcfState) : dcf_call → Bool
  | dcf_call.poll _ gpio => decide ((!gpio) = s.pin_old ∧ s.sync_detected = true)
  | dcf_call.sig_quality _ => false

/-- A call in which `analyze_pulse` declares a sync (dcf77.c 99-109): a poll
that sees the level rise while a falling edge is recorded more than
`DCF_SYNC_MIN` ago. -/
def dcf_declares_sync (s : DcfState) : dcf_call → Bool
  | dcf_call.poll t gpio =>
    decide ((!gpio) ≠ s.pin_old ∧ gpio = false ∧ s.pulse.edge &&& DCF_EDGE_FALLING ≠ 0 ∧
      get_diff_ustime t s.pulse.end_ > DCF_SYNC_MIN)
  | dcf_call.sig_quality _ => false

/-- Number of calls of the kind `k` in a run of calls from the state `s`. -/
def dcf_count (k : DcfState → dcf_call → Bool) : DcfState → List dcf_call → Nat
  | _, [] => 0
  | s, c :: cs => (if k s c then 1 else 0) + dcf_count k (dcf_call_step s c) cs

/-- A run of calls after `dcf_init` with one sync: the level rises at 1 s and
falls at 1.1 s (a short pulse), rises again at 3 s (1.9 s after the fall: a
sync), the next poll adopts the sync, the poll 59000001 µs after the sync
interprets the slot buffer, and two later polls follow. -/
def dcf_sync_run : List dcf_call :=
  [dcf_call.poll 1000000 false, dcf_call.poll 1100000 true, dcf_call.poll 3000000 false,
   dcf_call.poll 3000001 false, dcf_call.poll 62000001 false, dcf_call.poll 62000002 false,
   dcf_call.poll 130000000 false]

/-! ## Theorems: the arbiter -/

/-- The internal-RTC block of `dt_poll` never touches the final record. -/
theorem dt_poll_int_fin_dt (f : datetime_t → Bool) (s : ArbState) (b : Bool) :
    (dt_poll_int f s b).fin_dt = s.fin_dt := by
  unfold dt_poll_int
  split_ifs <;> rfl

/-- The internal-RTC block of `dt_poll` never touches the radio record. -/
theorem dt_poll_int_dcf_dt (f : datetime_t → Bool) (s : ArbState) (b : Bool) :
    (dt_poll_int f s b).dcf_dt = s.dcf_dt := by
  unfold dt_poll_int
  split_ifs <;> rfl

/-- The external-RTC block of `dt_poll` never touches the radio record. -/
theorem dt_poll_rtc_dcf_dt (s : ArbState) (b : Bool) :
    (dt_poll_rtc s b).1.dcf_dt = s.dcf_dt := by
  unfold dt_poll_rtc
  split_ifs <;> rfl

/-- Once `fin_set_flag` is set, the external-RTC block of `dt_poll` leaves the
final record alone and keeps the flag. -/
theorem dt_poll_rtc_of_flag (s : ArbState) :
    (dt_poll_rtc s true).1.fin_dt = s.fin_dt ∧ (dt_poll_rtc s true).2 = true := by
  unfold dt_poll_rtc
  cases s.rtc_dt.received <;> cases s.rtc_dt.in_sync <;> cases s.dcf_dt.in_sync <;> simp

/-- The radio block of `dt_poll` when the radio record has a new reading. -/
theorem dt_poll_dcf_of_received (s : ArbState) (h : s.dcf_dt.received = true) :
    (dt_poll_dcf s).2 = true ∧
    (dt_poll_dcf s).1.fin_dt =
      { s.fin_dt with dt := s.dcf_dt.dt, ustime := s.sys_ustime, s_time := s.sys_s_time,
                      received := true, sync_src := dt_src_t.dt_src_dcf } ∧
    (dt_poll_dcf s).1.dcf_dt = { s.dcf_dt with in_sync := true, received := false } := by
  unfold dt_poll_dcf
  rw [if_pos h]
  refine ⟨rfl, ?_, ?_⟩
  · dsimp only [dt_set_received]
    split_ifs <;> rfl
  · dsimp only
    split_ifs <;> rfl

/-- C1: whenever the radio record has a new reading, `dt_poll` leaves the final
record holding the radio datetime with source tag radio, and both the radio
record and the final record in sync, whatever the other records hold or
received in the same cycle and whatever the internal RTC write returns. -/
theorem dt_poll_radio_priority (rtc_set_datetime : datetime_t → Bool) (s : ArbState)
    (h : s.dcf_dt.received = true) :
    (dt_poll rtc_set_datetime s).fin_dt.dt = s.dcf_dt.dt ∧
    (dt_poll rtc_set_datetime s).fin_dt.sync_src = dt_src_t.dt_src_dcf ∧
    (dt_poll rtc_set_datetime s).dcf_dt.in_sync = true ∧
    (dt_poll rtc_set_datetime s).fin_dt.in_sync = true ∧
    (dt_poll rtc_set_datetime s).dcf_dt.dt = s.dcf_dt.dt := by
  obtain ⟨h1, h2, h3⟩ := dt_poll_dcf_of_received s h
  have h4 := dt_poll_rtc_of_flag (dt_poll_dcf s).1
  have h5 := dt_poll_rtc_dcf_dt (dt_poll_dcf s).1 true
  have e : dt_poll rtc_set_datetime s =
      { dt_poll_int rtc_set_datetime (dt_poll_rtc (dt_poll_dcf s).1 true).1 true with
        fin_dt := { (dt_poll_int rtc_set_datetime
                      (dt_poll_rtc (dt_poll_dcf s).1 true).1 true).fin_dt with
                    in_sync := true } } := by
    unfold dt_poll
    simp only [h1, h4.2, if_true]
  rw [e]
  simp only [dt_poll_int_fin_dt, dt_poll_int_dcf_dt, h4.1, h5, h2, h3, and_self]

/-- Witness of C1: radio and external RTC deliver readings two seconds apart in
the same cycle; the final value is the radio value. -/
theorem dt_poll_radio_priority_witness :
    arb_radio_and_rtc.dcf_dt.received = true ∧
    datetime_time_diff arb_radio_and_rtc.dcf_dt.dt arb_radio_and_rtc.rtc_dt.dt = 2 ∧
    (dt_poll (fun _ => true) arb_radio_and_rtc).fin_dt.dt = arb_radio_and_rtc.dcf_dt.dt ∧
    (dt_poll (fun _ => true) arb_radio_and_rtc).fin_dt.sync_src = dt_src_t.dt_src_dcf ∧
    (dt_poll (fun _ => true) arb_radio_and_rtc).dcf_dt.in_sync = true ∧
    (dt_poll (fun _ => true) arb_radio_and_rtc).fin_dt.in_sync = true ∧
    (dt_poll (fun _ => true) arb_radio_and_rtc).dcf_dt.dt = arb_radio_and_rtc.dcf_dt.dt :=
  ⟨rfl, by decide, dt_poll_radio_priority (fun _ => true) arb_radio_and_rtc rfl⟩

/-- The staleness checks of the three source records leave the final record,
the system counters and the datetimes of the three records untouched. -/
theorem dt_s_tout_sources_frame (s : ArbState) :
    (dt_s_tout_sources s).fin_dt = s.fin_dt ∧
    (dt_s_tout_sources s).sys_s_time = s.sys_s_time ∧
    (dt_s_tout_sources s).sys_ustime = s.sys_ustime ∧
    (dt_s_tout_sources s).dcf_dt.dt = s.dcf_dt.dt ∧
    (dt_s_tout_sources s).rtc_dt.dt = s.rtc_dt.dt ∧
    (dt_s_tout_sources s).int_dt.dt = s.int_dt.dt := by
  unfold dt_s_tout_sources
  dsimp only
  split_ifs <;> exact ⟨rfl, rfl, rfl, rfl, rfl, rfl⟩

/-- The last two blocks of `dt_s_tout` in one step: the final record is
replaced by the internal RTC record's value exactly when it is not in sync or
older than one second. -/
theorem dt_s_tout_fin_char (s : ArbState) :
    dt_s_tout_fin_fallback (dt_s_tout_fin_check s) =
      if s.fin_dt.in_sync = false ∨
          (s.fin_dt.in_sync = true ∧ get_diff_s_time s.sys_s_time s.fin_dt.s_time > 1) then
        { s with fin_dt := { dt := s.int_dt.dt, received := true, in_sync := s.int_dt.in_sync,
                             ustime := s.sys_ustime, s_time := s.sys_s_time,
                             sync_src := dt_src_t.dt_src_int } }
      else s := by
  cases hb : s.fin_dt.in_sync
  · have h1 : dt_s_tout_fin_check s = s := by
      unfold dt_s_tout_fin_check
      simp [hb]
    rw [h1]
    unfold dt_s_tout_fin_fallback
    simp [hb, dt_set_received]
  · by_cases hd : get_diff_s_time s.sys_s_time s.fin_dt.s_time > 1
    · have h1 : dt_s_tout_fin_check s = { s with fin_dt := { s.fin_dt with in_sync := false } } := by
        unfold dt_s_tout_fin_check
        simp [hb, hd]
      rw [h1]
      unfold dt_s_tout_fin_fallback
      simp [dt_set_received, hd]
    · have h1 : dt_s_tout_fin_check s = s := by
        unfold dt_s_tout_fin_check
        simp [hb, hd]
      rw [h1]
      unfold dt_s_tout_fin_fallback
      simp [hb, hd]

/-- C2: `dt_s_tout` falls back to the internal RTC exactly when, on entry, the
final record is not in sync or was last set more than one second ago (as
`get_diff_s_time` measures it). Then the final datetime is the internal RTC
record's datetime, the source tag is internal RTC and the final in-sync flag
equals the internal RTC record's in-sync flag as the same sweep leaves it.
Otherwise the final record is unchanged. -/
theorem dt_s_tout_fallback (s : ArbState) :
    if s.fin_dt.in_sync = false ∨
        (s.fin_dt.in_sync = true ∧ get_diff_s_time s.sys_s_time s.fin_dt.s_time > 1) then
      (dt_s_tout s).fin_dt.dt = s.int_dt.dt ∧
      (dt_s_tout s).fin_dt.dt = (dt_s_tout s).int_dt.dt ∧
      (dt_s_tout s).fin_dt.sync_src = dt_src_t.dt_src_int ∧
      (dt_s_tout s).fin_dt.in_sync = (dt_s_tout s).int_dt.in_sync
    else (dt_s_tout s).fin_dt = s.fin_dt := by
  obtain ⟨hf, hs, -, -, -, hi⟩ := dt_s_tout_sources_frame s
  unfold dt_s_tout
  rw [dt_s_tout_fin_char, hf, hs]
  split_ifs with h
  · exact ⟨hi, rfl, rfl, rfl⟩
  · exact hf

/-! ## Theorems: the telegram interpreter -/

/-- A successful date extraction leaves the time fields of the caller's
`datetime_t` as they were. -/
theorem rx_bits_extract_date_time_fields (rx : Nat → dcf_bitval_t) (t d : datetime_t)
    (h : rx_bits_extract_date rx t = some d) :
    d.hour = t.hour ∧ d.min = t.min ∧ d.sec = t.sec := by
  unfold rx_bits_extract_date at h
  repeat' split at h
  all_goals try contradiction
  dsimp only at h
  split_ifs at h
  all_goals
    simp only [Option.some.injEq] at h
    subst h
    exact ⟨rfl, rfl, rfl⟩

/-- A successful time extraction writes second 0. -/
theorem rx_bits_extract_time_sec (rx : Nat → dcf_bitval_t) (u t : datetime_t)
    (h : rx_bits_extract_time rx u = some t) : t.sec = 0 := by
  unfold rx_bits_extract_time at h
  repeat' split at h
  all_goals try contradiction
  all_goals try dsimp only at h
  all_goals try split_ifs at h
  all_goals
    simp only [Option.some.injEq] at h
    subst h
    rfl

/-- A wrong marker in slot 0 or slot 20 makes `interpret_rx_bits` return false
without changing any variable. -/
theorem interpret_rx_bits_marker (s : DcfState)
    (h : s.rx_bits_val 0 ≠ dcf_bitval_t.dcf_bitval_false ∨
         s.rx_bits_val 20 ≠ dcf_bitval_t.dcf_bitval_true) :
    interpret_rx_bits s = (s, false) := by
  unfold interpret_rx_bits
  by_cases h0 : s.rx_bits_val 0 ≠ dcf_bitval_t.dcf_bitval_false
  · rw [if_pos h0]
  · rw [if_neg h0, if_pos (h.resolve_left h0)]

/-- With both markers right, a frame whose time or date cannot be extracted makes
`interpret_rx_bits` clear `dt_last_valid`, zero the counter and return false. -/
theorem interpret_rx_bits_fail (s : DcfState)
    (h0 : s.rx_bits_val 0 = dcf_bitval_t.dcf_bitval_false)
    (h20 : s.rx_bits_val 20 = dcf_bitval_t.dcf_bitval_true)
    (hf : frame_decode s.rx_bits_val = none) :
    interpret_rx_bits s = ({ s with dt_last_valid := false, cnt_dt_valid := 0 }, false) := by
  unfold interpret_rx_bits
  rw [if_neg (by simp [h0]), if_neg (by simp [h20])]
  unfold frame_decode at hf
  cases ht : rx_bits_extract_time s.rx_bits_val datetime_uninit with
  | none => simp [ht]
  | some t =>
    rw [ht] at hf
    simp only [Option.some_bind] at hf
    simp [ht, hf]

/-- With both markers right, a frame that decodes to `d` is stored in `dt_last`;
the counter becomes `interpret_cnt_next s d` and the result tells whether it
reached the threshold. -/
theorem interpret_rx_bits_ok (s : DcfState) (d : datetime_t)
    (h0 : s.rx_bits_val 0 = dcf_bitval_t.dcf_bitval_false)
    (h20 : s.rx_bits_val 20 = dcf_bitval_t.dcf_bitval_true)
    (hf : frame_decode s.rx_bits_val = some d) :
    interpret_rx_bits s =
      ({ s with dt_last := d, dt_last_valid := true, cnt_dt_valid := interpret_cnt_next s d },
       decide (interpret_cnt_next s d ≥ DCF_VALID_DATETIME_CNT)) := by
  unfold interpret_rx_bits
  rw [if_neg (by simp [h0]), if_neg (by simp [h20])]
  unfold frame_decode at hf
  cases ht : rx_bits_extract_time s.rx_bits_val datetime_uninit with
  | none => simp [ht] at hf
  | some t =>
    rw [ht] at hf
    simp only [Option.some_bind] at hf
    obtain ⟨e1, e2, e3⟩ := rx_bits_extract_date_time_fields _ _ _ hf
    have ed : datetime_time_diff d s.dt_last = datetime_time_diff t s.dt_last := by
      simp only [datetime_time_diff, datetime_time_to_sec, e1, e2, e3]
    unfold interpret_cnt_next
    rw [ed]
    by_cases hv : s.dt_last_valid = true <;>
      by_cases hc : datetime_time_diff t s.dt_last < 30 ∨ datetime_time_diff t s.dt_last > 90 <;>
      by_cases hdc : datetime_date_compare d s.dt_last = 0 <;>
      by_cases hm : s.cnt_dt_valid < INT_MAX <;>
      simp [ht, hf, hv, hc, hdc, hm]

/-- The loop of `rx_bits_to_uint8` reads only the slots `idx .. idx + n - 1`. -/
theorem rx_bits_to_uint8_loop_congr (rx rx' : Nat → dcf_bitval_t) (n : Nat) :
    ∀ (idx val mask : Nat), (∀ k, idx ≤ k → k < idx + n → rx k = rx' k) →
      rx_bits_to_uint8_loop rx n idx val mask = rx_bits_to_uint8_loop rx' n idx val mask := by
  induction n with
  | zero => intro idx val mask _; rfl
  | succ n ih =>
    intro idx val mask h
    have e : rx idx = rx' idx := h idx (Nat.le_refl _) (by omega)
    simp only [rx_bits_to_uint8_loop, e]
    split_ifs
    · rfl
    · exact ih _ _ _ (fun k h1 h2 => h k (by omega) (by omega))
    · exact ih _ _ _ (fun k h1 h2 => h k (by omega) (by omega))

/-- `rx_bits_to_uint8` reads only the slots `start_idx .. end_idx`. -/
theorem rx_bits_to_uint8_congr (rx rx' : Nat → dcf_bitval_t) (a b : Int)
    (h : ∀ k : Nat, a ≤ k → (k : Int) ≤ b → rx k = rx' k) :
    rx_bits_to_uint8 rx a b = rx_bits_to_uint8 rx' a b := by
  unfold rx_bits_to_uint8
  split_ifs with hc
  · rfl
  · exact rx_bits_to_uint8_loop_congr rx rx' _ _ _ _ (fun k h1 h2 => h k (by omega) (by omega))

/-- A parity bit that satisfies `check_parity` fails it once inverted. -/
theorem check_parity_invert (p : Int) (v : dcf_bitval_t) (h : check_parity p v = true) :
    check_parity p (dcf_bit_invert v) = false := by
  cases v <;> simp [check_parity, dcf_bit_invert] at h ⊢ <;> omega

/-- `rx_bits_extract_time` reads only the slots 21..35. -/
theorem rx_bits_extract_time_congr (rx rx' : Nat → dcf_bitval_t) (u : datetime_t)
    (h : ∀ k : Nat, 21 ≤ k → k ≤ 35 → rx k = rx' k) :
    rx_bits_extract_time rx u = rx_bits_extract_time rx' u := by
  unfold rx_bits_extract_time
  rw [h 28 (by omega) (by omega), h 35 (by omega) (by omega),
      rx_bits_to_uint8_congr rx rx' 21 27 (fun k h1 h2 => h k (by omega) (by omega)),
      rx_bits_to_uint8_congr rx rx' 29 34 (fun k h1 h2 => h k (by omega) (by omega))]

/-- `rx_bits_extract_date` reads only the slots 36..58. -/
theorem rx_bits_extract_date_congr (rx rx' : Nat → dcf_bitval_t) (u : datetime_t)
    (h : ∀ k : Nat, 36 ≤ k → k ≤ 58 → rx k = rx' k) :
    rx_bits_extract_date rx u = rx_bits_extract_date rx' u := by
  unfold rx_bits_extract_date
  rw [h 58 (by omega) (by omega),
      rx_bits_to_uint8_congr rx rx' 36 41 (fun k h1 h2 => h k (by omega) (by omega)),
      rx_bits_to_uint8_congr rx rx' 42 44 (fun k h1 h2 => h k (by omega) (by omega)),
      rx_bits_to_uint8_congr rx rx' 45 49 (fun k h1 h2 => h k (by omega) (by omega)),
      rx_bits_to_uint8_congr rx rx' 50 57 (fun k h1 h2 => h k (by omega) (by omega))]

/-- Inverting the minute parity slot 28 of a frame with a valid time makes the
time extraction fail. -/
theorem rx_bits_extract_time_flip28 (rx : Nat → dcf_bitval_t) (u t : datetime_t)
    (h : rx_bits_extract_time rx u = some t) :
    rx_bits_extract_time (Function.update rx 28 (dcf_bit_invert (rx 28))) u = none := by
  have e1 := rx_bits_to_uint8_congr rx (Function.update rx 28 (dcf_bit_invert (rx 28))) 21 27
    (fun k h1 h2 => by rw [Function.update_noteq (by omega)])
  unfold rx_bits_extract_time at h ⊢
  rw [← e1, Function.update_same]
  split at h
  · contradiction
  · split at h
    · contradiction
    · rename_i val hv
      split at h
      · contradiction
      · rename_i hp
        have hp' : check_parity (calc_parity 0 val) (rx 28) = true := by simpa using hp
        simp [check_parity_invert _ _ hp']

/-- Inverting the hour parity slot 35 of a frame with a valid time makes the
time extraction fail. -/
theorem rx_bits_extract_time_flip35 (rx : Nat → dcf_bitval_t) (u t : datetime_t)
    (h : rx_bits_extract_time rx u = some t) :
    rx_bits_extract_time (Function.update rx 35 (dcf_bit_invert (rx 35))) u = none := by
  have e1 := rx_bits_to_uint8_congr rx (Function.update rx 35 (dcf_bit_invert (rx 35))) 21 27
    (fun k h1 h2 => by rw [Function.update_noteq (by omega)])
  have e2 := rx_bits_to_uint8_congr rx (Function.update rx 35 (dcf_bit_invert (rx 35))) 29 34
    (fun k h1 h2 => by rw [Function.update_noteq (by omega)])
  unfold rx_bits_extract_time at h ⊢
  rw [← e1, ← e2, Function.update_same, Function.update_noteq (by omega)]
  split at h
  · contradiction
  · split at h
    · contradiction
    · split at h
      · contradiction
      · dsimp only at h
        split at h
        · contradiction
        · split at h
          · contradiction
          · rename_i val hv
            split at h
            · contradiction
            · rename_i hp
              have hp' : check_parity (calc_parity 0 val) (rx 35) = true := by simpa using hp
              simp [check_parity_invert _ _ hp']

/-- Inverting the date parity slot 58 of a frame with a valid date makes the
date extraction fail. -/
theorem rx_bits_extract_date_flip58 (rx : Nat → dcf_bitval_t) (u d : datetime_t)
    (h : rx_bits_extract_date rx u = some d) :
    rx_bits_extract_date (Function.update rx 58 (dcf_bit_invert (rx 58))) u = none := by
  have e1 := rx_bits_to_uint8_congr rx (Function.update rx 58 (dcf_bit_invert (rx 58))) 36 41
    (fun k h1 h2 => by rw [Function.update_noteq (by omega)])
  have e2 := rx_bits_to_uint8_congr rx (Function.update rx 58 (dcf_bit_invert (rx 58))) 42 44
    (fun k h1 h2 => by rw [Function.update_noteq (by omega)])
  have e3 := rx_bits_to_uint8_congr rx (Function.update rx 58 (dcf_bit_invert (rx 58))) 45 49
    (fun k h1 h2 => by rw [Function.update_noteq (by omega)])
  have e4 := rx_bits_to_uint8_congr rx (Function.update rx 58 (dcf_bit_invert (rx 58))) 50 57
    (fun k h1 h2 => by rw [Function.update_noteq (by omega)])
  unfold rx_bits_extract_date at h ⊢
  rw [← e1, ← e2, ← e3, ← e4, Function.update_same]
  repeat' split at h
  all_goals try contradiction
  dsimp only at h
  split at h
  · contradiction
  · rename_i hp
    have hp' := by simpa using hp
    simp [check_parity_invert _ _ hp']

/-- `interpret_rx_bits_ok` for a call on freshly filled slots. -/
theorem interpret_frame_ok (s : DcfState) (f : Nat → dcf_bitval_t) (d : datetime_t)
    (h : frame_decodes_to f d) :
    interpret_frame s f =
      ({ s with rx_bits_val := f, dt_last := d, dt_last_valid := true,
                cnt_dt_valid := interpret_cnt_next s d },
       decide (interpret_cnt_next s d ≥ DCF_VALID_DATETIME_CNT)) := by
  unfold interpret_frame
  rw [interpret_rx_bits_ok _ d h.1 h.2.1 h.2.2]
  rfl

/-- `interpret_rx_bits` returns true only with the counter at the threshold or
above and `dt_last_valid` set. -/
theorem interpret_rx_bits_true (s : DcfState) (h : (interpret_rx_bits s).2 = true) :
    (interpret_rx_bits s).1.cnt_dt_valid ≥ DCF_VALID_DATETIME_CNT ∧
    (interpret_rx_bits s).1.dt_last_valid = true := by
  by_cases hm : s.rx_bits_val 0 ≠ dcf_bitval_t.dcf_bitval_false ∨
      s.rx_bits_val 20 ≠ dcf_bitval_t.dcf_bitval_true
  · rw [interpret_rx_bits_marker s hm] at h
    exact absurd h (by simp)
  · have h0 : s.rx_bits_val 0 = dcf_bitval_t.dcf_bitval_false := by
      by_contra hc; exact hm (Or.inl hc)
    have h20 : s.rx_bits_val 20 = dcf_bitval_t.dcf_bitval_true := by
      by_contra hc; exact hm (Or.inr hc)
    cases hf : frame_decode s.rx_bits_val with
    | none =>
      rw [interpret_rx_bits_fail s h0 h20 hf] at h
      exact absurd h (by simp)
    | some d =>
      rw [interpret_rx_bits_ok s d h0 h20 hf] at h ⊢
      exact ⟨by simpa using h, rfl⟩

/-- `dcf_poll` returns true only through `interpret_rx_bits`, hence only with the
counter at the threshold or above and `dt_last_valid` set. -/
theorem dcf_poll_true (s : DcfState) (sys_ustime : Nat) (gpio : Bool)
    (h : (dcf_poll s sys_ustime gpio).2 = true) :
    (dcf_poll s sys_ustime gpio).1.cnt_dt_valid ≥ DCF_VALID_DATETIME_CNT ∧
    (dcf_poll s sys_ustime gpio).1.dt_last_valid = true := by
  unfold dcf_poll at h ⊢
  dsimp only at h ⊢
  by_cases c1 : (!gpio) ≠ s.pin_old
  · rw [if_pos c1] at h
    exact absurd h (by simp)
  · rw [if_neg c1] at h ⊢
    by_cases c2 : (dcf_sig_quality s sys_ustime).sync_detected = true
    · rw [if_pos c2] at h
      exact absurd h (by simp)
    · rw [if_neg c2] at h ⊢
      by_cases c3 : (!(dcf_sig_quality s sys_ustime).sync_valid) = true
      · rw [if_pos c3] at h
        exact absurd h (by simp)
      · rw [if_neg c3] at h ⊢
        by_cases c4 : get_diff_ustime sys_ustime (dcf_sig_quality s sys_ustime).sync_time
            > DCF_T_59SEC
        · rw [if_pos c4] at h ⊢
          exact interpret_rx_bits_true _ h
        · rw [if_neg c4] at h
          by_cases c5 : (dcf_sig_quality s sys_ustime).bit_s.val ≠ dcf_bitval_t.dcf_bitval_none
          · rw [if_pos c5] at h
            exact absurd h (by simp)
          · rw [if_neg c5] at h
            exact absurd h (by simp)

/-- C3: from a decoder state with no accepted telegram and counter 0, three
successive frames that each pass the markers and decode to a valid time and
date, with the same date and times 60 s apart, make `interpret_rx_bits` return
false, false and true; after the third call the counter is 3 and the stored
telegram is the third frame's date and time with second 0, which
`dcf_get_datetime` yields. `interpret_rx_bits`, and hence `dcf_poll`, return
true only with the counter at 3 or above. -/
theorem interpret_rx_bits_three_frames (s0 : DcfState) (f1 f2 f3 : Nat → dcf_bitval_t)
    (d1 d2 d3 : datetime_t)
    (hv : s0.dt_last_valid = false) (hc : s0.cnt_dt_valid = 0)
    (h1 : frame_decodes_to f1 d1) (h2 : frame_decodes_to f2 d2) (h3 : frame_decodes_to f3 d3)
    (hd12 : datetime_date_compare d2 d1 = 0) (hd23 : datetime_date_compare d3 d2 = 0)
    (ht12 : datetime_time_diff d2 d1 = 60) (ht23 : datetime_time_diff d3 d2 = 60) :
    (interpret_frame s0 f1).2 = false ∧
    (interpret_frame (interpret_frame s0 f1).1 f2).2 = false ∧
    (interpret_frame (interpret_frame (interpret_frame s0 f1).1 f2).1 f3).2 = true ∧
    (interpret_frame (interpret_frame (interpret_frame s0 f1).1 f2).1 f3).1.cnt_dt_valid = 3 ∧
    (interpret_frame (interpret_frame (interpret_frame s0 f1).1 f2).1 f3).1.dt_last = d3 ∧
    d3.sec = 0 ∧
    dcf_get_datetime (interpret_frame (interpret_frame (interpret_frame s0 f1).1 f2).1 f3).1
      = some d3 ∧
    (∀ s : DcfState, (interpret_rx_bits s).2 = true → (interpret_rx_bits s).1.cnt_dt_valid ≥ 3) ∧
    (∀ (s : DcfState) (t : Nat) (gpio : Bool),
      (dcf_poll s t gpio).2 = true → (dcf_poll s t gpio).1.cnt_dt_valid ≥ 3) := by
  have hsec : d3.sec = 0 := by
    obtain ⟨-, -, hf⟩ := h3
    unfold frame_decode at hf
    cases ht : rx_bits_extract_time f3 datetime_uninit with
    | none => simp [ht] at hf
    | some t =>
      rw [ht] at hf
      simp only [Option.some_bind] at hf
      rw [(rx_bits_extract_date_time_fields _ _ _ hf).2.2]
      exact rx_bits_extract_time_sec _ _ _ ht
  rw [interpret_frame_ok s0 f1 d1 h1]
  have c1 : interpret_cnt_next s0 d1 = 1 := by
    simp [interpret_cnt_next, hv, hc, INT_MAX]
  rw [c1]
  rw [interpret_frame_ok _ f2 d2 h2]
  have c2 : interpret_cnt_next
      { s0 with rx_bits_val := f1, dt_last := d1, dt_last_valid := true, cnt_dt_valid := 1 } d2
      = 2 := by
    simp [interpret_cnt_next, hd12, ht12, INT_MAX]
  rw [c2]
  rw [interpret_frame_ok _ f3 d3 h3]
  have c3 : interpret_cnt_next
      { s0 with rx_bits_val := f2, dt_last := d2, dt_last_valid := true, cnt_dt_valid := 2 } d3
      = 3 := by
    simp [interpret_cnt_next, hd23, ht23, INT_MAX]
  simp only [c3]
  refine ⟨by decide, by decide, by decide, trivial, trivial, hsec, rfl, ?_, ?_⟩
  · exact fun s h => (interpret_rx_bits_true s h).1
  · exact fun s t g h => (dcf_poll_true s t g h).1


/-- Witness of C3: the frames of 12:30, 12:31 and 12:32 of 17.05.2024 interpreted
from the initial state of the decoder. -/
theorem interpret_rx_bits_three_frames_witness :
    frame_decodes_to (frame_test 30) (dt_test 30) ∧
    frame_decodes_to (frame_test 31) (dt_test 31) ∧
    frame_decodes_to (frame_test 32) (dt_test 32) ∧
    (interpret_frame dcf_init (frame_test 30)).2 = false ∧
    (interpret_frame (interpret_frame dcf_init (frame_test 30)).1 (frame_test 31)).2 = false ∧
    (interpret_frame (interpret_frame (interpret_frame dcf_init (frame_test 30)).1
      (frame_test 31)).1 (frame_test 32)).2 = true ∧
    (interpret_frame (interpret_frame (interpret_frame dcf_init (frame_test 30)).1
      (frame_test 31)).1 (frame_test 32)).1.dt_last = dt_test 32 := by
  have h30 : frame_decodes_to (frame_test 30) (dt_test 30) := ⟨by decide, by decide, by decide⟩
  have h31 : frame_decodes_to (frame_test 31) (dt_test 31) := ⟨by decide, by decide, by decide⟩
  have h32 : frame_decodes_to (frame_test 32) (dt_test 32) := ⟨by decide, by decide, by decide⟩
  have h := interpret_rx_bits_three_frames dcf_init (frame_test 30) (frame_test 31)
    (frame_test 32) (dt_test 30) (dt_test 31) (dt_test 32) rfl rfl h30 h31 h32
    (by decide) (by decide) (by decide) (by decide)
  exact ⟨h30, h31, h32, h.1, h.2.1, h.2.2.1, h.2.2.2.2.1⟩

/-- A frame that decodes has a defined parity slot: inverting slot 28, 35 or 58
makes the decode fail. -/
theorem frame_decode_parity_flip (rx : Nat → dcf_bitval_t) (d : datetime_t) (i : Nat)
    (hi : i = 28 ∨ i = 35 ∨ i = 58) (h : frame_decode rx = some d) :
    frame_decode (Function.update rx i (dcf_bit_invert (rx i))) = none := by
  unfold frame_decode at h ⊢
  cases ht : rx_bits_extract_time rx datetime_uninit with
  | none => simp [ht] at h
  | some t =>
    rw [ht] at h
    simp only [Option.some_bind] at h
    rcases hi with hi | hi | hi <;> subst hi
    · rw [rx_bits_extract_time_flip28 rx _ t ht]
      rfl
    · rw [rx_bits_extract_time_flip35 rx _ t ht]
      rfl
    · rw [← rx_bits_extract_time_congr rx _ datetime_uninit
        (fun k h1 h2 => by rw [Function.update_noteq (by omega)]), ht]
      simp only [Option.some_bind]
      exact rx_bits_extract_date_flip58 rx t d h

/-- C4: when the slot buffer holds a frame that decodes as valid, the same
buffer with exactly one parity slot inverted (28, 35 or 58) is rejected by
`interpret_rx_bits` (result false) and `dt_last` is the same after the call as
before it. The inverted slot really differs from the original one. -/
theorem interpret_rx_bits_parity_flip (s : DcfState) (d : datetime_t) (i : Nat)
    (hi : i = 28 ∨ i = 35 ∨ i = 58) (h : frame_decodes_to s.rx_bits_val d) :
    dcf_bit_invert (s.rx_bits_val i) ≠ s.rx_bits_val i ∧
    (interpret_frame s (Function.update s.rx_bits_val i (dcf_bit_invert (s.rx_bits_val i)))).2
      = false ∧
    (interpret_frame s (Function.update s.rx_bits_val i
      (dcf_bit_invert (s.rx_bits_val i)))).1.dt_last = s.dt_last := by
  obtain ⟨h0, h20, hf⟩ := h
  have hn := frame_decode_parity_flip s.rx_bits_val d i hi hf
  have hne : dcf_bit_invert (s.rx_bits_val i) ≠ s.rx_bits_val i := by
    intro e
    rw [e, Function.update_eq_self, hf] at hn
    exact absurd hn (by simp)
  have hi0 : (0 : Nat) ≠ i := by omega
  have hi20 : (20 : Nat) ≠ i := by omega
  have e := interpret_rx_bits_fail
    { s with rx_bits_val := Function.update s.rx_bits_val i (dcf_bit_invert (s.rx_bits_val i)) }
    (by simpa [Function.update_noteq hi0] using h0)
    (by simpa [Function.update_noteq hi20] using h20) hn
  unfold interpret_frame
  rw [e]
  exact ⟨hne, rfl, rfl⟩

/-- Witness of C4: the confirmed decoder state receives the frame of 12:31 with
the hour parity slot 35 inverted. -/
theorem interpret_rx_bits_parity_flip_witness :
    frame_decodes_to (frame_test 31) (dt_test 31) ∧
    (interpret_frame dcf_after_three (Function.update (frame_test 31) 35
      (dcf_bit_invert (frame_test 31 35)))).2 = false ∧
    (interpret_frame dcf_after_three (Function.update (frame_test 31) 35
      (dcf_bit_invert (frame_test 31 35)))).1.dt_last = dcf_after_three.dt_last := by
  have h31 : frame_decodes_to (frame_test 31) (dt_test 31) := ⟨by decide, by decide, by decide⟩
  have h := interpret_rx_bits_parity_flip { dcf_after_three with rx_bits_val := frame_test 31 }
    (dt_test 31) 35 (Or.inr (Or.inl rfl)) h31
  exact ⟨h31, h.2.1, h.2.2⟩

/-- After a time discontinuity against an accepted telegram, an otherwise valid
frame always leaves the counter at 2: the reset to 1 is followed by the
increment of the acceptance path. -/
theorem interpret_frame_discontinuity (s : DcfState) (f : Nat → dcf_bitval_t) (d : datetime_t)
    (h : frame_decodes_to f d) (hv : s.dt_last_valid = true)
    (hd : datetime_time_diff d s.dt_last < 30 ∨ datetime_time_diff d s.dt_last > 90) :
    (interpret_frame s f).1.cnt_dt_valid = 2 ∧ (interpret_frame s f).2 = false := by
  rw [interpret_frame_ok s f d h]
  have hcond : s.dt_last_valid = true ∧
      (datetime_time_diff d s.dt_last < 30 ∨ datetime_time_diff d s.dt_last > 90 ∨
       datetime_date_compare d s.dt_last ≠ 0) := ⟨hv, by tauto⟩
  have c : interpret_cnt_next s d = 2 := by
    unfold interpret_cnt_next
    rw [if_pos hcond]
    decide
  simp only [c]
  exact ⟨trivial, by decide⟩

/-- C5 (the code at the failing input): the telegram of 12:30 is confirmed
(counter 3) and the next valid frame is the one of 12:32, 120 s later. The
call leaves the counter at 2, not at 1, and the single further frame of 12:33
is reported as confirmed. -/
theorem interpret_rx_bits_discontinuity_cnt :
    dcf_after_three.dt_last_valid = true ∧
    dcf_after_three.cnt_dt_valid = 3 ∧
    frame_decodes_to (frame_test 32) (dt_test 32) ∧
    datetime_time_diff (dt_test 32) dcf_after_three.dt_last = 120 ∧
    (interpret_frame dcf_after_three (frame_test 32)).1.cnt_dt_valid = 2 ∧
    (interpret_frame dcf_after_three (frame_test 32)).2 = false ∧
    (interpret_frame (interpret_frame dcf_after_three (frame_test 32)).1 (frame_test 33)).2
      = true := by
  refine ⟨by decide, by decide, ⟨by decide, by decide, by decide⟩, by decide, by decide,
    by decide, by decide⟩


/-- Counterexample to C6: the confirmed decoder state (counter 3) receives the
frame of 12:31 with marker slot 0 undefined. The call rejects the frame and the
counter is still 3, not 0. -/
theorem interpret_rx_bits_marker_cnt_kept :
    (Function.update (frame_test 31) 0 dcf_bitval_t.dcf_bitval_none) 0
      ≠ dcf_bitval_t.dcf_bitval_false ∧
    (interpret_frame dcf_after_three
      (Function.update (frame_test 31) 0 dcf_bitval_t.dcf_bitval_none)).2 = false ∧
    (interpret_frame dcf_after_three
      (Function.update (frame_test 31) 0 dcf_bitval_t.dcf_bitval_none)).1.cnt_dt_valid = 3 ∧
    (interpret_frame dcf_after_three
      (Function.update (frame_test 31) 0 dcf_bitval_t.dcf_bitval_none)).1.cnt_dt_valid ≠ 0 := by
  refine ⟨by decide, by decide, by decide, by decide⟩

/-- C6 (amended): a call of `interpret_rx_bits` that rejects the frame because
the time or the date cannot be extracted (an undefined contributing slot, a
failed parity check or a failed range check, with both markers right) leaves
the counter at 0 and clears `dt_last_valid`; a call that rejects the frame
because marker slot 0 or 20 is wrong returns before touching any variable, so
the counter keeps its value. -/
theorem interpret_rx_bits_reject_cnt (s : DcfState) :
    (s.rx_bits_val 0 ≠ dcf_bitval_t.dcf_bitval_false ∨
      s.rx_bits_val 20 ≠ dcf_bitval_t.dcf_bitval_true →
        interpret_rx_bits s = (s, false)) ∧
    (s.rx_bits_val 0 = dcf_bitval_t.dcf_bitval_false →
      s.rx_bits_val 20 = dcf_bitval_t.dcf_bitval_true →
      frame_decode s.rx_bits_val = none →
        (interpret_rx_bits s).2 = false ∧ (interpret_rx_bits s).1.cnt_dt_valid = 0 ∧
        (interpret_rx_bits s).1.dt_last_valid = false) := by
  refine ⟨interpret_rx_bits_marker s, fun h0 h20 hf => ?_⟩
  rw [interpret_rx_bits_fail s h0 h20 hf]
  exact ⟨rfl, rfl, rfl⟩

/-- Witness of C6 (amended): in the confirmed state, the frame of 12:31 with the
minute parity slot inverted resets the counter to 0, the same frame with
marker slot 20 undefined leaves it at 3. -/
theorem interpret_rx_bits_reject_cnt_witness :
    (interpret_frame dcf_after_three
      (Function.update (frame_test 31) 28 (dcf_bit_invert (frame_test 31 28)))).1.cnt_dt_valid
      = 0 ∧
    (interpret_frame dcf_after_three
      (Function.update (frame_test 31) 20 dcf_bitval_t.dcf_bitval_none)).1.cnt_dt_valid = 3 := by
  have h1 := (interpret_rx_bits_reject_cnt
    { dcf_after_three with
      rx_bits_val := Function.update (frame_test 31) 28 (dcf_bit_invert (frame_test 31 28)) }).2
    (by decide) (by decide) (by decide)
  have h2 := (interpret_rx_bits_reject_cnt
    { dcf_after_three with
      rx_bits_val := Function.update (frame_test 31) 20 dcf_bitval_t.dcf_bitval_none }).1
    (Or.inr (by decide))
  refine ⟨h1.2.1, ?_⟩
  unfold interpret_frame
  rw [h2]
  decide

/-- Counterexample to C7: after the first valid frame from the initial state the
counter is 1, below the threshold 3, and `dcf_get_datetime` nevertheless yields
the decoded datetime instead of NULL. -/
theorem dcf_get_datetime_below_threshold :
    (interpret_frame dcf_init (frame_test 30)).1.cnt_dt_valid = 1 ∧
    (interpret_frame dcf_init (frame_test 30)).2 = false ∧
    dcf_get_datetime (interpret_frame dcf_init (frame_test 30)).1 = some (dt_test 30) := by
  refine ⟨by decide, by decide, by decide⟩

/-- C7 (amended): `dcf_get_datetime` yields the stored telegram exactly when
`dt_last_valid` is set, whatever the counter. After `interpret_rx_bits`
accepted a frame (markers right, time and date valid) it yields that frame's
datetime, also below the threshold; after a frame with both markers right whose
time or date failed to decode it yields NULL; after a frame rejected for a wrong
marker (slot 0 or slot 20) nothing has changed, so it yields what it yielded
before the frame (the previous telegram, if one was stored). The threshold 3
gates the result of `interpret_rx_bits` and `dcf_poll`: whenever that result is
true the counter is at least 3 and `dcf_get_datetime` yields the stored
telegram. -/
theorem dcf_get_datetime_gate (s : DcfState) :
    ((dcf_get_datetime s).isSome = s.dt_last_valid) ∧
    (∀ d, frame_decodes_to s.rx_bits_val d →
      dcf_get_datetime (interpret_rx_bits s).1 = some d) ∧
    (s.rx_bits_val 0 = dcf_bitval_t.dcf_bitval_false →
      s.rx_bits_val 20 = dcf_bitval_t.dcf_bitval_true →
      frame_decode s.rx_bits_val = none → dcf_get_datetime (interpret_rx_bits s).1 = none) ∧
    (s.rx_bits_val 0 ≠ dcf_bitval_t.dcf_bitval_false ∨
        s.rx_bits_val 20 ≠ dcf_bitval_t.dcf_bitval_true →
      (interpret_rx_bits s).1 = s ∧
      dcf_get_datetime (interpret_rx_bits s).1 = dcf_get_datetime s) ∧
    ((interpret_rx_bits s).2 = true →
      (interpret_rx_bits s).1.cnt_dt_valid ≥ 3 ∧
      dcf_get_datetime (interpret_rx_bits s).1 = some (interpret_rx_bits s).1.dt_last) ∧
    (∀ (t : Nat) (gpio : Bool), (dcf_poll s t gpio).2 = true →
      (dcf_poll s t gpio).1.cnt_dt_valid ≥ 3 ∧
      dcf_get_datetime (dcf_poll s t gpio).1 = some (dcf_poll s t gpio).1.dt_last) := by
  refine ⟨?_, ?_, ?_, ?_, ?_, ?_⟩
  · unfold dcf_get_datetime
    cases s.dt_last_valid <;> rfl
  · intro d h
    rw [interpret_rx_bits_ok s d h.1 h.2.1 h.2.2]
    rfl
  · intro h0 h20 hf
    rw [interpret_rx_bits_fail s h0 h20 hf]
    rfl
  · intro hm
    rw [interpret_rx_bits_marker s hm]
    exact ⟨rfl, rfl⟩
  · intro h
    obtain ⟨h1, h2⟩ := interpret_rx_bits_true s h
    refine ⟨h1, ?_⟩
    unfold dcf_get_datetime
    rw [h2]
    rfl
  · intro t gpio h
    obtain ⟨h1, h2⟩ := dcf_poll_true s t gpio h
    refine ⟨h1, ?_⟩
    unfold dcf_get_datetime
    rw [h2]
    rfl

/-- Witness of C7 (amended): the first frame after start-up is accepted with
counter 1 and `dcf_get_datetime` yields it; a following frame with slot 20
undefined is rejected for its marker and `dcf_get_datetime` still yields the
telegram of 12:30. -/
theorem dcf_get_datetime_gate_witness :
    dcf_get_datetime (interpret_frame dcf_init (frame_test 30)).1 = some (dt_test 30) ∧
    (interpret_frame dcf_init (frame_test 30)).1.cnt_dt_valid < 3 ∧
    dcf_get_datetime (interpret_frame (interpret_frame dcf_init (frame_test 30)).1
      (Function.update (frame_test 31) 20 dcf_bitval_t.dcf_bitval_none)).1 =
        some (dt_test 30) := by
  have h1 := (dcf_get_datetime_gate { dcf_init with rx_bits_val := frame_test 30 }).2.1
    (dt_test 30) ⟨by decide, by decide, by decide⟩
  have h2 := ((dcf_get_datetime_gate
    { (interpret_frame dcf_init (frame_test 30)).1 with
      rx_bits_val := Function.update (frame_test 31) 20 dcf_bitval_t.dcf_bitval_none }).2.2.2.1
    (Or.inr (by decide))).2
  refine ⟨h1, by decide, ?_⟩
  unfold interpret_frame at h1 h2 ⊢
  rw [h2]
  decide


/-! ## Theorems: the pulse analyzer -/

/-- The classification of `analyze_pulse` band by band; `v` is the value
`pulse.val` held before and `sv` the previous `sync_valid`. -/
theorem analyze_pulse_classify_bands (d : Nat) (v : dcf_bitval_t) (sv : Bool) :
    (50000 < d ∧ d < 175000 →
      analyze_pulse_classify d v sv = (dcf_bitval_t.dcf_bitval_false, sv)) ∧
    (175001 < d ∧ d < 350000 →
      analyze_pulse_classify d v sv = (dcf_bitval_t.dcf_bitval_true, sv)) ∧
    (d ≤ 50000 ∨ d = 175000 ∨ d = 175001 ∨ d = 350000 →
      analyze_pulse_classify d v sv = (v, sv)) ∧
    (350000 < d → analyze_pulse_classify d v sv = (v, false)) := by
  unfold analyze_pulse_classify DCF_BIT0_MIN DCF_BIT0_MAX DCF_BIT1_MIN DCF_BIT1_MAX
  refine ⟨fun h => ?_, fun h => ?_, fun h => ?_, fun h => ?_⟩ <;> split_ifs <;>
    first | rfl | omega

/-- The falling edge of a pulse whose rising edge is recorded, when the pulse
classifies as the bit `b`: the state `analyze_pulse` returns. -/
theorem analyze_pulse_falling_bit_eq (s : DcfState) (t len : Nat) (b : dcf_bitval_t)
    (he : s.pulse.edge = DCF_EDGE_RAISING) (hl : get_diff_ustime t s.pulse.start = len)
    (hc : (analyze_pulse_classify len s.pulse.val s.sync_valid).1 = b)
    (hb : b ≠ dcf_bitval_t.dcf_bitval_none) :
    analyze_pulse s t false =
      { s with
        pulse := { start := s.pulse.start, end_ := t, len := len,
                   edge := DCF_EDGE_RAISING ||| DCF_EDGE_FALLING, val := b },
        bit_s := { start := s.pulse.start, end_ := t, len := len,
                   edge := DCF_EDGE_RAISING ||| DCF_EDGE_FALLING, val := b },
        bit_c := { start := s.pulse.start, end_ := t, len := len,
                   edge := DCF_EDGE_RAISING ||| DCF_EDGE_FALLING, val := b },
        sync_valid := (analyze_pulse_classify len s.pulse.val s.sync_valid).2,
        q_good_cnt := s.q_good_cnt + 1 } := by
  unfold analyze_pulse
  rw [hl]
  rw [if_neg Bool.false_ne_true]
  dsimp only
  rw [he, if_pos rfl, if_pos (by rw [hc]; exact hb), hc]

/-- The falling edge of a pulse whose rising edge is recorded, when the pulse
classifies as no value: the state `analyze_pulse` returns. -/
theorem analyze_pulse_falling_none_eq (s : DcfState) (t len : Nat)
    (he : s.pulse.edge = DCF_EDGE_RAISING) (hl : get_diff_ustime t s.pulse.start = len)
    (hc : (analyze_pulse_classify len s.pulse.val s.sync_valid).1
            = dcf_bitval_t.dcf_bitval_none) :
    analyze_pulse s t false =
      { s with
        pulse := s.bit_c,
        sync_valid := (analyze_pulse_classify len s.pulse.val s.sync_valid).2,
        q_bad_cnt := s.q_bad_cnt + 1 } := by
  unfold analyze_pulse
  rw [hl]
  rw [if_neg Bool.false_ne_true]
  dsimp only
  rw [he, if_pos rfl, if_neg (by rw [hc]; exact fun h => h rfl)]


/-- C8 (the code at the failing input): a pulse that rises at 1000 µs and falls
at 176001 µs lasts exactly 175001 µs. `analyze_pulse` gives it no value: the
last accepted bit stays empty and the pulse is counted as bad, whereas a pulse
of 175002 µs is a one-bit. -/
theorem analyze_pulse_175001 :
    get_diff_ustime 176001 1000 = 175001 ∧
    (analyze_pulse dcf_init 1000 true).pulse.edge = DCF_EDGE_RAISING ∧
    (analyze_pulse_classify 175001 dcf_bitval_t.dcf_bitval_none false).1
      = dcf_bitval_t.dcf_bitval_none ∧
    (analyze_pulse (analyze_pulse dcf_init 1000 true) 176001 false).bit_s.val
      = dcf_bitval_t.dcf_bitval_none ∧
    (analyze_pulse (analyze_pulse dcf_init 1000 true) 176001 false).q_bad_cnt = 1 ∧
    (analyze_pulse (analyze_pulse dcf_init 1000 true) 176001 false).q_good_cnt = 0 ∧
    (analyze_pulse (analyze_pulse dcf_init 1000 true) 176002 false).bit_s.val
      = dcf_bitval_t.dcf_bitval_true := by
  refine ⟨by decide, by decide, by decide, by decide, by decide, by decide, by decide⟩

/-- C9: for a pulse with both edges recorded (the rising edge is in the pulse
state, which holds no value yet, and the falling edge arrives now) of duration
`d`: for 50000 < d < 175000 the pulse is accepted as a zero-bit, for
175001 < d < 350000 as a one-bit (it becomes the last accepted bit, with length
`d`, and the good counter increases); for d <= 50000, d = 175000 and
d >= 350000 it has no value (the last accepted bit is unchanged and the bad
counter increases). -/
theorem analyze_pulse_bands (s : DcfState) (t d : Nat)
    (he : s.pulse.edge = DCF_EDGE_RAISING) (hv : s.pulse.val = dcf_bitval_t.dcf_bitval_none)
    (hd : get_diff_ustime t s.pulse.start = d) :
    (50000 < d ∧ d < 175000 →
      (analyze_pulse_classify d s.pulse.val s.sync_valid).1 = dcf_bitval_t.dcf_bitval_false ∧
      (analyze_pulse s t false).bit_s.val = dcf_bitval_t.dcf_bitval_false ∧
      (analyze_pulse s t false).bit_s.len = d ∧
      (analyze_pulse s t false).q_good_cnt = s.q_good_cnt + 1 ∧
      (analyze_pulse s t false).q_bad_cnt = s.q_bad_cnt) ∧
    (175001 < d ∧ d < 350000 →
      (analyze_pulse_classify d s.pulse.val s.sync_valid).1 = dcf_bitval_t.dcf_bitval_true ∧
      (analyze_pulse s t false).bit_s.val = dcf_bitval_t.dcf_bitval_true ∧
      (analyze_pulse s t false).bit_s.len = d ∧
      (analyze_pulse s t false).q_good_cnt = s.q_good_cnt + 1 ∧
      (analyze_pulse s t false).q_bad_cnt = s.q_bad_cnt) ∧
    (d ≤ 50000 ∨ d = 175000 ∨ 350000 ≤ d →
      (analyze_pulse_classify d s.pulse.val s.sync_valid).1 = dcf_bitval_t.dcf_bitval_none ∧
      (analyze_pulse s t false).bit_s = s.bit_s ∧
      (analyze_pulse s t false).q_good_cnt = s.q_good_cnt ∧
      (analyze_pulse s t false).q_bad_cnt = s.q_bad_cnt + 1) := by
  obtain ⟨b0, b1, bn, bl⟩ := analyze_pulse_classify_bands d s.pulse.val s.sync_valid
  refine ⟨fun h => ?_, fun h => ?_, fun h => ?_⟩
  · have hc : (analyze_pulse_classify d s.pulse.val s.sync_valid).1
        = dcf_bitval_t.dcf_bitval_false := by rw [b0 h]
    rw [analyze_pulse_falling_bit_eq s t d _ he hd hc (by decide)]
    exact ⟨hc, rfl, rfl, rfl, rfl⟩
  · have hc : (analyze_pulse_classify d s.pulse.val s.sync_valid).1
        = dcf_bitval_t.dcf_bitval_true := by rw [b1 h]
    rw [analyze_pulse_falling_bit_eq s t d _ he hd hc (by decide)]
    exact ⟨hc, rfl, rfl, rfl, rfl⟩
  · have hc : (analyze_pulse_classify d s.pulse.val s.sync_valid).1
        = dcf_bitval_t.dcf_bitval_none := by
      rcases Nat.lt_or_ge 350000 d with hl | hl
      · rw [bl hl, hv]
      · rw [bn (by omega), hv]
    rw [analyze_pulse_falling_none_eq s t d he hd hc]
    exact ⟨hc, rfl, rfl, rfl⟩

/-- Witness of C9: after a rising edge at 1000 µs the falling edge at 101000 µs
completes a pulse of 100000 µs, a zero-bit. -/
theorem analyze_pulse_bands_witness :
    (analyze_pulse dcf_init 1000 true).pulse.edge = DCF_EDGE_RAISING ∧
    (analyze_pulse (analyze_pulse dcf_init 1000 true) 101000 false).bit_s.val
      = dcf_bitval_t.dcf_bitval_false ∧
    (analyze_pulse (analyze_pulse dcf_init 1000 true) 101000 false).bit_s.len = 100000 :=
  have h := (analyze_pulse_bands (analyze_pulse dcf_init 1000 true) 101000 100000
    (by decide) (by decide) (by decide)).1 (by decide)
  ⟨by decide, h.2.1, h.2.2.1⟩


/-! ## Theorems: the telegram accumulator -/

/-- A counter value `d` microseconds after `start` (fewer than 2^31) gives the
difference `d`, also across the wraparound of the 32-bit counter. -/
theorem get_diff_ustime_elapsed (start d : Nat) (hd : d < 2147483648) :
    get_diff_ustime ((start + d) % 4294967296) start = d := by
  unfold get_diff_ustime int32_wrap uint32_wrap
  dsimp only
  split_ifs <;> omega

/-- The slot index `store_bit_s` computes from a delay below 2^31 µs is the
delay rounded to the nearest second. -/
theorem store_bit_s_idx_round (e : Nat) (he : e < 2147483648) :
    store_bit_s_idx e = (round_idx e : Int) := by
  unfold store_bit_s_idx int32_wrap DCF_T_1SEC round_idx
  have h1 : ((e : Int) + 2147483648) % 4294967296 - 2147483648 = (e : Int) := by omega
  simp only [h1]
  have h2 : Int.tdiv (e : Int) ((1000000 : Nat) : Int) = ((e / 1000000 : Nat) : Int) := by
    rw [Int.tdiv_eq_ediv (Int.natCast_nonneg _) (Int.natCast_nonneg _)]
    exact (Int.natCast_div e 1000000).symm
  rw [h2]
  split_ifs <;> push_cast <;> omega

/-- C10: `store_bit_s` on a bit whose start lies `e` µs after the last sync
(`e` below 2^31) computes the slot index `round_idx e`, the quotient of `e` by
1,000,000 plus one exactly when the remainder exceeds 500,000, which lies
within 500,000 µs of `e`. An index of 60 or more leaves the whole state, hence
every slot, unchanged; an index in 0..59 changes at most that slot, which
receives the bit unless it holds a value of strictly greater stored length. -/
theorem store_bit_s_round (s : DcfState) (e : Nat) (he : e < 2147483648)
    (hstart : s.bit_s.start = (s.sync_time + e) % 4294967296) :
    store_bit_s_idx (get_diff_ustime s.bit_s.start s.sync_time) = (round_idx e : Int) ∧
    round_idx e = e / 1000000 + (if e % 1000000 > 500000 then 1 else 0) ∧
    ((e : Int) - (round_idx e : Int) * 1000000 ≤ 500000 ∧
     (round_idx e : Int) * 1000000 - (e : Int) ≤ 500000) ∧
    (60 ≤ round_idx e → store_bit_s s = s) ∧
    (round_idx e < 60 →
      store_bit_s s =
        if s.rx_bits_val (round_idx e) ≠ dcf_bitval_t.dcf_bitval_none ∧
            s.rx_bits_len (round_idx e) > s.bit_s.len then s
        else { s with rx_bits_val := Function.update s.rx_bits_val (round_idx e) s.bit_s.val,
                      rx_bits_len := Function.update s.rx_bits_len (round_idx e) s.bit_s.len }) := by
  have hd : get_diff_ustime s.bit_s.start s.sync_time = e := by
    rw [hstart]
    exact get_diff_ustime_elapsed _ _ he
  have hk := store_bit_s_idx_round e he
  refine ⟨by rw [hd, hk], rfl, ?_, ?_, ?_⟩
  · unfold round_idx
    split_ifs <;> push_cast <;> omega
  · intro h
    unfold store_bit_s
    rw [hd]
    dsimp only
    rw [hk, if_neg (by omega)]
  · intro h
    unfold store_bit_s
    rw [hd]
    dsimp only
    rw [hk, if_pos ⟨by omega, by omega⟩, Int.toNat_natCast]

/-- Witness of C10: with the sync at 4,294,000,000 µs, a bit that starts
3,600,000 µs later (after the counter wrapped) is stored in the empty slot 4. -/
theorem store_bit_s_round_witness :
    round_idx 3600000 = 4 ∧
    (store_bit_s { dcf_init with
       sync_time := 4294000000,
       bit_s := { start := 2632704, end_ := 2732704, len := 100000, edge := 3,
                  val := dcf_bitval_t.dcf_bitval_false } }).rx_bits_val 4
      = dcf_bitval_t.dcf_bitval_false := by
  have h := (store_bit_s_round { dcf_init with
       sync_time := 4294000000,
       bit_s := { start := 2632704, end_ := 2732704, len := 100000, edge := 3,
                  val := dcf_bitval_t.dcf_bitval_false } } 3600000 (by decide) (by decide)).2.2.2.2
    (by decide)
  refine ⟨by decide, ?_⟩
  rw [h]
  decide

/-- The state `store_bit_s` returns when the computed index is the slot `k` of
the buffer. -/
theorem store_bit_s_slot_eq (s : DcfState) (k : Nat) (hlt : k < 60)
    (hk : store_bit_s_idx (get_diff_ustime s.bit_s.start s.sync_time) = (k : Int)) :
    store_bit_s s =
      if s.rx_bits_val k ≠ dcf_bitval_t.dcf_bitval_none ∧ s.rx_bits_len k > s.bit_s.len then s
      else { s with rx_bits_val := Function.update s.rx_bits_val k s.bit_s.val,
                    rx_bits_len := Function.update s.rx_bits_len k s.bit_s.len } := by
  unfold store_bit_s
  dsimp only
  rw [hk, if_pos ⟨by omega, by omega⟩, Int.toNat_natCast]

/-- Counterexample to C11: slot 4 holds a zero-bit of 100,000 µs. A one-bit of
150,000 µs, which is not shorter, replaces it; a one-bit of 80,000 µs, which is
strictly shorter, does not. -/
theorem store_bit_s_longer_wins :
    (dcf_slot4_conflict 150000).rx_bits_val 4 = dcf_bitval_t.dcf_bitval_false ∧
    (dcf_slot4_conflict 150000).rx_bits_len 4 = 100000 ∧
    (store_bit_s (dcf_slot4_conflict 150000)).rx_bits_val 4 = dcf_bitval_t.dcf_bitval_true ∧
    (store_bit_s (dcf_slot4_conflict 150000)).rx_bits_len 4 = 150000 ∧
    (store_bit_s (dcf_slot4_conflict 80000)).rx_bits_val 4 = dcf_bitval_t.dcf_bitval_false ∧
    (store_bit_s (dcf_slot4_conflict 80000)).rx_bits_len 4 = 100000 := by
  refine ⟨by decide, by decide, by decide, by decide, by decide, by decide⟩

/-- C11 (amended): when `store_bit_s` targets a slot `k` of the buffer that
already holds a value, the slot keeps its value and duration (the whole state
is unchanged) exactly when the new bit's pulse duration is strictly shorter
than the stored duration; when it is equal or longer the new bit's value and
duration replace the stored ones and no other slot changes. -/
theorem store_bit_s_conflict (s : DcfState) (k : Nat) (hlt : k < 60)
    (hk : store_bit_s_idx (get_diff_ustime s.bit_s.start s.sync_time) = (k : Int))
    (hv : s.rx_bits_val k ≠ dcf_bitval_t.dcf_bitval_none) :
    (s.bit_s.len < s.rx_bits_len k → store_bit_s s = s) ∧
    (s.rx_bits_len k ≤ s.bit_s.len →
      (store_bit_s s).rx_bits_val k = s.bit_s.val ∧
      (store_bit_s s).rx_bits_len k = s.bit_s.len ∧
      (∀ j, j ≠ k → (store_bit_s s).rx_bits_val j = s.rx_bits_val j ∧
                     (store_bit_s s).rx_bits_len j = s.rx_bits_len j)) := by
  rw [store_bit_s_slot_eq s k hlt hk]
  constructor
  · intro h
    rw [if_pos ⟨hv, h⟩]
  · intro h
    rw [if_neg (fun c => absurd c.2 (by omega))]
    refine ⟨Function.update_same _ _ _, Function.update_same _ _ _, fun j hj => ?_⟩
    exact ⟨Function.update_noteq hj _ _, Function.update_noteq hj _ _⟩

/-- Witness of C11 (amended): the one-bit of 150,000 µs replaces the stored
zero-bit of 100,000 µs in slot 4. -/
theorem store_bit_s_conflict_witness :
    (store_bit_s (dcf_slot4_conflict 150000)).rx_bits_val 4 = dcf_bitval_t.dcf_bitval_true ∧
    (store_bit_s (dcf_slot4_conflict 150000)).rx_bits_len 4 = 150000 :=
  have h := (store_bit_s_conflict (dcf_slot4_conflict 150000) 4 (by decide) (by decide)
    (by decide)).2 (by decide)
  ⟨h.1, h.2.1⟩

/-- `datetime_date_compare` is nonzero exactly when year, month or day differ. -/
theorem datetime_date_compare_ne_zero_iff (a b : datetime_t) :
    datetime_date_compare a b ≠ 0 ↔ (a.year ≠ b.year ∨ a.month ≠ b.month ∨ a.day ≠ b.day) := by
  unfold datetime_date_compare
  split_ifs <;> simp <;> omega

/-- `dt_diff_flag` with a tolerance of one second is `datetime_differs`. -/
theorem dt_diff_flag_iff (x y : dt_t) :
    dt_diff_flag x y 1 = true ↔ datetime_differs x.dt y.dt := by
  unfold dt_diff_flag datetime_differs
  simp only [Bool.or_eq_true, decide_eq_true_eq, datetime_date_compare_ne_zero_iff]
  constructor
  · rintro ((h | h) | h)
    · exact Or.inl h
    · exact Or.inr (Or.inl h)
    · exact Or.inr (Or.inr h)
  · rintro (h | h | h)
    · exact Or.inl (Or.inl h)
    · exact Or.inl (Or.inr h)
    · exact Or.inr h

/-- The radio block of `dt_poll` when the radio record has no new reading. -/
theorem dt_poll_dcf_of_not_received (s : ArbState) (h : s.dcf_dt.received = false) :
    dt_poll_dcf s = (s, false) := by
  unfold dt_poll_dcf
  rw [if_neg (by simp [h])]

/-- The radio block of `dt_poll` when the radio record has a new reading: the
external RTC record, the log of write requests and the untouched fields. -/
theorem dt_poll_dcf_rtc_of_received (s : ArbState) (h : s.dcf_dt.received = true) :
    (dt_poll_dcf s).1.rtc_dt =
      (if dt_diff_flag s.dcf_dt s.rtc_dt 1 = true then { s.rtc_dt with in_sync := false }
       else s.rtc_dt) ∧
    (dt_poll_dcf s).1.rtc_set_reqs =
      (if dt_diff_flag s.dcf_dt s.rtc_dt 1 = true then s.rtc_set_reqs ++ [s.dcf_dt.dt]
       else s.rtc_set_reqs) ∧
    (dt_poll_dcf s).1.int_dt = s.int_dt ∧
    (dt_poll_dcf s).1.int_set_calls = s.int_set_calls ∧
    (dt_poll_dcf s).1.sys_ustime = s.sys_ustime ∧
    (dt_poll_dcf s).1.sys_s_time = s.sys_s_time := by
  unfold dt_poll_dcf
  rw [if_pos h]
  dsimp only
  split_ifs <;> exact ⟨rfl, rfl, rfl, rfl, rfl, rfl⟩

/-- The external RTC block of `dt_poll` changes neither the logs, nor the
internal RTC record, nor the system counters, nor the datetime of the external
RTC record. -/
theorem dt_poll_rtc_frame (s : ArbState) (b : Bool) :
    (dt_poll_rtc s b).1.rtc_set_reqs = s.rtc_set_reqs ∧
    (dt_poll_rtc s b).1.int_set_calls = s.int_set_calls ∧
    (dt_poll_rtc s b).1.int_dt = s.int_dt ∧
    (dt_poll_rtc s b).1.rtc_dt.dt = s.rtc_dt.dt ∧
    (dt_poll_rtc s b).1.fin_dt.in_sync = s.fin_dt.in_sync := by
  unfold dt_poll_rtc
  cases s.rtc_dt.received <;> cases s.rtc_dt.in_sync <;> cases s.dcf_dt.in_sync <;>
    cases b <;> exact ⟨rfl, rfl, rfl, rfl, rfl⟩

/-- The in-sync flag of the external RTC record after the external RTC block of
`dt_poll`. -/
theorem dt_poll_rtc_in_sync (s : ArbState) (b : Bool) :
    (dt_poll_rtc s b).1.rtc_dt.in_sync =
      (s.rtc_dt.in_sync || (s.rtc_dt.received && !s.dcf_dt.in_sync)) := by
  rcases s with ⟨⟨_, _, dis, _, _, _⟩, ⟨_, rr, ris, _, _, _⟩, _, _, _, _, _, _⟩
  cases rr <;> cases ris <;> cases dis <;> cases b <;> rfl

/-- The internal RTC block of `dt_poll` changes neither the external RTC record
nor the log of its write requests. -/
theorem dt_poll_int_frame (f : datetime_t → Bool) (s : ArbState) (b : Bool) :
    (dt_poll_int f s b).rtc_dt = s.rtc_dt ∧
    (dt_poll_int f s b).rtc_set_reqs = s.rtc_set_reqs := by
  unfold dt_poll_int
  split_ifs <;> exact ⟨rfl, rfl⟩

/-- The last statement of `dt_poll` touches the final record only. -/
theorem dt_poll_frame (f : datetime_t → Bool) (s : ArbState) :
    (dt_poll f s).rtc_dt = (dt_poll_int f (dt_poll_before_int s).1 (dt_poll_before_int s).2).rtc_dt ∧
    (dt_poll f s).rtc_set_reqs =
      (dt_poll_int f (dt_poll_before_int s).1 (dt_poll_before_int s).2).rtc_set_reqs ∧
    (dt_poll f s).int_dt = (dt_poll_int f (dt_poll_before_int s).1 (dt_poll_before_int s).2).int_dt ∧
    (dt_poll f s).int_set_calls =
      (dt_poll_int f (dt_poll_before_int s).1 (dt_poll_before_int s).2).int_set_calls ∧
    (dt_poll f s).dcf_dt = (dt_poll_int f (dt_poll_before_int s).1 (dt_poll_before_int s).2).dcf_dt ∧
    (dt_poll f s).fin_dt =
      (if (dt_poll_before_int s).2 = true then
        { (dt_poll_before_int s).1.fin_dt with in_sync := true }
       else (dt_poll_before_int s).1.fin_dt) := by
  unfold dt_poll dt_poll_before_int
  dsimp only
  split_ifs
  · refine ⟨rfl, rfl, rfl, rfl, rfl, ?_⟩
    rw [dt_poll_int_fin_dt]
  · refine ⟨rfl, rfl, rfl, rfl, rfl, ?_⟩
    rw [dt_poll_int_fin_dt]

/-- C18: in `dt_poll`, when the radio record has a new reading: if the external
RTC record's datetime differs from the radio datetime (more than one second in
time of day, or another date), exactly one write request carrying the radio
datetime is added and the external RTC record is marked not in sync, by the
radio block and still at the end of `dt_poll`; if it does not differ, no request
is added and the in-sync flag of the external RTC record is left as it was.
The callback of the request sets the flag again on success only. -/
theorem dt_poll_rtc_write_request (f : datetime_t → Bool) (s : ArbState)
    (h : s.dcf_dt.received = true) :
    (datetime_differs s.dcf_dt.dt s.rtc_dt.dt →
      (dt_poll f s).rtc_set_reqs = s.rtc_set_reqs ++ [s.dcf_dt.dt] ∧
      (dt_poll_dcf s).1.rtc_dt.in_sync = false ∧
      (dt_poll f s).rtc_dt.in_sync = false) ∧
    (¬ datetime_differs s.dcf_dt.dt s.rtc_dt.dt →
      (dt_poll f s).rtc_set_reqs = s.rtc_set_reqs ∧
      (dt_poll_dcf s).1.rtc_dt.in_sync = s.rtc_dt.in_sync ∧
      (dt_poll f s).rtc_dt.in_sync = s.rtc_dt.in_sync) ∧
    (∀ x : ArbState, (callback_i2c_rtc_set true x).rtc_dt.in_sync = true ∧
      callback_i2c_rtc_set false x = x) := by
  obtain ⟨hr, hq, -, -, -, -⟩ := dt_poll_dcf_rtc_of_received s h
  obtain ⟨-, -, hd⟩ := dt_poll_dcf_of_received s h
  obtain ⟨g1, g2, -, -, -, -⟩ := dt_poll_frame f s
  obtain ⟨i1, i2⟩ := dt_poll_int_frame f (dt_poll_before_int s).1 (dt_poll_before_int s).2
  have k1 := dt_poll_rtc_frame (dt_poll_dcf s).1 (dt_poll_dcf s).2
  have k2 := dt_poll_rtc_in_sync (dt_poll_dcf s).1 (dt_poll_dcf s).2
  have e1 : (dt_poll f s).rtc_set_reqs = (dt_poll_dcf s).1.rtc_set_reqs := by
    rw [g2, i2]
    exact k1.1
  have e2 : (dt_poll f s).rtc_dt.in_sync = (dt_poll_dcf s).1.rtc_dt.in_sync := by
    rw [g1, i1]
    show (dt_poll_rtc (dt_poll_dcf s).1 (dt_poll_dcf s).2).1.rtc_dt.in_sync = _
    rw [k2, hd]
    simp
  refine ⟨fun hdiff => ?_, fun hdiff => ?_, fun x => ⟨rfl, rfl⟩⟩
  · have hf : dt_diff_flag s.dcf_dt s.rtc_dt 1 = true := (dt_diff_flag_iff _ _).2 hdiff
    rw [e1, e2, hq, hr, if_pos hf, if_pos hf]
    exact ⟨rfl, rfl, rfl⟩
  · have hf : ¬ dt_diff_flag s.dcf_dt s.rtc_dt 1 = true :=
      fun c => hdiff ((dt_diff_flag_iff _ _).1 c)
    rw [e1, e2, hq, hr, if_neg hf, if_neg hf]
    exact ⟨rfl, rfl, rfl⟩

/-- Witness of C18: the radio reading is two seconds ahead of the external RTC;
one request with the radio datetime is issued and the RTC record is not in
sync after the cycle. -/
theorem dt_poll_rtc_write_request_witness :
    datetime_differs arb_radio_and_rtc.dcf_dt.dt arb_radio_and_rtc.rtc_dt.dt ∧
    (dt_poll (fun _ => true) arb_radio_and_rtc).rtc_set_reqs = [arb_radio_and_rtc.dcf_dt.dt] ∧
    (dt_poll (fun _ => true) arb_radio_and_rtc).rtc_dt.in_sync = false :=
  have hd : datetime_differs arb_radio_and_rtc.dcf_dt.dt arb_radio_and_rtc.rtc_dt.dt :=
    Or.inl (by decide)
  have h := (dt_poll_rtc_write_request (fun _ => true) arb_radio_and_rtc rfl).1 hd
  ⟨hd, h.1, h.2.2⟩

/-- The radio block of `dt_poll` changes neither the received flag and the
datetime of the external RTC record, nor the in-sync flag of the final record,
nor the internal RTC record and its log. -/
theorem dt_poll_dcf_frame (s : ArbState) :
    (dt_poll_dcf s).1.rtc_dt.received = s.rtc_dt.received ∧
    (dt_poll_dcf s).1.rtc_dt.dt = s.rtc_dt.dt ∧
    (dt_poll_dcf s).1.fin_dt.in_sync = s.fin_dt.in_sync ∧
    (dt_poll_dcf s).1.int_dt = s.int_dt ∧
    (dt_poll_dcf s).1.int_set_calls = s.int_set_calls ∧
    (dt_poll_dcf s).2 = s.dcf_dt.received := by
  cases h : s.dcf_dt.received
  · rw [dt_poll_dcf_of_not_received s h]
    exact ⟨rfl, rfl, rfl, rfl, rfl, rfl⟩
  · obtain ⟨h1, h2, -⟩ := dt_poll_dcf_of_received s h
    obtain ⟨h3, -, h4, h5, -, -⟩ := dt_poll_dcf_rtc_of_received s h
    rw [h1, h2, h3, h4, h5]
    split_ifs <;> exact ⟨rfl, rfl, rfl, rfl, rfl, rfl⟩

/-- The final record and `fin_set_flag` after the external RTC block of
`dt_poll`. -/
theorem dt_poll_rtc_fin (x : ArbState) (b : Bool) :
    (dt_poll_rtc x b).1.fin_dt =
      (if (x.rtc_dt.received && x.rtc_dt.in_sync && !b) = true then
        { x.fin_dt with dt := x.rtc_dt.dt, ustime := x.sys_ustime, s_time := x.sys_s_time,
                        received := true, sync_src := dt_src_t.dt_src_rtc }
       else x.fin_dt) ∧
    (dt_poll_rtc x b).2 = (b || (x.rtc_dt.received && x.rtc_dt.in_sync)) := by
  rcases x with ⟨⟨_, _, dis, _, _, _⟩, ⟨_, rr, ris, _, _, _⟩, _, _, _, _, _, _⟩
  cases rr <;> cases ris <;> cases dis <;> cases b <;> exact ⟨rfl, rfl⟩

/-- C19: in `dt_poll`, when the external RTC record has a new reading: if the
record is not in sync when its block is reached (after the radio block), it
ends the cycle in sync exactly when the radio record is not in sync at that
point, and the final record keeps the datetime and source the radio block
left; if it is in sync and the radio record has no new reading, the final
record takes the RTC datetime with source tag RTC and ends the cycle in sync;
if the radio record has a new reading, the final value is the radio value. -/
theorem dt_poll_rtc_reading (f : datetime_t → Bool) (s : ArbState)
    (h : s.rtc_dt.received = true) :
    ((dt_poll_dcf s).1.rtc_dt.in_sync = false →
      (dt_poll f s).rtc_dt.in_sync = !(dt_poll_dcf s).1.dcf_dt.in_sync ∧
      (dt_poll f s).fin_dt.dt = (dt_poll_dcf s).1.fin_dt.dt ∧
      (dt_poll f s).fin_dt.sync_src = (dt_poll_dcf s).1.fin_dt.sync_src) ∧
    ((dt_poll_dcf s).1.rtc_dt.in_sync = true → s.dcf_dt.received = false →
      (dt_poll f s).fin_dt.dt = s.rtc_dt.dt ∧
      (dt_poll f s).fin_dt.sync_src = dt_src_t.dt_src_rtc ∧
      (dt_poll f s).fin_dt.in_sync = true) ∧
    (s.dcf_dt.received = true →
      (dt_poll f s).fin_dt.dt = s.dcf_dt.dt ∧
      (dt_poll f s).fin_dt.sync_src = dt_src_t.dt_src_dcf) := by
  obtain ⟨g1, -, -, -, -, g6⟩ := dt_poll_frame f s
  obtain ⟨i1, -⟩ := dt_poll_int_frame f (dt_poll_before_int s).1 (dt_poll_before_int s).2
  obtain ⟨d1, d2, -, -, -, d6⟩ := dt_poll_dcf_frame s
  have k2 := dt_poll_rtc_in_sync (dt_poll_dcf s).1 (dt_poll_dcf s).2
  obtain ⟨m1, m2⟩ := dt_poll_rtc_fin (dt_poll_dcf s).1 (dt_poll_dcf s).2
  have e1 : (dt_poll_before_int s).1 = (dt_poll_rtc (dt_poll_dcf s).1 (dt_poll_dcf s).2).1 := rfl
  have e2 : (dt_poll_before_int s).2 = (dt_poll_rtc (dt_poll_dcf s).1 (dt_poll_dcf s).2).2 := rfl
  refine ⟨fun hns => ?_, fun his hnr => ?_, fun hr => ?_⟩
  · refine ⟨?_, ?_, ?_⟩
    · rw [g1, i1, e1, k2, hns, d1, h]
      simp
    · rw [g6, e1, e2, m1, hns]
      simp only [Bool.and_false, Bool.false_and, Bool.false_eq_true, if_false]
      split_ifs <;> rfl
    · rw [g6, e1, e2, m1, hns]
      simp only [Bool.and_false, Bool.false_and, Bool.false_eq_true, if_false]
      split_ifs <;> rfl
  · have hb : (dt_poll_dcf s).2 = false := by rw [d6, hnr]
    rw [g6, e1, e2, m2, m1, hb, his, d1, h, d2]
    simp
  · obtain ⟨p1, p2, -⟩ := dt_poll_dcf_of_received s hr
    rw [g6, e1, e2, m1, m2, p1, p2]
    simp

/-- Witness of C19: without radio reading, a reading of the in-sync external
RTC becomes the final value. -/
theorem dt_poll_rtc_reading_witness :
    arb_rtc_only.rtc_dt.received = true ∧
    (dt_poll (fun _ => true) arb_rtc_only).fin_dt.dt = arb_rtc_only.rtc_dt.dt ∧
    (dt_poll (fun _ => true) arb_rtc_only).fin_dt.sync_src = dt_src_t.dt_src_rtc ∧
    (dt_poll (fun _ => true) arb_rtc_only).fin_dt.in_sync = true :=
  ⟨rfl, (dt_poll_rtc_reading (fun _ => true) arb_rtc_only rfl).2.1 (by decide) (by decide)⟩

/-- The internal RTC block of `dt_poll` when the internal RTC record has a new
reading: the log of writes and the in-sync flag of the record. -/
theorem dt_poll_int_of_received (f : datetime_t → Bool) (x : ArbState) (b : Bool)
    (h : x.int_dt.received = true) :
    (dt_poll_int f x b).int_set_calls =
      (if ((x.fin_dt.in_sync || b) && decide (x.fin_dt.sync_src ≠ dt_src_t.dt_src_int)
            && dt_diff_flag x.int_dt x.fin_dt 1) = true
       then x.int_set_calls ++ [x.fin_dt.dt] else x.int_set_calls) ∧
    (dt_poll_int f x b).int_dt.in_sync =
      (if ((x.fin_dt.in_sync || b) && decide (x.fin_dt.sync_src ≠ dt_src_t.dt_src_int)
            && dt_diff_flag x.int_dt x.fin_dt 1) = true
       then f x.fin_dt.dt else x.int_dt.in_sync) := by
  unfold dt_poll_int
  rw [if_pos h]
  dsimp only
  cases c1 : ((x.fin_dt.in_sync || b) && decide (x.fin_dt.sync_src ≠ dt_src_t.dt_src_int))
  · rw [if_neg (by simp)]
    simp
  · cases c2 : dt_diff_flag x.int_dt x.fin_dt 1
    · rw [if_pos rfl, if_neg (by simp)]
      simp
    · rw [if_pos rfl, if_pos rfl]
      simp

/-- C20: in `dt_poll`, when the internal RTC record has a new reading, the
internal RTC is written with the final datetime exactly when the final record
was in sync on entry or was set earlier in this cycle, its source tag is not
internal RTC, and the internal datetime differs from the final datetime (more
than one second in time of day, or another date). The in-sync flag of the
internal record is then the result of the write; in every other case no write
happens and the flag is left unchanged. -/
theorem dt_poll_int_write (f : datetime_t → Bool) (s : ArbState)
    (h : s.int_dt.received = true) :
    (dt_poll f s).fin_dt.dt = (dt_poll_before_int s).1.fin_dt.dt ∧
    (dt_poll f s).fin_dt.sync_src = (dt_poll_before_int s).1.fin_dt.sync_src ∧
    (((s.fin_dt.in_sync = true ∨ (dt_poll_before_int s).2 = true) ∧
        (dt_poll f s).fin_dt.sync_src ≠ dt_src_t.dt_src_int ∧
        datetime_differs s.int_dt.dt (dt_poll f s).fin_dt.dt) →
      (dt_poll f s).int_set_calls = s.int_set_calls ++ [(dt_poll f s).fin_dt.dt] ∧
      (dt_poll f s).int_dt.in_sync = f (dt_poll f s).fin_dt.dt) ∧
    (¬ ((s.fin_dt.in_sync = true ∨ (dt_poll_before_int s).2 = true) ∧
        (dt_poll f s).fin_dt.sync_src ≠ dt_src_t.dt_src_int ∧
        datetime_differs s.int_dt.dt (dt_poll f s).fin_dt.dt) →
      (dt_poll f s).int_set_calls = s.int_set_calls ∧
      (dt_poll f s).int_dt.in_sync = s.int_dt.in_sync) := by
  obtain ⟨-, -, g3, g4, -, g6⟩ := dt_poll_frame f s
  obtain ⟨-, -, d3, d4, d5, -⟩ := dt_poll_dcf_frame s
  obtain ⟨-, k2, k3, -, k5⟩ := dt_poll_rtc_frame (dt_poll_dcf s).1 (dt_poll_dcf s).2
  have e1 : (dt_poll_before_int s).1 = (dt_poll_rtc (dt_poll_dcf s).1 (dt_poll_dcf s).2).1 := rfl
  have x3 : (dt_poll_before_int s).1.int_dt = s.int_dt := by rw [e1, k3, d4]
  have x4 : (dt_poll_before_int s).1.int_set_calls = s.int_set_calls := by rw [e1, k2, d5]
  have x5 : (dt_poll_before_int s).1.fin_dt.in_sync = s.fin_dt.in_sync := by rw [e1, k5, d3]
  have hd : (dt_poll f s).fin_dt.dt = (dt_poll_before_int s).1.fin_dt.dt := by
    rw [g6]
    split_ifs <;> rfl
  have hs : (dt_poll f s).fin_dt.sync_src = (dt_poll_before_int s).1.fin_dt.sync_src := by
    rw [g6]
    split_ifs <;> rfl
  obtain ⟨w1, w2⟩ := dt_poll_int_of_received f (dt_poll_before_int s).1 (dt_poll_before_int s).2
    (by rw [x3]; exact h)
  have hc : (((dt_poll_before_int s).1.fin_dt.in_sync || (dt_poll_before_int s).2)
        && decide ((dt_poll_before_int s).1.fin_dt.sync_src ≠ dt_src_t.dt_src_int)
        && dt_diff_flag (dt_poll_before_int s).1.int_dt (dt_poll_before_int s).1.fin_dt 1) = true
      ↔ ((s.fin_dt.in_sync = true ∨ (dt_poll_before_int s).2 = true) ∧
        (dt_poll f s).fin_dt.sync_src ≠ dt_src_t.dt_src_int ∧
        datetime_differs s.int_dt.dt (dt_poll f s).fin_dt.dt) := by
    rw [hd, hs, ← x5, ← x3]
    simp only [Bool.and_eq_true, Bool.or_eq_true, decide_eq_true_eq, dt_diff_flag_iff]
    tauto
  refine ⟨hd, hs, fun hyp => ?_, fun hyp => ?_⟩
  · rw [g4, g3, w1, w2, if_pos (hc.2 hyp), if_pos (hc.2 hyp), x4, hd]
    exact ⟨rfl, rfl⟩
  · rw [g4, g3, w1, w2, if_neg (fun c => hyp (hc.1 c)), if_neg (fun c => hyp (hc.1 c)), x4, x3]
    exact ⟨rfl, rfl⟩

/-- Witness of C20: the final value comes from the external RTC and the
internal RTC is five seconds behind; one write with the final datetime
happens and its result (failure here) becomes the in-sync flag. -/
theorem dt_poll_int_write_witness :
    arb_rtc_only.int_dt.received = true ∧
    (dt_poll (fun _ => false) arb_rtc_only).int_set_calls = [arb_rtc_only.rtc_dt.dt] ∧
    (dt_poll (fun _ => false) arb_rtc_only).int_dt.in_sync = false := by
  have h := (dt_poll_int_write (fun _ => false) arb_rtc_only rfl).2.2.1
    ⟨Or.inl rfl, by decide, Or.inr (Or.inl (by decide))⟩
  refine ⟨rfl, ?_, h.2⟩
  rw [h.1]
  decide

/-- `dcf_sig_quality` leaves everything but the quality estimator's variables
untouched. -/
theorem dcf_sig_quality_frame (s : DcfState) (t : Nat) :
    (dcf_sig_quality s t).rx_bits_val = s.rx_bits_val ∧
    (dcf_sig_quality s t).sync_detected = s.sync_detected ∧
    (dcf_sig_quality s t).sync_valid = s.sync_valid ∧
    (dcf_sig_quality s t).sync_time = s.sync_time ∧
    (dcf_sig_quality s t).dt_last = s.dt_last ∧
    (dcf_sig_quality s t).dt_last_valid = s.dt_last_valid ∧
    (dcf_sig_quality s t).cnt_dt_valid = s.cnt_dt_valid := by
  by_cases c : get_diff_ustime t s.q_time > DCF_T_1SEC
  · have e : dcf_sig_quality s t =
        { s with q_time := t,
                 q_filter := (m_filter_int_add_val s.q_filter
                               (dcf_sig_quality_raw s.q_good_cnt s.q_bad_cnt)).1,
                 q_quality := (m_filter_int_add_val s.q_filter
                               (dcf_sig_quality_raw s.q_good_cnt s.q_bad_cnt)).2,
                 q_good_cnt := 0, q_bad_cnt := 0 } := by
      unfold dcf_sig_quality
      rw [if_pos c]
    rw [e]
    exact ⟨rfl, rfl, rfl, rfl, rfl, rfl, rfl⟩
  · have e : dcf_sig_quality s t = s := by
      unfold dcf_sig_quality
      rw [if_neg c]
    rw [e]
    exact ⟨rfl, rfl, rfl, rfl, rfl, rfl, rfl⟩

/-- When `dcf_poll` returns true, the cycle is the one that interprets the slot
buffer: `dcf_poll` is the call of `interpret_rx_bits` after the quality
evaluation, with the sync invalidated. -/
theorem dcf_poll_true_eq (s : DcfState) (t : Nat) (gpio : Bool)
    (h : (dcf_poll s t gpio).2 = true) :
    dcf_poll s t gpio = interpret_rx_bits { dcf_sig_quality s t with sync_valid := false } := by
  unfold dcf_poll at h ⊢
  dsimp only at h ⊢
  by_cases c1 : (!gpio) ≠ s.pin_old
  · rw [if_pos c1] at h
    exact absurd h (by simp)
  · rw [if_neg c1] at h ⊢
    by_cases c2 : (dcf_sig_quality s t).sync_detected = true
    · rw [if_pos c2] at h
      exact absurd h (by simp)
    · rw [if_neg c2] at h ⊢
      by_cases c3 : (!(dcf_sig_quality s t).sync_valid) = true
      · rw [if_pos c3] at h
        exact absurd h (by simp)
      · rw [if_neg c3] at h ⊢
        by_cases c4 : get_diff_ustime t (dcf_sig_quality s t).sync_time > DCF_T_59SEC
        · rw [if_pos c4]
        · rw [if_neg c4] at h
          by_cases c5 : (dcf_sig_quality s t).bit_s.val ≠ dcf_bitval_t.dcf_bitval_none
          · rw [if_pos c5] at h
            exact absurd h (by simp)
          · rw [if_neg c5] at h
            exact absurd h (by simp)

/-- A wrong marker makes the interpretation at the sync timeout (sync already
invalidated) return false. -/
theorem interpret_rx_bits_marker_timeout (q : DcfState)
    (h : q.rx_bits_val 0 ≠ dcf_bitval_t.dcf_bitval_false ∨
         q.rx_bits_val 20 ≠ dcf_bitval_t.dcf_bitval_true) :
    (interpret_rx_bits { q with sync_valid := false }).2 = false := by
  have hm : ({ q with sync_valid := false } : DcfState).rx_bits_val 0
        ≠ dcf_bitval_t.dcf_bitval_false ∨
      ({ q with sync_valid := false } : DcfState).rx_bits_val 20
        ≠ dcf_bitval_t.dcf_bitval_true := h
  rw [interpret_rx_bits_marker _ hm]

/-- C14: a frame whose slot 0 is not a zero-bit or whose slot 20 is not a
one-bit is rejected by `interpret_rx_bits` whatever the other slots hold: the
result is false and no variable changes; and `dcf_poll` on a slot buffer with
such a marker returns false, so the frame is never reported as a confirmed
reading. -/
theorem interpret_rx_bits_marker_reject (s : DcfState)
    (h : s.rx_bits_val 0 ≠ dcf_bitval_t.dcf_bitval_false ∨
         s.rx_bits_val 20 ≠ dcf_bitval_t.dcf_bitval_true) :
    (interpret_rx_bits s).2 = false ∧ (interpret_rx_bits s).1 = s ∧
    (∀ (t : Nat) (gpio : Bool), (dcf_poll s t gpio).2 = false) := by
  refine ⟨by rw [interpret_rx_bits_marker s h], by rw [interpret_rx_bits_marker s h], ?_⟩
  intro t gpio
  cases hr : (dcf_poll s t gpio).2
  · rfl
  · exfalso
    obtain ⟨hq, -, -, -, -, -, -⟩ := dcf_sig_quality_frame s t
    have hf := interpret_rx_bits_marker_timeout (dcf_sig_quality s t) (by rw [hq]; exact h)
    rw [dcf_poll_true_eq s t gpio hr, hf] at hr
    exact absurd hr (by simp)

/-- Witness of C14: the frame of 12:31 with slot 20 turned into a zero-bit is
rejected in the confirmed decoder state. -/
theorem interpret_rx_bits_marker_reject_witness :
    (Function.update (frame_test 31) 20 dcf_bitval_t.dcf_bitval_false) 20
      ≠ dcf_bitval_t.dcf_bitval_true ∧
    (interpret_frame dcf_after_three
      (Function.update (frame_test 31) 20 dcf_bitval_t.dcf_bitval_false)).2 = false :=
  ⟨by decide,
   (interpret_rx_bits_marker_reject
     { dcf_after_three with
       rx_bits_val := Function.update (frame_test 31) 20 dcf_bitval_t.dcf_bitval_false }
     (Or.inr (by decide))).1⟩

/-! ## Theorems: the signal quality estimator -/

/-- The state `dcf_sig_quality` returns when more than one second has passed
since the last evaluation. -/
theorem dcf_sig_quality_eval_eq (s : DcfState) (t : Nat)
    (h : get_diff_ustime t s.q_time > DCF_T_1SEC) :
    dcf_sig_quality s t =
      { s with q_time := t,
               q_filter := (m_filter_int_add_val s.q_filter
                             (dcf_sig_quality_raw s.q_good_cnt s.q_bad_cnt)).1,
               q_quality := (m_filter_int_add_val s.q_filter
                             (dcf_sig_quality_raw s.q_good_cnt s.q_bad_cnt)).2,
               q_good_cnt := 0, q_bad_cnt := 0 } := by
  unfold dcf_sig_quality
  rw [if_pos h]

/-- `dcf_sig_quality` does nothing until more than one second has passed since
the last evaluation. -/
theorem dcf_sig_quality_idle_eq (s : DcfState) (t : Nat)
    (h : ¬ get_diff_ustime t s.q_time > DCF_T_1SEC) :
    dcf_sig_quality s t = s := by
  unfold dcf_sig_quality
  rw [if_neg h]

/-- The raw quality as a function of the folded bad-pulse count. -/
theorem dcf_sig_quality_raw_cases (g b : Int) :
    (g = 1 ∧ b = 0 → dcf_sig_quality_raw g b = 100) ∧
    (¬ (g = 1 ∧ b = 0) →
      (q_bad_folded g b = 0 ∨ 5 ≤ q_bad_folded g b → dcf_sig_quality_raw g b = 0) ∧
      (1 ≤ q_bad_folded g b ∧ q_bad_folded g b ≤ 4 →
        dcf_sig_quality_raw g b = (5 - q_bad_folded g b) * 20)) ∧
    (5 ≤ b → dcf_sig_quality_raw g b = 0) := by
  unfold dcf_sig_quality_raw q_bad_folded
  simp only [max_def]
  refine ⟨fun h => ?_, fun h => ⟨fun h2 => ?_, fun h2 => ?_⟩, fun h => ?_⟩ <;>
    split_ifs at * <;> omega

/-- C15: the raw quality `dcf_sig_quality` computes from `g` good and `b` bad
pulses is 100 when g = 1 and b = 0; otherwise, with b' = b + max (g - 1) 0, it
is 0 when b' = 0 or b' >= 5 and (5 - b') * 20 when 1 <= b' <= 4; five or more
bad pulses give 0. An evaluation (more than one second after the previous one)
feeds this raw value to the filter, stores the filtered value as the quality
and leaves both pulse counters at zero. -/
theorem dcf_sig_quality_eval (s : DcfState) (t : Nat)
    (h : get_diff_ustime t s.q_time > DCF_T_1SEC) :
    (∀ g b : Int,
      (g = 1 ∧ b = 0 → dcf_sig_quality_raw g b = 100) ∧
      (¬ (g = 1 ∧ b = 0) →
        (q_bad_folded g b = 0 ∨ 5 ≤ q_bad_folded g b → dcf_sig_quality_raw g b = 0) ∧
        (1 ≤ q_bad_folded g b ∧ q_bad_folded g b ≤ 4 →
          dcf_sig_quality_raw g b = (5 - q_bad_folded g b) * 20)) ∧
      (5 ≤ b → dcf_sig_quality_raw g b = 0)) ∧
    (dcf_sig_quality s t).q_quality =
      (m_filter_int_add_val s.q_filter (dcf_sig_quality_raw s.q_good_cnt s.q_bad_cnt)).2 ∧
    (dcf_sig_quality s t).q_good_cnt = 0 ∧
    (dcf_sig_quality s t).q_bad_cnt = 0 := by
  rw [dcf_sig_quality_eval_eq s t h]
  exact ⟨dcf_sig_quality_raw_cases, rfl, rfl, rfl⟩

/-- Witness of C15: one good pulse and no bad pulse in the first second after
start-up give the raw quality 100, which the empty filter returns unchanged;
the counters are cleared. -/
theorem dcf_sig_quality_eval_witness :
    dcf_sig_quality_raw 1 0 = 100 ∧
    (dcf_sig_quality { dcf_init with q_good_cnt := 1 } 1000001).q_quality = 100 ∧
    (dcf_sig_quality { dcf_init with q_good_cnt := 1 } 1000001).q_good_cnt = 0 ∧
    (dcf_sig_quality { dcf_init with q_good_cnt := 1 } 1000001).q_bad_cnt = 0 := by
  have h := dcf_sig_quality_eval { dcf_init with q_good_cnt := 1 } 1000001 (by decide)
  refine ⟨by decide, ?_, h.2.2.1, h.2.2.2⟩
  rw [h.2.1]
  decide

/-! ## Theorems: the time and date fields of the telegram -/

/-- Reading back seven slots that hold `v`. -/
theorem rx_bits_to_uint8_bits_21 :
    ∀ v, v < 128 → rx_bits_to_uint8 (bits_rx 21 v) 21 27 = some v := by
  decide

/-- Reading back six slots that hold `v`. -/
theorem rx_bits_to_uint8_bits_29 :
    ∀ v, v < 64 → rx_bits_to_uint8 (bits_rx 29 v) 29 34 = some v := by
  decide

/-- The parity sum of a byte is its number of binary digits 1. -/
theorem calc_parity_bit_ones : ∀ v, v < 256 → calc_parity 0 v = (bit_ones v 8 : Int) := by
  set_option maxRecDepth 100000 in decide

/-- `int8_to_bcd` followed by `bcd_to_int8` is the identity below 100, and the
code of a number below 60 fits seven bits, below 24 and below 32 six bits. -/
theorem bcd_roundtrip :
    (∀ n, n < 100 → bcd_to_int8 (int8_to_bcd n) = (n : Int) ∧ int8_to_bcd n < 256) ∧
    (∀ n, n < 60 → int8_to_bcd n < 128) ∧ (∀ n, n < 32 → int8_to_bcd n < 64) ∧
    (∀ n, n < 13 → int8_to_bcd n < 32) ∧ (∀ n, n < 8 → int8_to_bcd n = n) := by
  decide

/-- Slots that hold `v` agree with the canonical buffer `bits_rx start v`. -/
theorem slots_hold_agree (rx : Nat → dcf_bitval_t) (start width v : Nat)
    (h : slots_hold rx start width v) (k : Nat) (h1 : start ≤ k) (h2 : k < start + width) :
    rx k = bits_rx start v k := by
  have e := h (k - start) (by omega)
  rw [show start + (k - start) = k by omega] at e
  exact e

/-- The one-bits among slots that hold `v` are the binary digits 1 of `v`. -/
theorem slot_ones_of_hold (rx : Nat → dcf_bitval_t) (start v : Nat) :
    ∀ n, slots_hold rx start n v → slot_ones rx start n = bit_ones v n := by
  intro n
  induction n with
  | zero => intro _; rfl
  | succ n ih =>
    intro h
    have e := h n (by omega)
    have ih' := ih (fun i hi => h i (by omega))
    simp only [slot_ones, bit_ones, ih', e]
    cases v.testBit n <;> simp [dcf_frame_bit]

/-- A slot that holds a binary digit is defined. -/
theorem slots_hold_defined (rx : Nat → dcf_bitval_t) (start width v : Nat)
    (h : slots_hold rx start width v) (k : Nat) (h1 : start ≤ k) (h2 : k < start + width) :
    rx k ≠ dcf_bitval_t.dcf_bitval_none := by
  rw [slots_hold_agree rx start width v h k h1 h2]
  unfold bits_rx dcf_frame_bit
  split_ifs <;> simp

/-- The loop of `rx_bits_to_uint8` fails on an undefined slot in its range. -/
theorem rx_bits_to_uint8_loop_none (rx : Nat → dcf_bitval_t) (k : Nat)
    (hk : rx k = dcf_bitval_t.dcf_bitval_none) (n : Nat) :
    ∀ (idx val mask : Nat), idx ≤ k → k < idx + n →
      rx_bits_to_uint8_loop rx n idx val mask = none := by
  induction n with
  | zero => intro idx val mask h1 h2; omega
  | succ n ih =>
    intro idx val mask h1 h2
    simp only [rx_bits_to_uint8_loop]
    by_cases e : rx idx = dcf_bitval_t.dcf_bitval_none
    · rw [if_pos e]
    · rw [if_neg e]
      have hne : idx ≠ k := fun c => e (c ▸ hk)
      exact ih _ _ _ (by omega) (by omega)

/-- `rx_bits_to_uint8` fails on an undefined slot in its range. -/
theorem rx_bits_to_uint8_none (rx : Nat → dcf_bitval_t) (a b k : Nat)
    (hk : rx k = dcf_bitval_t.dcf_bitval_none) (h1 : a ≤ k) (h2 : k ≤ b) :
    rx_bits_to_uint8 rx a b = none := by
  unfold rx_bits_to_uint8
  split_ifs with hc
  · rfl
  · exact rx_bits_to_uint8_loop_none rx k hk _ _ _ _ (by omega) (by omega)

/-- The parity sum continues from the sum so far. -/
theorem calc_parity_loop_add (fuel : Nat) :
    ∀ (p : Int) (v : Nat), calc_parity_loop fuel p v = p + calc_parity_loop fuel 0 v := by
  induction fuel with
  | zero => intro p v; simp [calc_parity_loop]
  | succ n ih =>
    intro p v
    simp only [calc_parity_loop]
    split_ifs
    · rw [ih (p + 1), ih (0 + 1)]; ring
    · exact ih p _
    · simp

/-- The parity sum of a byte added to the sum so far. -/
theorem calc_parity_add (p : Int) (v : Nat) (hv : v < 256) :
    calc_parity p v = p + (bit_ones v 8 : Int) := by
  rw [← calc_parity_bit_ones v hv]
  exact calc_parity_loop_add 8 p v

/-- Digits above the width of a number are 0. -/
theorem bit_ones_width :
    (∀ v, v < 128 → bit_ones v 8 = bit_ones v 7) ∧ (∀ v, v < 64 → bit_ones v 8 = bit_ones v 6) ∧
    (∀ v, v < 32 → bit_ones v 8 = bit_ones v 5) ∧ (∀ v, v < 8 → bit_ones v 8 = bit_ones v 3) := by
  set_option maxRecDepth 100000 in decide

/-- The parity check passes exactly when the parity slot is defined and makes the
number of one-bits even. -/
theorem check_parity_even (p : Int) (v : dcf_bitval_t) (hv : v ≠ dcf_bitval_t.dcf_bitval_none) :
    check_parity p v = true ↔
      (p + (if v = dcf_bitval_t.dcf_bitval_true then 1 else 0)) % 2 = 0 := by
  cases v <;> simp [check_parity] at hv ⊢
  all_goals omega

/-- The time record `rx_bits_extract_time` builds is valid exactly when minute
and hour are in range. -/
theorem datetime_is_valid_time_fields (a b : Int) :
    datetime_is_valid_time { datetime_uninit with sec := 0, min := a, hour := b } = true ↔
      (0 ≤ a ∧ a ≤ 59) ∧ (0 ≤ b ∧ b ≤ 23) := by
  unfold datetime_is_valid_time
  simp only [datetime_uninit]
  split_ifs <;> simp <;> omega

/-- With both parity slots defined and both fields readable, `rx_bits_extract_time`
is decided by the two parity checks and the range check. -/
theorem rx_bits_extract_time_eq (rx : Nat → dcf_bitval_t) (u : datetime_t) (vm vh : Nat)
    (h28 : rx 28 ≠ dcf_bitval_t.dcf_bitval_none) (h35 : rx 35 ≠ dcf_bitval_t.dcf_bitval_none)
    (hm : rx_bits_to_uint8 rx 21 27 = some vm) (hh : rx_bits_to_uint8 rx 29 34 = some vh) :
    rx_bits_extract_time rx u =
      if check_parity (calc_parity 0 vm) (rx 28) = true ∧
          check_parity (calc_parity 0 vh) (rx 35) = true ∧
          ((0 ≤ bcd_to_int8 vm ∧ bcd_to_int8 vm ≤ 59) ∧ (0 ≤ bcd_to_int8 vh ∧ bcd_to_int8 vh ≤ 23))
      then some { u with hour := bcd_to_int8 vh, min := bcd_to_int8 vm, sec := 0 }
      else none := by
  have hv := datetime_is_valid_time_fields (bcd_to_int8 vm) (bcd_to_int8 vh)
  unfold rx_bits_extract_time
  rw [if_neg h28, hm]
  dsimp only
  rw [if_neg h35, hh]
  dsimp only
  by_cases c1 : check_parity (calc_parity 0 vm) (rx 28) = true
  · by_cases c2 : check_parity (calc_parity 0 vh) (rx 35) = true
    · by_cases c3 : (0 ≤ bcd_to_int8 vm ∧ bcd_to_int8 vm ≤ 59) ∧
          (0 ≤ bcd_to_int8 vh ∧ bcd_to_int8 vh ≤ 23)
      · simp [c1, c2, c3, hv.2 c3, datetime_copy_time]
      · have c3' : datetime_is_valid_time
            { datetime_uninit with sec := 0, min := bcd_to_int8 vm, hour := bcd_to_int8 vh } =
            false := by
          rw [Bool.eq_false_iff]
          exact fun c => c3 (hv.1 c)
        simp [c1, c2, c3, c3']
    · simp [c1, c2]
  · simp [c1]

/-- An undefined slot among 21..35 makes `rx_bits_extract_time` fail. -/
theorem rx_bits_extract_time_undefined (rx : Nat → dcf_bitval_t) (u : datetime_t) (k : Nat)
    (h1 : 21 ≤ k) (h2 : k ≤ 35) (hk : rx k = dcf_bitval_t.dcf_bitval_none) :
    rx_bits_extract_time rx u = none := by
  by_cases h28 : rx 28 = dcf_bitval_t.dcf_bitval_none
  · unfold rx_bits_extract_time
    rw [if_pos h28]
  · cases hm : rx_bits_to_uint8 rx 21 27 with
    | none =>
      unfold rx_bits_extract_time
      rw [if_neg h28, hm]
    | some vm =>
      by_cases h35 : rx 35 = dcf_bitval_t.dcf_bitval_none
      · unfold rx_bits_extract_time
        rw [if_neg h28, hm]
        dsimp only
        rw [if_pos h35]
        split_ifs <;> rfl
      · cases hh : rx_bits_to_uint8 rx 29 34 with
        | none =>
          unfold rx_bits_extract_time
          rw [if_neg h28, hm]
          dsimp only
          rw [if_neg h35, hh]
          split_ifs <;> rfl
        | some vh =>
          exfalso
          have hc : k ≤ 27 ∨ k = 28 ∨ (29 ≤ k ∧ k ≤ 34) ∨ k = 35 := by omega
          rcases hc with c | c | c | c
          · have e := rx_bits_to_uint8_none rx 21 27 k hk h1 c
            simp only [Nat.cast_ofNat] at e
            rw [hm] at e
            exact Option.noConfusion e
          · exact h28 (c ▸ hk)
          · have e := rx_bits_to_uint8_none rx 29 34 k hk c.1 c.2
            simp only [Nat.cast_ofNat] at e
            rw [hh] at e
            exact Option.noConfusion e
          · exact h35 (c ▸ hk)

/-- The parity check of a field held by the slots `start .. start + n - 1` with
its parity slot `start + n`, continuing a parity sum `p`: it passes exactly when
`p` plus the number of one-bits in the `n + 1` slots is even. -/
theorem check_parity_slots (rx : Nat → dcf_bitval_t) (start n v : Nat) (p : Int)
    (hold : slots_hold rx start n v) (hv : v < 256) (hw : bit_ones v 8 = bit_ones v n)
    (hp : rx (start + n) ≠ dcf_bitval_t.dcf_bitval_none) :
    check_parity (calc_parity p v) (rx (start + n)) = true ↔
      (p + (slot_ones rx start (n + 1) : Int)) % 2 = 0 := by
  rw [check_parity_even _ _ hp, calc_parity_add p v hv, hw, ← slot_ones_of_hold rx start v n hold]
  simp only [slot_ones]
  split_ifs <;> simp [add_assoc]

/-- Slots 21..27 that hold a seven-bit value are read back as that value. -/
theorem rx_bits_to_uint8_min (rx : Nat → dcf_bitval_t) (v : Nat) (hv : v < 128)
    (hold : slots_hold rx 21 7 v) : rx_bits_to_uint8 rx 21 27 = some v := by
  rw [rx_bits_to_uint8_congr rx (bits_rx 21 v) 21 27
    (fun k h1 h2 => slots_hold_agree rx 21 7 v hold k (by omega) (by omega))]
  exact rx_bits_to_uint8_bits_21 v hv

/-- Slots 29..34 that hold a six-bit value are read back as that value. -/
theorem rx_bits_to_uint8_hour (rx : Nat → dcf_bitval_t) (v : Nat) (hv : v < 64)
    (hold : slots_hold rx 29 6 v) : rx_bits_to_uint8 rx 29 34 = some v := by
  rw [rx_bits_to_uint8_congr rx (bits_rx 29 v) 29 34
    (fun k h1 h2 => slots_hold_agree rx 29 6 v hold k (by omega) (by omega))]
  exact rx_bits_to_uint8_bits_29 v hv

/-- C12: for every hour `h` in 0..23 and minute `m` in 0..59, when slots 21..27
hold the BCD code of `m` and slots 29..34 the BCD code of `h` (least significant
bit first) and the parity slots 28 and 35 are defined, `rx_bits_extract_time`
yields hour `h`, minute `m`, second 0 if the one-bits in slots 21..28 and in
slots 29..35 are both even in number, and fails if either number is odd (the
parity bit has the opposite value). It fails whenever one of the slots 21..35 is
undefined, and whenever the decoded minute or hour is outside 0..59 / 0..23. -/
theorem rx_bits_extract_time_bcd (rx : Nat → dcf_bitval_t) (u : datetime_t) :
    (∀ h m : Nat, h < 24 → m < 60 →
      slots_hold rx 21 7 (int8_to_bcd m) → rx 28 ≠ dcf_bitval_t.dcf_bitval_none →
      slots_hold rx 29 6 (int8_to_bcd h) → rx 35 ≠ dcf_bitval_t.dcf_bitval_none →
      (slot_ones rx 21 8 % 2 = 0 ∧ slot_ones rx 29 7 % 2 = 0 →
        rx_bits_extract_time rx u = some { u with hour := h, min := m, sec := 0 }) ∧
      (slot_ones rx 21 8 % 2 = 1 ∨ slot_ones rx 29 7 % 2 = 1 →
        rx_bits_extract_time rx u = none)) ∧
    (∀ k : Nat, 21 ≤ k → k ≤ 35 → rx k = dcf_bitval_t.dcf_bitval_none →
      rx_bits_extract_time rx u = none) ∧
    (∀ vm vh : Nat, rx_bits_to_uint8 rx 21 27 = some vm → rx_bits_to_uint8 rx 29 34 = some vh →
      ¬ ((0 ≤ bcd_to_int8 vm ∧ bcd_to_int8 vm ≤ 59) ∧ (0 ≤ bcd_to_int8 vh ∧ bcd_to_int8 vh ≤ 23)) →
      rx_bits_extract_time rx u = none) := by
  refine ⟨?_, fun k h1 h2 hk => rx_bits_extract_time_undefined rx u k h1 h2 hk, ?_⟩
  · intro h m hh hm hmin h28 hhour h35
    have b := bcd_roundtrip
    have vm_lt : int8_to_bcd m < 128 := b.2.1 m hm
    have vh_lt : int8_to_bcd h < 64 := b.2.2.1 h (by omega)
    have em := rx_bits_to_uint8_min rx _ vm_lt hmin
    have eh := rx_bits_to_uint8_hour rx _ vh_lt hhour
    have pm : check_parity (calc_parity 0 (int8_to_bcd m)) (rx 28) = true ↔
        (0 + (slot_ones rx 21 8 : Int)) % 2 = 0 :=
      check_parity_slots rx 21 7 (int8_to_bcd m) 0 hmin (by omega) (bit_ones_width.1 _ vm_lt) h28
    have ph : check_parity (calc_parity 0 (int8_to_bcd h)) (rx 35) = true ↔
        (0 + (slot_ones rx 29 7 : Int)) % 2 = 0 :=
      check_parity_slots rx 29 6 (int8_to_bcd h) 0 hhour (by omega) (bit_ones_width.2.1 _ vh_lt) h35
    rw [rx_bits_extract_time_eq rx u _ _ h28 h35 em eh, (b.1 m (by omega)).1, (b.1 h (by omega)).1]
    constructor
    · intro e
      rw [if_pos ⟨pm.2 (by omega), ph.2 (by omega), ⟨by omega, by omega⟩, by omega, by omega⟩]
    · intro e
      rw [if_neg]
      intro c
      have c1 := pm.1 c.1
      have c2 := ph.1 c.2.1
      omega
  · intro vm vh hm hh hr
    by_cases h28 : rx 28 = dcf_bitval_t.dcf_bitval_none
    · exact rx_bits_extract_time_undefined rx u 28 (by omega) (by omega) h28
    · by_cases h35 : rx 35 = dcf_bitval_t.dcf_bitval_none
      · exact rx_bits_extract_time_undefined rx u 35 (by omega) (by omega) h35
      · rw [rx_bits_extract_time_eq rx u vm vh h28 h35 hm hh, if_neg (fun c => hr c.2.2)]

/-- C12 at the frame of 12:30: the time extraction yields 12:30:00, fails on the
same frame with slot 28 inverted, and fails with slot 30 undefined. -/
theorem rx_bits_extract_time_bcd_witness :
    rx_bits_extract_time (frame_test 30) datetime_uninit =
      some { datetime_uninit with hour := 12, min := 30, sec := 0 } ∧
    rx_bits_extract_time
      (Function.update (frame_test 30) 28 dcf_bitval_t.dcf_bitval_true) datetime_uninit = none ∧
    rx_bits_extract_time
      (Function.update (frame_test 30) 30 dcf_bitval_t.dcf_bitval_none) datetime_uninit = none :=
  ⟨((rx_bits_extract_time_bcd (frame_test 30) datetime_uninit).1 12 30 (by decide) (by decide)
      (by decide) (by decide) (by decide) (by decide)).1 (by decide),
   ((rx_bits_extract_time_bcd (Function.update (frame_test 30) 28 dcf_bitval_t.dcf_bitval_true)
      datetime_uninit).1 12 30 (by decide) (by decide)
      (by decide) (by decide) (by decide) (by decide)).2 (Or.inl (by decide)),
   (rx_bits_extract_time_bcd (Function.update (frame_test 30) 30 dcf_bitval_t.dcf_bitval_none)
      datetime_uninit).2.1 30 (by decide) (by decide) (by decide)⟩

/-- Reading back the date fields from slots that hold `v`. -/
theorem rx_bits_to_uint8_bits_date :
    (∀ v, v < 64 → rx_bits_to_uint8 (bits_rx 36 v) 36 41 = some v) ∧
    (∀ v, v < 8 → rx_bits_to_uint8 (bits_rx 42 v) 42 44 = some v) ∧
    (∀ v, v < 32 → rx_bits_to_uint8 (bits_rx 45 v) 45 49 = some v) ∧
    (∀ v, v < 256 → rx_bits_to_uint8 (bits_rx 50 v) 50 57 = some v) := by
  set_option maxRecDepth 100000 in decide

/-- Slots `a .. b` that hold a value below `2 ^ (b + 1 - a)` are read back as
that value, for the four date fields. -/
theorem rx_bits_to_uint8_date (rx : Nat → dcf_bitval_t) :
    (∀ v, v < 64 → slots_hold rx 36 6 v → rx_bits_to_uint8 rx 36 41 = some v) ∧
    (∀ v, v < 8 → slots_hold rx 42 3 v → rx_bits_to_uint8 rx 42 44 = some v) ∧
    (∀ v, v < 32 → slots_hold rx 45 5 v → rx_bits_to_uint8 rx 45 49 = some v) ∧
    (∀ v, v < 256 → slots_hold rx 50 8 v → rx_bits_to_uint8 rx 50 57 = some v) := by
  refine ⟨fun v hv hold => ?_, fun v hv hold => ?_, fun v hv hold => ?_, fun v hv hold => ?_⟩
  · rw [rx_bits_to_uint8_congr rx (bits_rx 36 v) 36 41
      (fun k h1 h2 => slots_hold_agree rx 36 6 v hold k (by omega) (by omega))]
    exact rx_bits_to_uint8_bits_date.1 v hv
  · rw [rx_bits_to_uint8_congr rx (bits_rx 42 v) 42 44
      (fun k h1 h2 => slots_hold_agree rx 42 3 v hold k (by omega) (by omega))]
    exact rx_bits_to_uint8_bits_date.2.1 v hv
  · rw [rx_bits_to_uint8_congr rx (bits_rx 45 v) 45 49
      (fun k h1 h2 => slots_hold_agree rx 45 5 v hold k (by omega) (by omega))]
    exact rx_bits_to_uint8_bits_date.2.2.1 v hv
  · rw [rx_bits_to_uint8_congr rx (bits_rx 50 v) 50 57
      (fun k h1 h2 => slots_hold_agree rx 50 8 v hold k (by omega) (by omega))]
    exact rx_bits_to_uint8_bits_date.2.2.2 v hv

/-- The one-bits of two adjacent slot ranges add up. -/
theorem slot_ones_append (rx : Nat → dcf_bitval_t) (a n : Nat) :
    ∀ m, slot_ones rx a (n + m) = slot_ones rx a n + slot_ones rx (a + n) m := by
  intro m
  induction m with
  | zero => rfl
  | succ m ih =>
    rw [← Nat.add_assoc]
    simp only [slot_ones, ih, Nat.add_assoc]

/-- The date record `rx_bits_extract_date` builds is valid exactly when its four
fields are in range. -/
theorem datetime_is_valid_date_fields (day dotw month year : Int) :
    datetime_is_valid_date
        { datetime_uninit with day := day, dotw := dotw, month := month, year := year } = true ↔
      (1 ≤ day ∧ day ≤ 31) ∧ (1 ≤ month ∧ month ≤ 12) ∧ (0 ≤ year ∧ year ≤ 4095) ∧
        (0 ≤ dotw ∧ dotw ≤ 6) := by
  unfold datetime_is_valid_date
  simp only [datetime_uninit]
  split_ifs <;> simp <;> omega

/-- With the parity slot defined and the four fields readable,
`rx_bits_extract_date` is decided by the parity check and the range check. -/
theorem rx_bits_extract_date_eq (rx : Nat → dcf_bitval_t) (u : datetime_t) (vd vw vmo vy : Nat)
    (h58 : rx 58 ≠ dcf_bitval_t.dcf_bitval_none)
    (hd : rx_bits_to_uint8 rx 36 41 = some vd) (hw : rx_bits_to_uint8 rx 42 44 = some vw)
    (hmo : rx_bits_to_uint8 rx 45 49 = some vmo) (hy : rx_bits_to_uint8 rx 50 57 = some vy) :
    rx_bits_extract_date rx u =
      if check_parity (calc_parity (calc_parity (calc_parity (calc_parity 0 vd) vw) vmo) vy)
            (rx 58) = true ∧
          ((1 ≤ bcd_to_int8 vd ∧ bcd_to_int8 vd ≤ 31) ∧
           (1 ≤ bcd_to_int8 vmo ∧ bcd_to_int8 vmo ≤ 12) ∧
           (0 ≤ bcd_to_int8 vy + 2000 ∧ bcd_to_int8 vy + 2000 ≤ 4095) ∧
           (0 ≤ (if bcd_to_int8 vw = 7 then 0 else bcd_to_int8 vw) ∧
             (if bcd_to_int8 vw = 7 then 0 else bcd_to_int8 vw) ≤ 6))
      then some { u with dotw := if bcd_to_int8 vw = 7 then 0 else bcd_to_int8 vw,
                         day := bcd_to_int8 vd, month := bcd_to_int8 vmo,
                         year := bcd_to_int8 vy + 2000 }
      else none := by
  have hv := datetime_is_valid_date_fields (bcd_to_int8 vd)
    (if bcd_to_int8 vw = 7 then 0 else bcd_to_int8 vw) (bcd_to_int8 vmo) (bcd_to_int8 vy + 2000)
  unfold rx_bits_extract_date
  rw [if_neg h58, hd]
  dsimp only
  rw [hw]
  dsimp only
  rw [hmo]
  dsimp only
  rw [hy]
  dsimp only
  by_cases c1 : check_parity (calc_parity (calc_parity (calc_parity (calc_parity 0 vd) vw) vmo) vy)
      (rx 58) = true
  · by_cases c3 : (1 ≤ bcd_to_int8 vd ∧ bcd_to_int8 vd ≤ 31) ∧
        (1 ≤ bcd_to_int8 vmo ∧ bcd_to_int8 vmo ≤ 12) ∧
        (0 ≤ bcd_to_int8 vy + 2000 ∧ bcd_to_int8 vy + 2000 ≤ 4095) ∧
        (0 ≤ (if bcd_to_int8 vw = 7 then 0 else bcd_to_int8 vw) ∧
          (if bcd_to_int8 vw = 7 then 0 else bcd_to_int8 vw) ≤ 6)
    · simp [c1, c3, hv.2 c3, datetime_copy_date]
    · have c3' := (Bool.eq_false_iff).2 (fun c => c3 (hv.1 c))
      simp [c1, c3, c3']
  · simp [c1]

/-- An undefined slot among 36..58 makes `rx_bits_extract_date` fail. -/
theorem rx_bits_extract_date_undefined (rx : Nat → dcf_bitval_t) (u : datetime_t) (k : Nat)
    (h1 : 36 ≤ k) (h2 : k ≤ 58) (hk : rx k = dcf_bitval_t.dcf_bitval_none) :
    rx_bits_extract_date rx u = none := by
  by_cases h58 : rx 58 = dcf_bitval_t.dcf_bitval_none
  · unfold rx_bits_extract_date
    rw [if_pos h58]
  · cases hd : rx_bits_to_uint8 rx 36 41 with
    | none => unfold rx_bits_extract_date; rw [if_neg h58, hd]
    | some vd =>
      cases hw : rx_bits_to_uint8 rx 42 44 with
      | none => unfold rx_bits_extract_date; rw [if_neg h58, hd]; dsimp only; rw [hw]
      | some vw =>
        cases hmo : rx_bits_to_uint8 rx 45 49 with
        | none =>
          unfold rx_bits_extract_date; rw [if_neg h58, hd]; dsimp only; rw [hw]; dsimp only
          rw [hmo]
        | some vmo =>
          cases hy : rx_bits_to_uint8 rx 50 57 with
          | none =>
            unfold rx_bits_extract_date; rw [if_neg h58, hd]; dsimp only; rw [hw]; dsimp only
            rw [hmo]; dsimp only; rw [hy]
          | some vy =>
            exfalso
            have hc : k ≤ 41 ∨ (42 ≤ k ∧ k ≤ 44) ∨ (45 ≤ k ∧ k ≤ 49) ∨ (50 ≤ k ∧ k ≤ 57) ∨
                k = 58 := by omega
            rcases hc with c | c | c | c | c
            · have e := rx_bits_to_uint8_none rx 36 41 k hk h1 c
              simp only [Nat.cast_ofNat] at e
              rw [hd] at e
              exact Option.noConfusion e
            · have e := rx_bits_to_uint8_none rx 42 44 k hk c.1 c.2
              simp only [Nat.cast_ofNat] at e
              rw [hw] at e
              exact Option.noConfusion e
            · have e := rx_bits_to_uint8_none rx 45 49 k hk c.1 c.2
              simp only [Nat.cast_ofNat] at e
              rw [hmo] at e
              exact Option.noConfusion e
            · have e := rx_bits_to_uint8_none rx 50 57 k hk c.1 c.2
              simp only [Nat.cast_ofNat] at e
              rw [hy] at e
              exact Option.noConfusion e
            · exact h58 (c ▸ hk)

/-- The date parity check on slots that hold the four date fields: it passes
exactly when the number of one-bits in slots 36..58 is even. -/
theorem check_parity_date (rx : Nat → dcf_bitval_t) (vd vw vmo vy : Nat)
    (hd : slots_hold rx 36 6 vd) (hw : slots_hold rx 42 3 vw) (hmo : slots_hold rx 45 5 vmo)
    (hy : slots_hold rx 50 8 vy) (ld : vd < 64) (lw : vw < 8) (lmo : vmo < 32) (ly : vy < 256)
    (h58 : rx 58 ≠ dcf_bitval_t.dcf_bitval_none) :
    check_parity (calc_parity (calc_parity (calc_parity (calc_parity 0 vd) vw) vmo) vy)
        (rx 58) = true ↔ slot_ones rx 36 23 % 2 = 0 := by
  have a1 : slot_ones rx 36 9 = slot_ones rx 36 6 + slot_ones rx 42 3 := slot_ones_append rx 36 6 3
  have a2 : slot_ones rx 36 14 = slot_ones rx 36 9 + slot_ones rx 45 5 :=
    slot_ones_append rx 36 9 5
  have a3 : slot_ones rx 36 22 = slot_ones rx 36 14 + slot_ones rx 50 8 :=
    slot_ones_append rx 36 14 8
  have a4 : slot_ones rx 36 23 = slot_ones rx 36 22 +
      (if rx 58 = dcf_bitval_t.dcf_bitval_true then 1 else 0) := rfl
  have b := bit_ones_width
  rw [check_parity_even _ _ h58, calc_parity_add _ vy ly, calc_parity_add _ vmo (by omega),
    calc_parity_add _ vw (by omega), calc_parity_add _ vd (by omega),
    b.2.1 vd ld, b.2.2.2 vw lw, b.2.2.1 vmo lmo,
    ← slot_ones_of_hold rx 36 vd 6 hd, ← slot_ones_of_hold rx 42 vw 3 hw,
    ← slot_ones_of_hold rx 45 vmo 5 hmo, ← slot_ones_of_hold rx 50 vy 8 hy, a4, a3, a2, a1]
  split_ifs <;> omega

/-- C13: for every day `d` in 1..31, weekday `w` in 1..7, month `mo` in 1..12
and two-digit year `y` in 0..99, when slots 36..41, 42..44, 45..49 and 50..57
hold the BCD codes of `d`, `w`, `mo` and `y` (least significant bit first) and
the parity slot 58 is defined, `rx_bits_extract_date` yields day `d`, month
`mo`, year `2000 + y` and day of week `w mod 7` if the number of one-bits in
slots 36..58 is even, and fails if it is odd (slot 58 has the opposite value).
It fails whenever one of the slots 36..58 is undefined. -/
theorem rx_bits_extract_date_bcd (rx : Nat → dcf_bitval_t) (u : datetime_t) :
    (∀ d w mo y : Nat, 1 ≤ d → d ≤ 31 → 1 ≤ w → w ≤ 7 → 1 ≤ mo → mo ≤ 12 → y ≤ 99 →
      slots_hold rx 36 6 (int8_to_bcd d) → slots_hold rx 42 3 (int8_to_bcd w) →
      slots_hold rx 45 5 (int8_to_bcd mo) → slots_hold rx 50 8 (int8_to_bcd y) →
      rx 58 ≠ dcf_bitval_t.dcf_bitval_none →
      (slot_ones rx 36 23 % 2 = 0 →
        rx_bits_extract_date rx u =
          some { u with day := d, month := mo, year := 2000 + y, dotw := ((w % 7 : Nat) : Int) }) ∧
      (slot_ones rx 36 23 % 2 = 1 → rx_bits_extract_date rx u = none)) ∧
    (∀ k : Nat, 36 ≤ k → k ≤ 58 → rx k = dcf_bitval_t.dcf_bitval_none →
      rx_bits_extract_date rx u = none) := by
  refine ⟨?_, fun k h1 h2 hk => rx_bits_extract_date_undefined rx u k h1 h2 hk⟩
  intro d w mo y d1 d2 w1 w2 mo1 mo2 y2 hd hw hmo hy h58
  have b := bcd_roundtrip
  have ld : int8_to_bcd d < 64 := b.2.2.1 d (by omega)
  have ew : int8_to_bcd w = w := b.2.2.2.2 w (by omega)
  have lmo : int8_to_bcd mo < 32 := b.2.2.2.1 mo (by omega)
  have ly : int8_to_bcd y < 256 := (b.1 y (by omega)).2
  have r := rx_bits_to_uint8_date rx
  have p := check_parity_date rx _ _ _ _ hd hw hmo hy ld (by omega) lmo ly h58
  rw [rx_bits_extract_date_eq rx u _ _ _ _ h58 (r.1 _ ld hd) (r.2.1 _ (by omega) hw)
    (r.2.2.1 _ lmo hmo) (r.2.2.2 _ ly hy),
    (b.1 d (by omega)).1, (b.1 w (by omega)).1, (b.1 mo (by omega)).1, (b.1 y (by omega)).1]
  have ewd : (if (w : Int) = 7 then (0 : Int) else (w : Int)) = ((w % 7 : Nat) : Int) := by
    split_ifs <;> omega
  rw [ewd]
  constructor
  · intro e
    rw [if_pos ⟨p.2 e, ⟨by omega, by omega⟩, ⟨by omega, by omega⟩, ⟨by omega, by omega⟩,
      by omega, by omega⟩, add_comm]
  · intro e
    rw [if_neg]
    intro c
    have c1 := p.1 c.1
    omega

/-- C13 at the frame of Friday 17.05.2024: the date extraction yields it, and
fails on the same frame with slot 58 inverted and with slot 40 undefined. -/
theorem rx_bits_extract_date_bcd_witness :
    rx_bits_extract_date (frame_test 30) datetime_uninit =
      some { datetime_uninit with day := 17, month := 5, year := 2024, dotw := 5 } ∧
    rx_bits_extract_date
      (Function.update (frame_test 30) 58 (dcf_bit_invert (frame_test 30 58))) datetime_uninit =
        none ∧
    rx_bits_extract_date
      (Function.update (frame_test 30) 40 dcf_bitval_t.dcf_bitval_none) datetime_uninit = none :=
  ⟨((rx_bits_extract_date_bcd (frame_test 30) datetime_uninit).1 17 5 5 24 (by decide) (by decide)
      (by decide) (by decide) (by decide) (by decide) (by decide) (by decide) (by decide)
      (by decide) (by decide) (by decide)).1 (by decide),
   ((rx_bits_extract_date_bcd
      (Function.update (frame_test 30) 58 (dcf_bit_invert (frame_test 30 58))) datetime_uninit).1
      17 5 5 24 (by decide) (by decide)
      (by decide) (by decide) (by decide) (by decide) (by decide) (by decide) (by decide)
      (by decide) (by decide) (by decide)).2 (by decide),
   (rx_bits_extract_date_bcd (Function.update (frame_test 30) 40 dcf_bitval_t.dcf_bitval_none)
      datetime_uninit).2 40 (by decide) (by decide) (by decide)⟩

/-! ## Theorems: the moving average filter -/

/-- The fill loop of `m_filter_int_add_val` writes `val` to the entries below
`n` and leaves the others. -/
theorem m_filter_fill_loop (val : Int) (b : Nat → Int) (n : Nat) :
    ∀ i, (List.range n).foldl (fun b i => Function.update b i val) b i =
      if i < n then val else b i := by
  induction n with
  | zero => intro i; simp
  | succ n ih =>
    intro i
    rw [List.range_succ, List.foldl_append, List.foldl_cons, List.foldl_nil]
    by_cases e : i = n
    · subst e; simp
    · rw [Function.update_noteq e, ih i]
      by_cases c : i < n
      · rw [if_pos c, if_pos (by omega)]
      · rw [if_neg c, if_neg (by omega)]

/-- The shift loop of `m_filter_int_add_val` moves the entries `1 .. n` one place
down and leaves the entries from `n` on. -/
theorem m_filter_shift_loop (b : Nat → Int) (n : Nat) :
    ∀ i, (List.range n).foldl (fun b i => Function.update b i (b (i + 1))) b i =
      if i < n then b (i + 1) else b i := by
  induction n with
  | zero => intro i; simp
  | succ n ih =>
    intro i
    rw [List.range_succ, List.foldl_append, List.foldl_cons, List.foldl_nil]
    by_cases e : i = n
    · subst e
      rw [Function.update_same, ih (i + 1), if_neg (by omega), if_pos (by omega)]
    · rw [Function.update_noteq e, ih i]
      by_cases c : i < n
      · rw [if_pos c, if_pos (by omega)]
      · rw [if_neg c, if_neg (by omega)]

/-- A value in the `int32_t` range is not changed by the conversion. -/
theorem int32_wrap_id (z : Int) (h1 : -2147483648 ≤ z) (h2 : z ≤ 2147483647) :
    int32_wrap z = z := by
  unfold int32_wrap
  omega

/-- The first call after `m_filter_int_init`: the sample is returned, fills the
window, and the stored sum is `size * val` as a `long`. -/
theorem m_filter_int_add_val_first (f : m_filter_int_t) (val : Int)
    (hi : f.init_flag = false) :
    (m_filter_int_add_val f val).2 = val ∧
    (m_filter_int_add_val f val).1.size = f.size ∧
    (m_filter_int_add_val f val).1.init_flag = true ∧
    (m_filter_int_add_val f val).1.sum = int32_wrap ((f.size : Int) * val) ∧
    m_filter_window (m_filter_int_add_val f val).1 = List.replicate f.size val := by
  unfold m_filter_int_add_val
  rw [hi]
  refine ⟨rfl, rfl, rfl, rfl, ?_⟩
  simp only [m_filter_window, Bool.not_false, if_true]
  apply List.ext_getElem
  · simp
  · intro i h1 h2
    simp only [List.length_map, List.length_range] at h1
    simp [m_filter_fill_loop, h1]

/-- A buffer shifted one place down with `val` written to its last entry, as a
list. -/
theorem m_filter_map_range_shift (b b2 : Nat → Int) (n : Nat) (val : Int)
    (h : ∀ i, i < n → b2 i = b (i + 1)) (hv : b2 n = val) :
    (List.range (n + 1)).map b2 = ((List.range (n + 1)).map b).tail ++ [val] := by
  have e1 : (List.range (n + 1)).map b = b 0 :: (List.range n).map (fun i => b (i + 1)) := by
    rw [List.range_succ_eq_map]
    simp [Function.comp]
  rw [e1, List.tail_cons, List.range_succ, List.map_append, List.map_cons, List.map_nil, hv]
  congr 1
  exact List.map_congr_left (fun i hi => h i (List.mem_range.1 hi))

/-- A later call: the window loses its oldest entry and gains the sample, the
stored sum follows as a `long`, and the result is the new sum divided by the
size. -/
theorem m_filter_int_add_val_next (f : m_filter_int_t) (val : Int)
    (hi : f.init_flag = true) (hs : 0 < f.size) :
    (m_filter_int_add_val f val).2 =
      Int.tdiv (int32_wrap (int32_wrap (f.sum - f.buff 0) + val)) (f.size : Int) ∧
    (m_filter_int_add_val f val).1.size = f.size ∧
    (m_filter_int_add_val f val).1.init_flag = true ∧
    (m_filter_int_add_val f val).1.sum = int32_wrap (int32_wrap (f.sum - f.buff 0) + val) ∧
    m_filter_window (m_filter_int_add_val f val).1 = (m_filter_window f).tail ++ [val] := by
  unfold m_filter_int_add_val
  rw [hi]
  refine ⟨rfl, rfl, rfl, rfl, ?_⟩
  simp only [m_filter_window, Bool.not_true, Bool.false_eq_true, if_false]
  obtain ⟨n, hn⟩ : ∃ n, f.size = n + 1 := ⟨f.size - 1, by omega⟩
  rw [hn, Nat.add_sub_cancel]
  apply m_filter_map_range_shift
  · intro i hlt
    rw [Function.update_noteq (by omega), m_filter_shift_loop, if_pos hlt]
  · rw [Function.update_same]

/-- The window of a filter of positive size starts with `buff[0]`. -/
theorem m_filter_window_cons (f : m_filter_int_t) (hs : 0 < f.size) :
    m_filter_window f = f.buff 0 :: (m_filter_window f).tail := by
  obtain ⟨n, hn⟩ : ∃ n, f.size = n + 1 := ⟨f.size - 1, by omega⟩
  unfold m_filter_window
  rw [hn, List.range_succ_eq_map]
  rfl

/-- Appending an entry to a sequence of at least `n` entries moves its last `n`
entries one place on. -/
theorem last_entries_append (n : Nat) (l : List Int) (v : Int) (hn : 0 < n) (hl : n ≤ l.length) :
    last_entries n (l ++ [v]) = (last_entries n l).tail ++ [v] := by
  unfold last_entries
  rw [List.length_append, List.length_singleton, List.tail_drop,
    show l.length + 1 - n = l.length - n + 1 by omega,
    List.drop_append_of_le_length (by omega)]

/-- Feeding one more sample. -/
theorem m_filter_feed_append (f : m_filter_int_t) (l : List Int) (v : Int) :
    m_filter_feed f (l ++ [v]) = (m_filter_int_add_val (m_filter_feed f l) v).1 := by
  unfold m_filter_feed
  rw [List.foldl_append]
  rfl

/-- The window has `size` entries. -/
theorem m_filter_window_length (f : m_filter_int_t) : (m_filter_window f).length = f.size := by
  simp [m_filter_window]

/-- The sum of entries between 0 and `B`. -/
theorem m_filter_sum_bounds (l : List Int) (B : Int) (h : ∀ x ∈ l, 0 ≤ x ∧ x ≤ B) :
    0 ≤ l.sum ∧ l.sum ≤ (l.length : Int) * B := by
  have h1 : l.sum ≤ l.length • B := List.sum_le_card_nsmul l B (fun x hx => (h x hx).2)
  rw [nsmul_eq_mul] at h1
  exact ⟨List.sum_nonneg (fun x hx => (h x hx).1), h1⟩

/-- The first call with a sample between 0 and `B`, where `size * B` fits a
`long`: the stored sum is `size * val`. -/
theorem m_filter_int_add_val_first_sum (f : m_filter_int_t) (v B : Int)
    (hi : f.init_flag = false) (hB : (f.size : Int) * B ≤ 2147483647)
    (hv : 0 ≤ v ∧ v ≤ B) :
    (m_filter_int_add_val f v).1.sum = (f.size : Int) * v := by
  rw [(m_filter_int_add_val_first f v hi).2.2.2.1]
  have hs : (0 : Int) ≤ (f.size : Int) := Int.ofNat_nonneg _
  have h1 : (f.size : Int) * v ≤ (f.size : Int) * B := mul_le_mul_of_nonneg_left hv.2 hs
  have h0 : 0 ≤ (f.size : Int) * v := mul_nonneg hs hv.1
  exact int32_wrap_id _ (by linarith) (by linarith)

/-- A later call with a sample between 0 and `B` on a window of entries between
0 and `B` whose sum is stored, where `size * B` fits a `long`: no intermediate
result leaves the range of `long`, and the new sum is the sum of the new
window. -/
theorem m_filter_int_add_val_next_sum (f : m_filter_int_t) (v B : Int) (hs : 0 < f.size)
    (hB : (f.size : Int) * B ≤ 2147483647)
    (hw : ∀ x ∈ m_filter_window f, 0 ≤ x ∧ x ≤ B) (hv : 0 ≤ v ∧ v ≤ B)
    (hsum : f.sum = (m_filter_window f).sum) :
    int32_wrap (int32_wrap (f.sum - f.buff 0) + v) = ((m_filter_window f).tail ++ [v]).sum := by
  have c := m_filter_window_cons f hs
  have ht : ∀ x ∈ (m_filter_window f).tail, 0 ≤ x ∧ x ≤ B :=
    fun x hx => hw x (List.mem_of_mem_tail hx)
  have hl : ((m_filter_window f).tail.length : Int) + 1 = (f.size : Int) := by
    rw [List.length_tail, m_filter_window_length]
    omega
  obtain ⟨t0, t1⟩ := m_filter_sum_bounds _ B ht
  have e1 : f.sum - f.buff 0 = (m_filter_window f).tail.sum := by
    rw [hsum]
    nth_rewrite 1 [c]
    rw [List.sum_cons]
    ring
  have t2 : (m_filter_window f).tail.sum + v ≤ (f.size : Int) * B := by
    have e : ((m_filter_window f).tail.length : Int) * B + B = (f.size : Int) * B := by
      rw [← hl]
      ring
    linarith [hv.2]
  rw [e1, int32_wrap_id (m_filter_window f).tail.sum (by linarith) (by linarith [hv.1]),
    int32_wrap_id ((m_filter_window f).tail.sum + v) (by linarith [hv.1]) (by linarith),
    List.sum_append, List.sum_singleton]

/-- The last entries of the sequence of `N` copies of `v1` followed by `l` are
`v1` or entries of `l`. -/
theorem last_entries_mem (N : Nat) (v1 : Int) (l : List Int) (x : Int)
    (h : x ∈ last_entries N (List.replicate N v1 ++ l)) : x = v1 ∨ x ∈ l := by
  unfold last_entries at h
  rcases List.mem_append.1 (List.mem_of_mem_drop h) with m | m
  · exact Or.inl (List.eq_of_mem_replicate m)
  · exact Or.inr m

/-- The state of the filter after the first sample `v1` and any later samples,
all between 0 and `B` with `N * B` fitting a `long`: the window holds the last
`N` entries of `N` copies of `v1` followed by the later samples, and the stored
sum is the sum of the window. -/
theorem m_filter_feed_inv (buff : Nat → Int) (N : Nat) (hN : 0 < N) (B : Int)
    (hB : (N : Int) * B ≤ 2147483647) (v1 : Int) (hv1 : 0 ≤ v1 ∧ v1 ≤ B) (rest : List Int) :
    (∀ x ∈ rest, 0 ≤ x ∧ x ≤ B) →
    (m_filter_feed (m_filter_int_init buff N) (v1 :: rest)).size = N ∧
    (m_filter_feed (m_filter_int_init buff N) (v1 :: rest)).init_flag = true ∧
    m_filter_window (m_filter_feed (m_filter_int_init buff N) (v1 :: rest)) =
      last_entries N (List.replicate N v1 ++ rest) ∧
    (m_filter_feed (m_filter_int_init buff N) (v1 :: rest)).sum =
      (m_filter_window (m_filter_feed (m_filter_int_init buff N) (v1 :: rest))).sum := by
  induction rest using List.reverseRecOn with
  | nil =>
    intro _
    have h := m_filter_int_add_val_first (m_filter_int_init buff N) v1 rfl
    have hsum := m_filter_int_add_val_first_sum (m_filter_int_init buff N) v1 B rfl hB hv1
    have e : m_filter_feed (m_filter_int_init buff N) [v1] =
        (m_filter_int_add_val (m_filter_int_init buff N) v1).1 := rfl
    rw [e]
    refine ⟨h.2.1, h.2.2.1, ?_, ?_⟩
    · rw [h.2.2.2.2]
      simp [last_entries, m_filter_int_init]
    · rw [h.2.2.2.2, hsum]
      simp [m_filter_int_init]
  | append_singleton l v ih =>
    intro hrest
    obtain ⟨i1, i2, i3, i4⟩ := ih (fun x hx => hrest x (List.mem_append_left _ hx))
    have hv : 0 ≤ v ∧ v ≤ B := hrest v (List.mem_append_right _ (List.mem_singleton.2 rfl))
    have e : m_filter_feed (m_filter_int_init buff N) (v1 :: (l ++ [v])) =
        (m_filter_int_add_val (m_filter_feed (m_filter_int_init buff N) (v1 :: l)) v).1 :=
      m_filter_feed_append (m_filter_int_init buff N) (v1 :: l) v
    have h := m_filter_int_add_val_next (m_filter_feed (m_filter_int_init buff N) (v1 :: l)) v i2
      (by omega)
    have hw : ∀ x ∈ m_filter_window (m_filter_feed (m_filter_int_init buff N) (v1 :: l)),
        0 ≤ x ∧ x ≤ B := by
      intro x hx
      rw [i3] at hx
      rcases last_entries_mem N v1 l x hx with m | m
      · rw [m]
        exact hv1
      · exact hrest x (List.mem_append_left _ m)
    have hsum := m_filter_int_add_val_next_sum
      (m_filter_feed (m_filter_int_init buff N) (v1 :: l)) v B (by omega) (by rw [i1]; exact hB)
      hw hv i4
    rw [e]
    refine ⟨h.2.1.trans i1, h.2.2.1, ?_, ?_⟩
    · rw [h.2.2.2.2, i3, ← List.append_assoc,
        last_entries_append N _ v hN (by simp)]
    · rw [h.2.2.2.2, h.2.2.2.1, hsum]

/-- Counterexample to C16: with window size 10 and the non-negative sample
300000000, ten times the sample is 3000000000, which the 32-bit `long` sum
cannot hold. After the first call the stored sum is -1294967296, not the sum
3000000000 of the window; and a second sample 300000000 returns -129496729,
not the average 300000000 of the window. -/
theorem m_filter_int_add_val_sum_overflow :
    (m_filter_int_add_val (m_filter_int_init (fun _ => 0) 10) 300000000).1.sum = -1294967296 ∧
    (m_filter_window
      (m_filter_int_add_val (m_filter_int_init (fun _ => 0) 10) 300000000).1).sum =
        3000000000 ∧
    (m_filter_int_add_val (m_filter_feed (m_filter_int_init (fun _ => 0) 10) [300000000])
      300000000).2 = -129496729 ∧
    Int.tdiv (last_entries 10 (List.replicate 10 300000000 ++ [300000000])).sum 10 =
      300000000 := by
  refine ⟨by decide, by decide, by decide, by decide⟩

/-- C16 (amended): for the filter of window size `N > 0` and samples between 0
and a bound `B` with `N * B <= 2147483647` (so that the 32-bit running sum
cannot overflow; `N = 10`, `B = 100` in the quality estimator): the first
sample `v1` added after `m_filter_int_init` is returned unchanged and fills the
whole window; every later sample returns the sum, divided by `N` with
truncation, of the last `N` entries of the sequence of `N` copies of `v1`
followed by the later samples up to this one; and after every call the stored
sum is the sum of the window. -/
theorem m_filter_int_add_val_average (buff : Nat → Int) (N : Nat) (hN : 0 < N) (B : Int)
    (hB : (N : Int) * B ≤ 2147483647) (v1 : Int) (hv1 : 0 ≤ v1 ∧ v1 ≤ B) :
    (m_filter_int_add_val (m_filter_int_init buff N) v1).2 = v1 ∧
    m_filter_window (m_filter_int_add_val (m_filter_int_init buff N) v1).1 =
      List.replicate N v1 ∧
    (∀ (rest : List Int) (v : Int), (∀ x ∈ rest, 0 ≤ x ∧ x ≤ B) → 0 ≤ v ∧ v ≤ B →
      (m_filter_int_add_val (m_filter_feed (m_filter_int_init buff N) (v1 :: rest)) v).2 =
        Int.tdiv (last_entries N (List.replicate N v1 ++ (rest ++ [v]))).sum (N : Int)) ∧
    (∀ rest : List Int, (∀ x ∈ rest, 0 ≤ x ∧ x ≤ B) →
      (m_filter_feed (m_filter_int_init buff N) (v1 :: rest)).sum =
        (m_filter_window (m_filter_feed (m_filter_int_init buff N) (v1 :: rest))).sum) := by
  have h := m_filter_int_add_val_first (m_filter_int_init buff N) v1 rfl
  refine ⟨h.1, h.2.2.2.2, ?_,
    fun rest hr => (m_filter_feed_inv buff N hN B hB v1 hv1 rest hr).2.2.2⟩
  intro rest v hr hv
  have hr2 : ∀ x ∈ rest ++ [v], 0 ≤ x ∧ x ≤ B := by
    intro x hx
    rcases List.mem_append.1 hx with m | m
    · exact hr x m
    · rw [List.mem_singleton.1 m]
      exact hv
  have i := m_filter_feed_inv buff N hN B hB v1 hv1 (rest ++ [v]) hr2
  have j := m_filter_feed_inv buff N hN B hB v1 hv1 rest hr
  have e : m_filter_feed (m_filter_int_init buff N) (v1 :: (rest ++ [v])) =
      (m_filter_int_add_val (m_filter_feed (m_filter_int_init buff N) (v1 :: rest)) v).1 :=
    m_filter_feed_append (m_filter_int_init buff N) (v1 :: rest) v
  have n := m_filter_int_add_val_next (m_filter_feed (m_filter_int_init buff N) (v1 :: rest)) v
    j.2.1 (by omega)
  rw [n.1, ← n.2.2.2.1, ← e, i.2.2.2, i.2.2.1, j.1]

/-- C16 (amended) for the quality filter (window of 10, samples up to 100) fed
100, 0, 40: the first sample comes back as 100, the next two as
(9 * 100 + 0) / 10 = 90 and (8 * 100 + 0 + 40) / 10 = 84. -/
theorem m_filter_int_add_val_average_witness :
    (m_filter_int_add_val (m_filter_int_init (fun _ => 0) 10) 100).2 = 100 ∧
    (m_filter_int_add_val (m_filter_feed (m_filter_int_init (fun _ => 0) 10) [100]) 0).2 = 90 ∧
    (m_filter_int_add_val (m_filter_feed (m_filter_int_init (fun _ => 0) 10) [100, 0]) 40).2 =
      84 := by
  have h := m_filter_int_add_val_average (fun _ => 0) 10 (by decide) 100 (by decide) 100
    (by decide)
  refine ⟨h.1, ?_, ?_⟩
  · rw [h.2.2.1 [] 0 (by decide) (by decide)]
    decide
  · rw [h.2.2.1 [0] 40 (by decide) (by decide)]
    decide

/-! ## Theorems: the range of the signal quality -/

/-- Every raw quality sample is one of 0, 20, 40, 60, 80, 100. -/
theorem dcf_sig_quality_raw_sample (g b : Int) : quality_sample (dcf_sig_quality_raw g b) := by
  unfold dcf_sig_quality_raw quality_sample
  dsimp only
  split_ifs <;> omega

/-- A possible raw sample lies in 0..100. -/
theorem quality_sample_range (x : Int) (h : quality_sample x) : 0 ≤ x ∧ x ≤ 100 := by
  unfold quality_sample at h
  omega

/-- The truncated average of `N` non-negative entries lies within every range
that contains the entries. -/
theorem m_filter_average_bounds (l : List Int) (N : Nat) (hN : 0 < N) (hl : l.length = N)
    (hnn : ∀ x ∈ l, 0 ≤ x) (lo hi : Int) (hb : ∀ x ∈ l, lo ≤ x ∧ x ≤ hi) :
    lo ≤ Int.tdiv l.sum (N : Int) ∧ Int.tdiv l.sum (N : Int) ≤ hi := by
  have h0 : 0 ≤ l.sum := List.sum_nonneg hnn
  have hN' : (0 : Int) < N := by exact_mod_cast hN
  have h1 : l.sum ≤ l.length • hi := List.sum_le_card_nsmul l hi (fun x hx => (hb x hx).2)
  have h2 : l.length • lo ≤ l.sum := List.card_nsmul_le_sum l lo (fun x hx => (hb x hx).1)
  rw [hl, nsmul_eq_mul] at h1 h2
  rw [Int.tdiv_eq_ediv h0 (le_of_lt hN')]
  constructor
  · rw [Int.le_ediv_iff_mul_le hN']
    linarith
  · apply Int.ediv_le_of_le_mul hN'
    linarith

/-- One call of `m_filter_int_add_val` with a possible raw sample keeps the
state of the quality filter: size, entries, stored sum; and the result lies
within every range that contains the new window. The size is such that `N`
samples of 100 fit the `long` sum. -/
theorem m_filter_int_add_val_sample (f : m_filter_int_t) (N : Nat) (hN : 0 < N)
    (hNB : (N : Int) * 100 ≤ 2147483647) (v : Int)
    (hv : quality_sample v) (h1 : f.size = N)
    (h2 : ∀ x ∈ m_filter_window f, quality_sample x)
    (h3 : f.init_flag = true → f.sum = (m_filter_window f).sum) :
    (m_filter_int_add_val f v).1.size = N ∧
    (∀ x ∈ m_filter_window (m_filter_int_add_val f v).1, quality_sample x) ∧
    ((m_filter_int_add_val f v).1.init_flag = true →
      (m_filter_int_add_val f v).1.sum = (m_filter_window (m_filter_int_add_val f v).1).sum) ∧
    (∀ lo hi : Int, (∀ x ∈ m_filter_window (m_filter_int_add_val f v).1, lo ≤ x ∧ x ≤ hi) →
      lo ≤ (m_filter_int_add_val f v).2 ∧ (m_filter_int_add_val f v).2 ≤ hi) := by
  have hB : (f.size : Int) * 100 ≤ 2147483647 := by rw [h1]; exact hNB
  cases hi : f.init_flag
  · obtain ⟨a1, a2, a3, -, a5⟩ := m_filter_int_add_val_first f v hi
    have a4 := m_filter_int_add_val_first_sum f v 100 hi hB (quality_sample_range v hv)
    rw [a1, a2, a4, a5, h1]
    refine ⟨rfl, ?_, ?_, ?_⟩
    · intro x hx
      rw [List.eq_of_mem_replicate hx]
      exact hv
    · intro _
      simp
    · intro lo hi hb
      exact hb v (List.mem_replicate.2 ⟨by omega, rfl⟩)
  · obtain ⟨a1, a2, a3, a4, a5⟩ := m_filter_int_add_val_next f v hi (by omega)
    have hs := m_filter_int_add_val_next_sum f v 100 (by omega) hB
      (fun x hx => quality_sample_range x (h2 x hx)) (quality_sample_range v hv) (h3 hi)
    have hmem : ∀ x ∈ (m_filter_window f).tail ++ [v], quality_sample x := by
      intro x hx
      rcases List.mem_append.1 hx with m | m
      · exact h2 x (List.mem_of_mem_tail m)
      · rw [List.mem_singleton.1 m]
        exact hv
    have hlen : ((m_filter_window f).tail ++ [v]).length = N := by
      rw [List.length_append, List.length_tail, m_filter_window_length, List.length_singleton]
      omega
    rw [a1, a2, a4, a5, h1, hs]
    refine ⟨rfl, hmem, fun _ => rfl, ?_⟩
    intro lo hi hb
    exact m_filter_average_bounds _ N hN hlen (fun x hx => (quality_sample_range x (hmem x hx)).1)
      lo hi hb

/-- The falling edge in `analyze_pulse`, with the pulse length named `len`:
every state it can return differs from the state it was called in at most in
the pulse records, the sync variables and the two pulse counters. -/
theorem analyze_pulse_ind_falling (Q : DcfState → Prop) (s : DcfState) (t len : Nat)
    (hl : get_diff_ustime t s.pulse.start = len)
    (h : ∀ (pulse bit_s bit_c : dcf_bit_t) (sd sv : Bool) (st : Nat) (g b : Int),
      Q { s with pulse := pulse, bit_s := bit_s, bit_c := bit_c, sync_detected := sd,
                 sync_valid := sv, sync_time := st, q_good_cnt := g, q_bad_cnt := b }) :
    Q (analyze_pulse s t false) := by
  unfold analyze_pulse
  rw [hl]
  rw [if_neg Bool.false_ne_true]
  dsimp only
  by_cases c1 : s.pulse.edge ||| DCF_EDGE_FALLING = DCF_EDGE_RAISING ||| DCF_EDGE_FALLING
  · rw [if_pos c1]
    by_cases c2 : (analyze_pulse_classify len s.pulse.val s.sync_valid).1
        ≠ dcf_bitval_t.dcf_bitval_none
    · rw [if_pos c2]
      exact h _ _ _ s.sync_detected _ s.sync_time _ s.q_bad_cnt
    · rw [if_neg c2]
      exact h _ s.bit_s s.bit_c s.sync_detected _ s.sync_time s.q_good_cnt _
  · rw [if_neg c1]
    exact h _ s.bit_s s.bit_c s.sync_detected s.sync_valid s.sync_time s.q_good_cnt s.q_bad_cnt

/-- Every state `analyze_pulse` can return differs from the state it was called
in at most in the pulse records, the sync variables and the two pulse counters. -/
theorem analyze_pulse_ind (Q : DcfState → Prop) (s : DcfState) (t : Nat) (p : Bool)
    (h : ∀ (pulse bit_s bit_c : dcf_bit_t) (sd sv : Bool) (st : Nat) (g b : Int),
      Q { s with pulse := pulse, bit_s := bit_s, bit_c := bit_c, sync_detected := sd,
                 sync_valid := sv, sync_time := st, q_good_cnt := g, q_bad_cnt := b }) :
    Q (analyze_pulse s t p) := by
  cases p
  · exact analyze_pulse_ind_falling Q s t _ rfl h
  · unfold analyze_pulse
    rw [if_pos rfl]
    by_cases c1 : s.pulse.edge &&& DCF_EDGE_FALLING ≠ 0
    · rw [if_pos c1]
      by_cases c2 : get_diff_ustime t s.pulse.end_ > DCF_SYNC_MIN
      · rw [if_pos c2]
        exact h _ s.bit_s s.bit_c true s.sync_valid t s.q_good_cnt s.q_bad_cnt
      · rw [if_neg c2]
        exact h _ s.bit_s s.bit_c s.sync_detected s.sync_valid s.sync_time s.q_good_cnt
          s.q_bad_cnt
    · rw [if_neg c1]
      exact h _ s.bit_s s.bit_c s.sync_detected s.sync_valid s.sync_time s.q_good_cnt s.q_bad_cnt

/-- Every state `store_bit_s` can return differs from the state it was called
in at most in the slot buffer. -/
theorem store_bit_s_ind (Q : DcfState → Prop) (s : DcfState)
    (h : ∀ (v : Nat → dcf_bitval_t) (l : Nat → Nat),
      Q { s with rx_bits_val := v, rx_bits_len := l }) :
    Q (store_bit_s s) := by
  unfold store_bit_s
  dsimp only
  by_cases c1 : store_bit_s_idx (get_diff_ustime s.bit_s.start s.sync_time) ≥ 0 ∧
      store_bit_s_idx (get_diff_ustime s.bit_s.start s.sync_time) < 60
  · rw [if_pos c1]
    by_cases c2 : s.rx_bits_val (store_bit_s_idx (get_diff_ustime s.bit_s.start s.sync_time)).toNat
        ≠ dcf_bitval_t.dcf_bitval_none ∧
        s.rx_bits_len (store_bit_s_idx (get_diff_ustime s.bit_s.start s.sync_time)).toNat
          > s.bit_s.len
    · rw [if_pos c2]
      exact h s.rx_bits_val s.rx_bits_len
    · rw [if_neg c2]
      exact h _ _
  · rw [if_neg c1]
    exact h s.rx_bits_val s.rx_bits_len

/-- Every state `interpret_rx_bits` can return differs from the state it was
called in at most in the last reading, its validity and the counter. -/
theorem interpret_rx_bits_ind (Q : DcfState × Bool → Prop) (s : DcfState)
    (h : ∀ (dlv : Bool) (dl : datetime_t) (cnt : Int) (r : Bool),
      Q ({ s with dt_last_valid := dlv, dt_last := dl, cnt_dt_valid := cnt }, r)) :
    Q (interpret_rx_bits s) := by
  unfold interpret_rx_bits
  dsimp only
  split_ifs
  all_goals first
    | exact h s.dt_last_valid s.dt_last s.cnt_dt_valid _
    | exact h _ s.dt_last _ _
    | exact h _ _ _ _

/-- Every result of the part of `dcf_poll` after the quality evaluation differs
from the state it started in at most in the sync variables, the last accepted
bit, the slot buffer, the last reading, its validity and the counter. -/
theorem dcf_poll_tail_ind (Q : DcfState × Bool → Prop) (q : DcfState) (t : Nat)
    (h : ∀ (sd sv : Bool) (bit_s : dcf_bit_t) (rv : Nat → dcf_bitval_t) (rl : Nat → Nat)
        (dlv : Bool) (dl : datetime_t) (cnt : Int) (r : Bool),
      Q ({ q with sync_detected := sd, sync_valid := sv, bit_s := bit_s, rx_bits_val := rv,
                  rx_bits_len := rl, dt_last := dl, dt_last_valid := dlv,
                  cnt_dt_valid := cnt }, r)) :
    Q (dcf_poll_tail q t) := by
  unfold dcf_poll_tail
  by_cases c1 : q.sync_detected = true
  · rw [if_pos c1]
    exact h _ _ _ _ _ q.dt_last_valid q.dt_last q.cnt_dt_valid _
  · rw [if_neg c1]
    by_cases c2 : (!q.sync_valid) = true
    · rw [if_pos c2]
      exact h q.sync_detected q.sync_valid q.bit_s q.rx_bits_val q.rx_bits_len q.dt_last_valid
        q.dt_last q.cnt_dt_valid _
    · rw [if_neg c2]
      by_cases c3 : get_diff_ustime t q.sync_time > DCF_T_59SEC
      · rw [if_pos c3]
        exact interpret_rx_bits_ind Q _
          (fun dlv dl cnt r => h q.sync_detected false q.bit_s q.rx_bits_val q.rx_bits_len
            dlv dl cnt r)
      · rw [if_neg c3]
        by_cases c4 : q.bit_s.val ≠ dcf_bitval_t.dcf_bitval_none
        · rw [if_pos c4]
          exact store_bit_s_ind (fun x => Q ({ x with bit_s := DCF_CLEAR_BIT }, false)) q
            (fun v l => h q.sync_detected q.sync_valid DCF_CLEAR_BIT v l q.dt_last_valid
              q.dt_last q.cnt_dt_valid false)
        · rw [if_neg c4]
          exact h q.sync_detected q.sync_valid q.bit_s q.rx_bits_val q.rx_bits_len
            q.dt_last_valid q.dt_last q.cnt_dt_valid _

/-- The two branches of `dcf_poll`: a pin change goes to `analyze_pulse`, the
other cycles run the quality evaluation and then `dcf_poll_tail`. -/
theorem dcf_poll_eq (s : DcfState) (t : Nat) (gpio : Bool) :
    dcf_poll s t gpio =
      if (!gpio) ≠ s.pin_old then
        ({ analyze_pulse s t (!gpio) with pin_old := !gpio }, false)
      else dcf_poll_tail (dcf_sig_quality s t) t := by
  unfold dcf_poll dcf_poll_tail
  rfl

/-- The state of the quality estimator depends only on the filter and the
smoothed value. -/
theorem dcf_q_inv_congr (x y : DcfState) (h1 : x.q_filter = y.q_filter)
    (h2 : x.q_quality = y.q_quality) (h : dcf_q_inv y) : dcf_q_inv x := by
  unfold dcf_q_inv at h ⊢
  rw [h1, h2]
  exact h

/-- The initial state has the state of the quality estimator. -/
theorem dcf_init_q_inv : dcf_q_inv dcf_init := by
  have w : m_filter_window dcf_init.q_filter = List.replicate 10 0 := by decide
  unfold dcf_q_inv
  rw [w]
  refine ⟨rfl, ?_, ?_, ?_⟩
  · intro x hx
    rw [List.eq_of_mem_replicate hx]
    exact Or.inl rfl
  · intro c
    exact absurd c (by decide)
  · intro lo hi hb
    exact hb 0 (List.mem_replicate.2 ⟨by decide, rfl⟩)

/-- An evaluation or an idle call of `dcf_sig_quality` keeps the state of the
quality estimator. -/
theorem dcf_sig_quality_q_inv (s : DcfState) (t : Nat) (h : dcf_q_inv s) :
    dcf_q_inv (dcf_sig_quality s t) := by
  by_cases c : get_diff_ustime t s.q_time > DCF_T_1SEC
  · rw [dcf_sig_quality_eval_eq s t c]
    unfold dcf_q_inv at h ⊢
    obtain ⟨h1, h2, h3, -⟩ := h
    exact m_filter_int_add_val_sample s.q_filter DCF_Q_FILTER (by decide) (by decide) _
      (dcf_sig_quality_raw_sample s.q_good_cnt s.q_bad_cnt) h1 h2 h3
  · rw [dcf_sig_quality_idle_eq s t c]
    exact h

/-- The part of `dcf_poll` after the quality evaluation keeps the state of the
quality estimator. -/
theorem dcf_poll_tail_q_inv (q : DcfState) (t : Nat) (h : dcf_q_inv q) :
    dcf_q_inv (dcf_poll_tail q t).1 :=
  dcf_poll_tail_ind (fun r => dcf_q_inv r.1) q t
    (fun _ _ _ _ _ _ _ _ _ => dcf_q_inv_congr _ q rfl rfl h)

/-- The pin-change branch of `dcf_poll` keeps the state of the quality
estimator. -/
theorem analyze_pulse_q_inv (s : DcfState) (t : Nat) (p : Bool) (h : dcf_q_inv s) :
    dcf_q_inv { analyze_pulse s t p with pin_old := p } :=
  analyze_pulse_ind (fun x => dcf_q_inv { x with pin_old := p }) s t p
    (fun _ _ _ _ _ _ _ _ => dcf_q_inv_congr _ s rfl rfl h)

/-- `dcf_poll` keeps the state of the quality estimator. -/
theorem dcf_poll_q_inv (s : DcfState) (t : Nat) (gpio : Bool) (h : dcf_q_inv s) :
    dcf_q_inv (dcf_poll s t gpio).1 := by
  rw [dcf_poll_eq]
  by_cases c : (!gpio) ≠ s.pin_old
  · rw [if_pos c]
    exact analyze_pulse_q_inv s t (!gpio) h
  · rw [if_neg c]
    exact dcf_poll_tail_q_inv (dcf_sig_quality s t) t (dcf_sig_quality_q_inv s t h)

/-- Every call keeps the state of the quality estimator. -/
theorem dcf_call_step_q_inv (s : DcfState) (c : dcf_call) (h : dcf_q_inv s) :
    dcf_q_inv (dcf_call_step s c) := by
  cases c with
  | poll t g => exact dcf_poll_q_inv s t g h
  | sig_quality t => exact dcf_sig_quality_q_inv s t h

/-- Every sequence of calls keeps the state of the quality estimator. -/
theorem dcf_calls_q_inv (calls : List dcf_call) :
    ∀ s : DcfState, dcf_q_inv s → dcf_q_inv (calls.foldl dcf_call_step s) := by
  induction calls with
  | nil => intro s h; exact h
  | cons c cs ih => intro s h; exact ih _ (dcf_call_step_q_inv s c h)

/-- C17: after any sequence of `dcf_poll` and `dcf_sig_quality` calls from the
initial state, `dcf_get_quality` returns a value between 0 and 100 inclusive;
every raw sample is one of 0, 20, 40, 60, 80, 100, so is every entry of the
filter window, and the smoothed value lies within every range that contains the
entries of the window. -/
theorem dcf_get_quality_range (calls : List dcf_call) :
    (0 ≤ dcf_get_quality (dcf_run calls) ∧ dcf_get_quality (dcf_run calls) ≤ 100) ∧
    (∀ g b : Int, quality_sample (dcf_sig_quality_raw g b)) ∧
    (∀ x ∈ m_filter_window (dcf_run calls).q_filter, quality_sample x) ∧
    (∀ lo hi : Int, (∀ x ∈ m_filter_window (dcf_run calls).q_filter, lo ≤ x ∧ x ≤ hi) →
      lo ≤ dcf_get_quality (dcf_run calls) ∧ dcf_get_quality (dcf_run calls) ≤ hi) := by
  have h : dcf_q_inv (dcf_run calls) := dcf_calls_q_inv calls dcf_init dcf_init_q_inv
  unfold dcf_q_inv at h
  obtain ⟨-, h2, -, h4⟩ := h
  exact ⟨h4 0 100 (fun x hx => quality_sample_range x (h2 x hx)), dcf_sig_quality_raw_sample,
    h2, h4⟩

/-- C17 on a run with one clean pulse: the pin rises at 10 µs, falls at
100010 µs (a zero-bit of 100 ms), and the cycle at 1000002 µs evaluates the
quality: the value is 100, within 0..100. -/
theorem dcf_get_quality_range_witness :
    dcf_get_quality (dcf_run [dcf_call.poll 10 false, dcf_call.poll 100010 true,
      dcf_call.poll 1000002 true]) = 100 ∧
    (0 ≤ dcf_get_quality (dcf_run [dcf_call.poll 10 false, dcf_call.poll 100010 true,
      dcf_call.poll 1000002 true]) ∧
     dcf_get_quality (dcf_run [dcf_call.poll 10 false, dcf_call.poll 100010 true,
      dcf_call.poll 1000002 true]) ≤ 100) :=
  ⟨by decide, (dcf_get_quality_range [dcf_call.poll 10 false, dcf_call.poll 100010 true,
      dcf_call.poll 1000002 true]).1⟩

/-! ## Theorems: the staleness sweep of the source records -/

/-- The last two blocks of `dt_s_tout` leave the three source records. -/
theorem dt_s_tout_fin_stage_frame (x : ArbState) :
    (dt_s_tout_fin_fallback (dt_s_tout_fin_check x)).dcf_dt = x.dcf_dt ∧
    (dt_s_tout_fin_fallback (dt_s_tout_fin_check x)).rtc_dt = x.rtc_dt ∧
    (dt_s_tout_fin_fallback (dt_s_tout_fin_check x)).int_dt = x.int_dt := by
  rw [dt_s_tout_fin_char]
  split_ifs <;> exact ⟨rfl, rfl, rfl⟩

/-- The three staleness checks of `dt_s_tout`, record by record. -/
theorem dt_s_tout_sources_eq (s : ArbState) :
    (dt_s_tout_sources s).dcf_dt =
      (if s.dcf_dt.in_sync = true ∧
          get_diff_s_time s.sys_s_time s.dcf_dt.s_time > DCF_IN_SYNC_TOUT_S then
        { s.dcf_dt with in_sync := false } else s.dcf_dt) ∧
    (dt_s_tout_sources s).rtc_dt =
      (if s.rtc_dt.in_sync = true ∧ get_diff_s_time s.sys_s_time s.rtc_dt.s_time > 1 then
        { s.rtc_dt with in_sync := false } else s.rtc_dt) ∧
    (dt_s_tout_sources s).int_dt =
      (if s.int_dt.in_sync = true ∧ get_diff_s_time s.sys_s_time s.int_dt.s_time > 1 then
        { s.int_dt with in_sync := false } else s.int_dt) := by
  unfold dt_s_tout_sources
  dsimp only
  split_ifs <;> simp_all

/-- C21: `dt_s_tout` clears the radio record's in-sync flag exactly when it was
set and the last radio reception is more than 43200 seconds old (as
`get_diff_s_time` measures it), and clears the external-RTC and the
internal-RTC in-sync flags exactly when the flag was set and the respective
last reception is more than 1 second old. Each of the three records is
otherwise unchanged: no flag is ever set and no datetime changes. -/
theorem dt_s_tout_source_flags (s : ArbState) :
    ((dt_s_tout s).dcf_dt =
      (if s.dcf_dt.in_sync = true ∧ get_diff_s_time s.sys_s_time s.dcf_dt.s_time > 43200 then
        { s.dcf_dt with in_sync := false } else s.dcf_dt) ∧
     (dt_s_tout s).rtc_dt =
      (if s.rtc_dt.in_sync = true ∧ get_diff_s_time s.sys_s_time s.rtc_dt.s_time > 1 then
        { s.rtc_dt with in_sync := false } else s.rtc_dt) ∧
     (dt_s_tout s).int_dt =
      (if s.int_dt.in_sync = true ∧ get_diff_s_time s.sys_s_time s.int_dt.s_time > 1 then
        { s.int_dt with in_sync := false } else s.int_dt)) ∧
    (((dt_s_tout s).dcf_dt.in_sync = true ↔
        s.dcf_dt.in_sync = true ∧ ¬ get_diff_s_time s.sys_s_time s.dcf_dt.s_time > 43200) ∧
     ((dt_s_tout s).rtc_dt.in_sync = true ↔
        s.rtc_dt.in_sync = true ∧ ¬ get_diff_s_time s.sys_s_time s.rtc_dt.s_time > 1) ∧
     ((dt_s_tout s).int_dt.in_sync = true ↔
        s.int_dt.in_sync = true ∧ ¬ get_diff_s_time s.sys_s_time s.int_dt.s_time > 1)) ∧
    ((dt_s_tout s).dcf_dt.dt = s.dcf_dt.dt ∧ (dt_s_tout s).rtc_dt.dt = s.rtc_dt.dt ∧
     (dt_s_tout s).int_dt.dt = s.int_dt.dt) := by
  obtain ⟨f1, f2, f3⟩ := dt_s_tout_fin_stage_frame (dt_s_tout_sources s)
  obtain ⟨e1, e2, e3⟩ := dt_s_tout_sources_eq s
  have g1 : (dt_s_tout s).dcf_dt = _ := f1.trans e1
  have g2 : (dt_s_tout s).rtc_dt = _ := f2.trans e2
  have g3 : (dt_s_tout s).int_dt = _ := f3.trans e3
  refine ⟨⟨g1, g2, g3⟩, ⟨?_, ?_, ?_⟩, ?_, ?_, ?_⟩
  · rw [g1]; unfold DCF_IN_SYNC_TOUT_S; split_ifs with c <;> simp_all
  · rw [g2]; split_ifs with c <;> simp_all
  · rw [g3]; split_ifs with c <;> simp_all
  · rw [g1]; split_ifs <;> rfl
  · rw [g2]; split_ifs <;> rfl
  · rw [g3]; split_ifs <;> rfl

/-- C21 on a state where the radio was received 43201 s ago, the external RTC
2 s ago and the internal RTC 1 s ago, all three in sync: the sweep clears the
first two flags and keeps the third. -/
theorem dt_s_tout_source_flags_witness :
    (dt_s_tout { arb_init with
        sys_s_time := 50000,
        dcf_dt := { dt_clear with in_sync := true, s_time := 6799 },
        rtc_dt := { dt_clear with in_sync := true, s_time := 49998 },
        int_dt := { dt_clear with in_sync := true, s_time := 49999 } }).dcf_dt.in_sync = false ∧
    (dt_s_tout { arb_init with
        sys_s_time := 50000,
        dcf_dt := { dt_clear with in_sync := true, s_time := 6799 },
        rtc_dt := { dt_clear with in_sync := true, s_time := 49998 },
        int_dt := { dt_clear with in_sync := true, s_time := 49999 } }).rtc_dt.in_sync = false ∧
    (dt_s_tout { arb_init with
        sys_s_time := 50000,
        dcf_dt := { dt_clear with in_sync := true, s_time := 6799 },
        rtc_dt := { dt_clear with in_sync := true, s_time := 49998 },
        int_dt := { dt_clear with in_sync := true, s_time := 49999 } }).int_dt.in_sync = true := by
  have h := (dt_s_tout_source_flags { arb_init with
        sys_s_time := 50000,
        dcf_dt := { dt_clear with in_sync := true, s_time := 6799 },
        rtc_dt := { dt_clear with in_sync := true, s_time := 49998 },
        int_dt := { dt_clear with in_sync := true, s_time := 49999 } }).1
  rw [h.1, h.2.1, h.2.2]
  decide

/-! ## Theorems: the time difference -/

/-- The conversion to `int32_t` lands in the `int32_t` range. -/
theorem int32_wrap_range (z : Int) :
    -2147483648 ≤ int32_wrap z ∧ int32_wrap z < 2147483648 := by
  unfold int32_wrap
  omega

/-- The signed 32-bit difference of two converted values is the converted
difference. -/
theorem int32_wrap_sub_wrap (x y : Int) :
    int32_wrap (int32_wrap x - int32_wrap y) = int32_wrap (x - y) := by
  unfold int32_wrap
  omega

/-- The value `get_diff_ustime` computes from the signed difference `D`. -/
theorem get_diff_abs_of_range (D : Int) (h1 : -2147483648 ≤ D) (h2 : D < 2147483648) :
    (((if D < 0 then uint32_wrap (int32_wrap (-D)) else uint32_wrap D) : Nat) : Int) = |D| := by
  rw [abs_eq_max_neg, max_def]
  unfold int32_wrap uint32_wrap
  split_ifs <;> omega

/-- `get_diff_ustime` is the absolute value of the signed 32-bit difference. -/
theorem get_diff_ustime_abs (a b : Nat) :
    (get_diff_ustime a b : Int) = |int32_wrap ((a : Int) - (b : Int))| := by
  have hr := int32_wrap_range ((a : Int) - (b : Int))
  unfold get_diff_ustime
  dsimp only
  rw [int32_wrap_sub_wrap]
  exact get_diff_abs_of_range _ hr.1 hr.2

/-- `get_diff_ustime` is symmetric. -/
theorem get_diff_ustime_symm (a b : Nat) : get_diff_ustime a b = get_diff_ustime b a := by
  have h1 := get_diff_ustime_abs a b
  have h2 := get_diff_ustime_abs b a
  have r1 := int32_wrap_range ((a : Int) - (b : Int))
  have r2 := int32_wrap_range ((b : Int) - (a : Int))
  have e : |int32_wrap ((a : Int) - (b : Int))| = |int32_wrap ((b : Int) - (a : Int))| := by
    have k : ∀ x y : Int, |int32_wrap (x - y)| = |int32_wrap (y - x)| := by
      intro x y
      rw [abs_eq_max_neg, max_def, abs_eq_max_neg, max_def]
      unfold int32_wrap
      split_ifs <;> omega
    exact k _ _
  rw [e, ← h2] at h1
  exact_mod_cast h1

/-- C22: `get_diff_ustime` handles wraparound of the 32-bit microsecond
counter. For every `start` and every `d` below 2^31, the difference between the
counter value `d` microseconds after `start` (reduced modulo 2^32, so also when
the counter wrapped in between) and `start` is `d`; the function is symmetric
in its two arguments, and its value is the absolute value of the signed 32-bit
difference of the two counters. -/
theorem get_diff_ustime_wraparound :
    (∀ start d : Nat, d < 2147483648 → get_diff_ustime ((start + d) % 4294967296) start = d) ∧
    (∀ a b : Nat, get_diff_ustime a b = get_diff_ustime b a) ∧
    (∀ a b : Nat, (get_diff_ustime a b : Int) = |int32_wrap ((a : Int) - (b : Int))|) :=
  ⟨get_diff_ustime_elapsed, get_diff_ustime_symm, get_diff_ustime_abs⟩

/-- C22 across a wrap of the counter: 1000 µs after 4294967000 the counter
reads 704, and the difference is 1000 in both argument orders. -/
theorem get_diff_ustime_wraparound_witness :
    get_diff_ustime 704 4294967000 = 1000 ∧ get_diff_ustime 4294967000 704 = 1000 := by
  have h := get_diff_ustime_wraparound.1 4294967000 1000 (by decide)
  have e : (4294967000 + 1000) % 4294967296 = 704 := by decide
  rw [e] at h
  exact ⟨h, (get_diff_ustime_wraparound.2.1 4294967000 704).trans h⟩

/-! ## Theorems: the date validation -/

/-- C23: `datetime_is_valid_date` accepts exactly the dates with day in 1..31,
month in 1..12, year in 0..4095 and day of week in 0..6; the day is not checked
against the month or the leap year, so 31 February is accepted whatever the
year. A frame with correct markers and parity that encodes day 31 of month 2 is
decoded and stored as the last valid reading by `interpret_rx_bits`, and the
third such frame in a row is reported as confirmed. -/
theorem datetime_is_valid_date_ranges :
    (∀ d : datetime_t, datetime_is_valid_date d = true ↔
      (1 ≤ d.day ∧ d.day ≤ 31) ∧ (1 ≤ d.month ∧ d.month ≤ 12) ∧
      (0 ≤ d.year ∧ d.year ≤ 4095) ∧ (0 ≤ d.dotw ∧ d.dotw ≤ 6)) ∧
    (∀ (u : datetime_t) (y w : Int), 0 ≤ y → y ≤ 4095 → 0 ≤ w → w ≤ 6 →
      datetime_is_valid_date { u with day := 31, month := 2, year := y, dotw := w } = true) ∧
    (frame_decodes_to (frame_feb31 30) (dt_feb31 30) ∧
     (interpret_frame dcf_init (frame_feb31 30)).1.dt_last_valid = true ∧
     (interpret_frame dcf_init (frame_feb31 30)).1.dt_last = dt_feb31 30 ∧
     dcf_get_datetime (interpret_frame dcf_init (frame_feb31 30)).1 = some (dt_feb31 30) ∧
     (interpret_frame (interpret_frame (interpret_frame dcf_init (frame_feb31 30)).1
       (frame_feb31 31)).1 (frame_feb31 32)).2 = true) := by
  have h : ∀ d : datetime_t, datetime_is_valid_date d = true ↔
      (1 ≤ d.day ∧ d.day ≤ 31) ∧ (1 ≤ d.month ∧ d.month ≤ 12) ∧
      (0 ≤ d.year ∧ d.year ≤ 4095) ∧ (0 ≤ d.dotw ∧ d.dotw ≤ 6) := by
    intro d
    unfold datetime_is_valid_date
    split_ifs <;> simp <;> omega
  refine ⟨h, ?_, ⟨by decide, by decide, by decide⟩, by decide, by decide, by decide, by decide⟩
  intro u y w h1 h2 h3 h4
  rw [h]
  dsimp only
  omega

/-! ## Theorems: the received flags -/

/-- The radio block of `dt_poll` leaves the radio record's received flag false
and does not touch the other two received flags. -/
theorem dt_poll_dcf_received (s : ArbState) :
    (dt_poll_dcf s).1.dcf_dt.received = false ∧
    (dt_poll_dcf s).1.rtc_dt.received = s.rtc_dt.received ∧
    (dt_poll_dcf s).1.int_dt.received = s.int_dt.received := by
  unfold dt_poll_dcf
  dsimp only
  split_ifs with h1 h2
  · exact ⟨rfl, rfl, rfl⟩
  · exact ⟨rfl, rfl, rfl⟩
  · exact ⟨by simpa using h1, rfl, rfl⟩

/-- The external-RTC block of `dt_poll` leaves the external-RTC record's
received flag false and does not touch the other two received flags. -/
theorem dt_poll_rtc_received (s : ArbState) (b : Bool) :
    (dt_poll_rtc s b).1.rtc_dt.received = false ∧
    (dt_poll_rtc s b).1.dcf_dt.received = s.dcf_dt.received ∧
    (dt_poll_rtc s b).1.int_dt.received = s.int_dt.received := by
  unfold dt_poll_rtc
  dsimp only
  split_ifs with h1
  all_goals first
    | exact ⟨rfl, rfl, rfl⟩
    | exact ⟨by simpa using h1, rfl, rfl⟩

/-- The internal-RTC block of `dt_poll` leaves the internal-RTC record's
received flag false and does not touch the other two received flags. -/
theorem dt_poll_int_received (f : datetime_t → Bool) (s : ArbState) (b : Bool) :
    (dt_poll_int f s b).int_dt.received = false ∧
    (dt_poll_int f s b).dcf_dt.received = s.dcf_dt.received ∧
    (dt_poll_int f s b).rtc_dt.received = s.rtc_dt.received := by
  unfold dt_poll_int
  dsimp only
  split_ifs with h1
  all_goals first
    | exact ⟨rfl, rfl, rfl⟩
    | exact ⟨by simpa using h1, rfl, rfl⟩

/-- C24: after every `dt_poll` call the received flags of the radio, the
external-RTC and the internal-RTC record are all false; and when none of the
three flags is set on entry, `dt_poll` returns the state unchanged: no field of
any of the four records changes and no write request or write is issued. -/
theorem dt_poll_received_cleared (f : datetime_t → Bool) (s : ArbState) :
    ((dt_poll f s).dcf_dt.received = false ∧ (dt_poll f s).rtc_dt.received = false ∧
     (dt_poll f s).int_dt.received = false) ∧
    (s.dcf_dt.received = false → s.rtc_dt.received = false → s.int_dt.received = false →
      dt_poll f s = s) := by
  constructor
  · obtain ⟨a1, a2, a3⟩ := dt_poll_dcf_received s
    obtain ⟨b1, b2, b3⟩ := dt_poll_rtc_received (dt_poll_dcf s).1 (dt_poll_dcf s).2
    obtain ⟨c1, c2, c3⟩ := dt_poll_int_received f
      (dt_poll_rtc (dt_poll_dcf s).1 (dt_poll_dcf s).2).1
      (dt_poll_rtc (dt_poll_dcf s).1 (dt_poll_dcf s).2).2
    unfold dt_poll
    dsimp only
    split_ifs
    · exact ⟨c2.trans (b2.trans a1), c3.trans b1, c1⟩
    · exact ⟨c2.trans (b2.trans a1), c3.trans b1, c1⟩
  · intro h1 h2 h3
    have e1 : dt_poll_dcf s = (s, false) := by
      unfold dt_poll_dcf
      simp [h1]
    have e2 : dt_poll_rtc s false = (s, false) := by
      unfold dt_poll_rtc
      simp [h2]
    have e3 : dt_poll_int f s false = s := by
      unfold dt_poll_int
      simp [h3]
    unfold dt_poll
    simp [e1, e2, e3]

/-- C24 on the cleared start state, where no source delivered anything:
`dt_poll` changes nothing. -/
theorem dt_poll_received_cleared_witness :
    dt_poll (fun _ => true) arb_init = arb_init :=
  (dt_poll_received_cleared (fun _ => true) arb_init).2 (by decide) (by decide) (by decide)

/-! ## Theorems: runs of the main loop -/

/-- C25: there is a run of the main loop from the cleared start state (passes
of `dt_poll`, with `dt_s_tout` at every second change) after which the final
record is in sync with source tag internal RTC while the internal RTC record
itself is not in sync. In `run_int_fallback` the sweep at second 2 falls back to
the internal RTC record, still in sync then; the sweep at second 3 clears the
internal RTC record's flag (last reception 2 s old) but keeps the final record
(set 1 s ago). One sweep later the final record is out of sync as well. -/
theorem dt_s_tout_final_outlives_source :
    (∃ (f : datetime_t → Bool) (cycles : List main_cycle_in),
      (main_run f cycles).arb.fin_dt.in_sync = true ∧
      (main_run f cycles).arb.fin_dt.sync_src = dt_src_t.dt_src_int ∧
      (main_run f cycles).arb.int_dt.in_sync = false) ∧
    ((main_run (fun _ => true) (run_int_fallback.take 4)).arb.fin_dt.in_sync = true ∧
     (main_run (fun _ => true) (run_int_fallback.take 4)).arb.fin_dt.sync_src =
       dt_src_t.dt_src_int ∧
     (main_run (fun _ => true) (run_int_fallback.take 4)).arb.int_dt.in_sync = true) ∧
    ((main_run (fun _ => true) run_int_fallback).arb.sys_s_time = 3 ∧
     (main_run (fun _ => true) run_int_fallback).arb.fin_dt.in_sync = true ∧
     (main_run (fun _ => true) run_int_fallback).arb.fin_dt.sync_src = dt_src_t.dt_src_int ∧
     (main_run (fun _ => true) run_int_fallback).arb.fin_dt.dt = dt_test 30 ∧
     (main_run (fun _ => true) run_int_fallback).arb.int_dt.in_sync = false) ∧
    ((main_run (fun _ => true) (run_int_fallback ++ [cycle_idle 4000100])).arb.fin_dt.in_sync =
      false) := by
  have h : (main_run (fun _ => true) run_int_fallback).arb.sys_s_time = 3 ∧
      (main_run (fun _ => true) run_int_fallback).arb.fin_dt.in_sync = true ∧
      (main_run (fun _ => true) run_int_fallback).arb.fin_dt.sync_src = dt_src_t.dt_src_int ∧
      (main_run (fun _ => true) run_int_fallback).arb.fin_dt.dt = dt_test 30 ∧
      (main_run (fun _ => true) run_int_fallback).arb.int_dt.in_sync = false := by
    set_option maxRecDepth 100000 in decide
  have h4 : (main_run (fun _ => true) (run_int_fallback.take 4)).arb.fin_dt.in_sync = true ∧
      (main_run (fun _ => true) (run_int_fallback.take 4)).arb.fin_dt.sync_src =
        dt_src_t.dt_src_int ∧
      (main_run (fun _ => true) (run_int_fallback.take 4)).arb.int_dt.in_sync = true := by
    set_option maxRecDepth 100000 in decide
  have h6 : (main_run (fun _ => true) (run_int_fallback ++ [cycle_idle 4000100])).arb.fin_dt.in_sync
      = false := by
    set_option maxRecDepth 100000 in decide
  exact ⟨⟨fun _ => true, run_int_fallback, h.2.1, h.2.2.1, h.2.2.2.2⟩, h4, h, h6⟩

/-! ## Theorems: the edges of a pulse -/

/-- The rising edge in `analyze_pulse`: it declares a sync condition, stamped
with the current time, exactly when the pulse state has a falling edge recorded
and the time since that falling edge (as `get_diff_ustime` measures it) exceeds
1500000 µs; otherwise the sync variables stay as they are. In both cases the
pulse state is reset to hold only the rising edge and the current time as pulse
start, and nothing else changes. -/
theorem analyze_pulse_rising_eq (s : DcfState) (t : Nat) :
    analyze_pulse s t true =
      if s.pulse.edge &&& DCF_EDGE_FALLING ≠ 0 ∧ get_diff_ustime t s.pulse.end_ > 1500000 then
        { s with sync_detected := true, sync_time := t,
                 pulse := { start := t, end_ := 0, len := 0, edge := DCF_EDGE_RAISING,
                            val := dcf_bitval_t.dcf_bitval_none } }
      else
        { s with pulse := { start := t, end_ := 0, len := 0, edge := DCF_EDGE_RAISING,
                            val := dcf_bitval_t.dcf_bitval_none } } := by
  unfold analyze_pulse
  rw [if_pos rfl]
  by_cases c1 : s.pulse.edge &&& DCF_EDGE_FALLING ≠ 0
  · rw [if_pos c1]
    by_cases c2 : get_diff_ustime t s.pulse.end_ > DCF_SYNC_MIN
    · have c3 : s.pulse.edge &&& DCF_EDGE_FALLING ≠ 0 ∧
          get_diff_ustime t s.pulse.end_ > 1500000 := ⟨c1, c2⟩
      rw [if_pos c2, if_pos c3]
      rfl
    · have c3 : ¬ (s.pulse.edge &&& DCF_EDGE_FALLING ≠ 0 ∧
          get_diff_ustime t s.pulse.end_ > 1500000) := fun c => c2 c.2
      rw [if_neg c2, if_neg c3]
      rfl
  · have c3 : ¬ (s.pulse.edge &&& DCF_EDGE_FALLING ≠ 0 ∧
        get_diff_ustime t s.pulse.end_ > 1500000) := fun c => c1 c.1
    rw [if_neg c1, if_neg c3]
    rfl

/-- C26: on a rising edge `analyze_pulse` declares a sync condition, stamped
with the current time, exactly when the pulse state has a falling edge recorded
and the time since that falling edge (as `get_diff_ustime` measures it) exceeds
1500000 µs; otherwise the sync variables stay as they are. In both cases the
pulse state is reset to hold only the rising edge and the current time as pulse
start, and nothing else changes. -/
theorem analyze_pulse_rising (s : DcfState) (t : Nat) :
    analyze_pulse s t true =
      if s.pulse.edge &&& DCF_EDGE_FALLING ≠ 0 ∧ get_diff_ustime t s.pulse.end_ > 1500000 then
        { s with sync_detected := true, sync_time := t,
                 pulse := { start := t, end_ := 0, len := 0, edge := DCF_EDGE_RAISING,
                            val := dcf_bitval_t.dcf_bitval_none } }
      else
        { s with pulse := { start := t, end_ := 0, len := 0, edge := DCF_EDGE_RAISING,
                            val := dcf_bitval_t.dcf_bitval_none } } :=
  analyze_pulse_rising_eq s t

/-- C26 at the threshold: with the last falling edge at 1000 µs, a rising edge
at 1501001 µs (gap 1500001 µs) declares a sync stamped 1501001, a rising edge
at 1501000 µs (gap 1500000 µs) declares none, and with no falling edge recorded
(the state after `dcf_init`) none is declared either. -/
theorem analyze_pulse_rising_witness :
    ((analyze_pulse dcf_pulse_done 1501001 true).sync_detected = true ∧
     (analyze_pulse dcf_pulse_done 1501001 true).sync_time = 1501001 ∧
     (analyze_pulse dcf_pulse_done 1501001 true).pulse.start = 1501001) ∧
    (analyze_pulse dcf_pulse_done 1501000 true).sync_detected = false ∧
    (analyze_pulse dcf_init 1501001 true).sync_detected = false := by
  rw [analyze_pulse_rising dcf_pulse_done 1501001, analyze_pulse_rising dcf_pulse_done 1501000,
    analyze_pulse_rising dcf_init 1501001]
  decide

/-- The state of the pulse record depends only on `pin_old` and `pulse`. -/
theorem dcf_pulse_inv_congr (x y : DcfState) (h1 : x.pin_old = y.pin_old)
    (h2 : x.pulse = y.pulse) (h : dcf_pulse_inv y) : dcf_pulse_inv x := by
  unfold dcf_pulse_inv at h ⊢
  rw [h1, h2]
  exact h

/-- A state with the input level low has the state of the pulse record. -/
theorem dcf_pulse_inv_low (x : DcfState) : dcf_pulse_inv { x with pin_old := false } := by
  intro h
  exact absurd h (by simp)

/-- The state `dcf_poll` leaves after a rising edge has the state of the pulse
record. -/
theorem analyze_pulse_rising_pulse_inv (s : DcfState) (t : Nat) :
    dcf_pulse_inv { analyze_pulse s t true with pin_old := true } := by
  rw [analyze_pulse_rising_eq]
  by_cases c : s.pulse.edge &&& DCF_EDGE_FALLING ≠ 0 ∧ get_diff_ustime t s.pulse.end_ > 1500000
  · rw [if_pos c]
    exact fun _ => ⟨rfl, rfl⟩
  · rw [if_neg c]
    exact fun _ => ⟨rfl, rfl⟩

/-- `dcf_sig_quality` keeps the state of the pulse record. -/
theorem dcf_sig_quality_pulse_inv (s : DcfState) (t : Nat) (h : dcf_pulse_inv s) :
    dcf_pulse_inv (dcf_sig_quality s t) := by
  by_cases c : get_diff_ustime t s.q_time > DCF_T_1SEC
  · rw [dcf_sig_quality_eval_eq s t c]
    exact dcf_pulse_inv_congr _ s rfl rfl h
  · rw [dcf_sig_quality_idle_eq s t c]
    exact h

/-- The part of `dcf_poll` after the quality evaluation keeps the state of the
pulse record. -/
theorem dcf_poll_tail_pulse_inv (q : DcfState) (t : Nat) (h : dcf_pulse_inv q) :
    dcf_pulse_inv (dcf_poll_tail q t).1 :=
  dcf_poll_tail_ind (fun r => dcf_pulse_inv r.1) q t
    (fun _ _ _ _ _ _ _ _ _ => dcf_pulse_inv_congr _ q rfl rfl h)

/-- `dcf_poll` keeps the state of the pulse record. -/
theorem dcf_poll_pulse_inv (s : DcfState) (t : Nat) (gpio : Bool) (h : dcf_pulse_inv s) :
    dcf_pulse_inv (dcf_poll s t gpio).1 := by
  rw [dcf_poll_eq]
  by_cases c : (!gpio) ≠ s.pin_old
  · rw [if_pos c]
    cases gpio
    · exact analyze_pulse_rising_pulse_inv s t
    · exact dcf_pulse_inv_low (analyze_pulse s t false)
  · rw [if_neg c]
    exact dcf_poll_tail_pulse_inv (dcf_sig_quality s t) t (dcf_sig_quality_pulse_inv s t h)

/-- Every sequence of calls keeps the state of the pulse record. -/
theorem dcf_calls_pulse_inv (calls : List dcf_call) :
    ∀ s : DcfState, dcf_pulse_inv s → dcf_pulse_inv (calls.foldl dcf_call_step s) := by
  induction calls with
  | nil => intro s h; exact h
  | cons c cs ih =>
    intro s h
    refine ih _ ?_
    cases c with
    | poll t g => exact dcf_poll_pulse_inv s t g h
    | sig_quality t => exact dcf_sig_quality_pulse_inv s t h

/-- The falling edge of a pulse whose rising edge is recorded and that has no
value yet, of duration `d`: the counters, the last accepted bit, the pulse
state and the sync validity that `analyze_pulse` leaves. -/
theorem analyze_pulse_falling_cases (s : DcfState) (t d : Nat)
    (he : s.pulse.edge = DCF_EDGE_RAISING) (hv : s.pulse.val = dcf_bitval_t.dcf_bitval_none)
    (hd : get_diff_ustime t s.pulse.start = d) :
    ((50000 < d ∧ d < 175000) ∨ (175001 < d ∧ d < 350000) →
      (analyze_pulse s t false).q_good_cnt = s.q_good_cnt + 1 ∧
      (analyze_pulse s t false).q_bad_cnt = s.q_bad_cnt ∧
      (analyze_pulse s t false).bit_s = (analyze_pulse s t false).pulse ∧
      (analyze_pulse s t false).bit_c = (analyze_pulse s t false).pulse ∧
      (analyze_pulse s t false).pulse =
        { start := s.pulse.start, end_ := t, len := d,
          edge := DCF_EDGE_RAISING ||| DCF_EDGE_FALLING,
          val := if d < 175000 then dcf_bitval_t.dcf_bitval_false
                 else dcf_bitval_t.dcf_bitval_true }) ∧
    (¬ ((50000 < d ∧ d < 175000) ∨ (175001 < d ∧ d < 350000)) →
      (analyze_pulse s t false).q_bad_cnt = s.q_bad_cnt + 1 ∧
      (analyze_pulse s t false).q_good_cnt = s.q_good_cnt ∧
      (analyze_pulse s t false).pulse = s.bit_c ∧
      (analyze_pulse s t false).bit_s = s.bit_s ∧
      (analyze_pulse s t false).bit_c = s.bit_c) ∧
    (analyze_pulse s t false).sync_valid = (if 350000 < d then false else s.sync_valid) := by
  obtain ⟨b0, b1, bn, bl⟩ := analyze_pulse_classify_bands d s.pulse.val s.sync_valid
  by_cases c0 : 50000 < d ∧ d < 175000
  · have hc : (analyze_pulse_classify d s.pulse.val s.sync_valid).1
        = dcf_bitval_t.dcf_bitval_false := by rw [b0 c0]
    rw [analyze_pulse_falling_bit_eq s t d _ he hd hc (by decide), b0 c0, if_pos c0.2,
      if_neg (show ¬ 350000 < d by omega)]
    exact ⟨fun _ => ⟨rfl, rfl, rfl, rfl, rfl⟩, fun h => absurd (Or.inl c0) h, rfl⟩
  · by_cases c1 : 175001 < d ∧ d < 350000
    · have hc : (analyze_pulse_classify d s.pulse.val s.sync_valid).1
          = dcf_bitval_t.dcf_bitval_true := by rw [b1 c1]
      rw [analyze_pulse_falling_bit_eq s t d _ he hd hc (by decide), b1 c1,
        if_neg (show ¬ d < 175000 by omega), if_neg (show ¬ 350000 < d by omega)]
      exact ⟨fun _ => ⟨rfl, rfl, rfl, rfl, rfl⟩, fun h => absurd (Or.inr c1) h, rfl⟩
    · rcases Nat.lt_or_ge 350000 d with hl | hl
      · have hc : (analyze_pulse_classify d s.pulse.val s.sync_valid).1
            = dcf_bitval_t.dcf_bitval_none := by rw [bl hl, hv]
        rw [analyze_pulse_falling_none_eq s t d he hd hc, bl hl, if_pos hl]
        exact ⟨fun h => absurd h (by omega), fun _ => ⟨rfl, rfl, rfl, rfl, rfl⟩, rfl⟩
      · have hc : (analyze_pulse_classify d s.pulse.val s.sync_valid).1
            = dcf_bitval_t.dcf_bitval_none := by rw [bn (by omega), hv]
        rw [analyze_pulse_falling_none_eq s t d he hd hc, bn (by omega), if_neg (show ¬ 350000 < d by omega)]
        exact ⟨fun h => absurd h (by omega), fun _ => ⟨rfl, rfl, rfl, rfl, rfl⟩, rfl⟩

/-- C27: in every state reached from the initial state by `dcf_poll` and
`dcf_sig_quality` calls in which the input level is high, the pulse state holds
only the rising edge and no value, and the poll that sees the level fall runs
the falling-edge branch of `analyze_pulse`, which completes the pulse. With `d`
the pulse duration: exactly one counter increases by one. If the pulse
classifies as a zero-bit or a one-bit (50000 < d < 175000 or
175001 < d < 350000) the good counter increases and the pulse is copied into
the last accepted bit (`bit_s` and its copy `bit_c`); otherwise the bad counter
increases and the pulse state is restored from the last accepted bit (`bit_c`).
A duration above 350000 µs additionally makes the sync invalid; any other
duration leaves the sync validity as it was. -/
theorem analyze_pulse_falling_counters (calls : List dcf_call) (t d : Nat)
    (hp : (dcf_run calls).pin_old = true)
    (hd : get_diff_ustime t (dcf_run calls).pulse.start = d) :
    ((dcf_run calls).pulse.edge = DCF_EDGE_RAISING ∧
     (dcf_run calls).pulse.val = dcf_bitval_t.dcf_bitval_none) ∧
    dcf_poll (dcf_run calls) t true =
      ({ analyze_pulse (dcf_run calls) t false with pin_old := false }, false) ∧
    ((50000 < d ∧ d < 175000) ∨ (175001 < d ∧ d < 350000) →
      (analyze_pulse (dcf_run calls) t false).q_good_cnt = (dcf_run calls).q_good_cnt + 1 ∧
      (analyze_pulse (dcf_run calls) t false).q_bad_cnt = (dcf_run calls).q_bad_cnt ∧
      (analyze_pulse (dcf_run calls) t false).bit_s = (analyze_pulse (dcf_run calls) t false).pulse ∧
      (analyze_pulse (dcf_run calls) t false).bit_c = (analyze_pulse (dcf_run calls) t false).pulse ∧
      (analyze_pulse (dcf_run calls) t false).pulse =
        { start := (dcf_run calls).pulse.start, end_ := t, len := d,
          edge := DCF_EDGE_RAISING ||| DCF_EDGE_FALLING,
          val := if d < 175000 then dcf_bitval_t.dcf_bitval_false
                 else dcf_bitval_t.dcf_bitval_true }) ∧
    (¬ ((50000 < d ∧ d < 175000) ∨ (175001 < d ∧ d < 350000)) →
      (analyze_pulse (dcf_run calls) t false).q_bad_cnt = (dcf_run calls).q_bad_cnt + 1 ∧
      (analyze_pulse (dcf_run calls) t false).q_good_cnt = (dcf_run calls).q_good_cnt ∧
      (analyze_pulse (dcf_run calls) t false).pulse = (dcf_run calls).bit_c ∧
      (analyze_pulse (dcf_run calls) t false).bit_s = (dcf_run calls).bit_s ∧
      (analyze_pulse (dcf_run calls) t false).bit_c = (dcf_run calls).bit_c) ∧
    (analyze_pulse (dcf_run calls) t false).sync_valid =
      (if 350000 < d then false else (dcf_run calls).sync_valid) := by
  have hi : dcf_pulse_inv (dcf_run calls) :=
    dcf_calls_pulse_inv calls dcf_init (fun h => absurd h (by decide))
  have hev := hi hp
  have hpoll : dcf_poll (dcf_run calls) t true =
      ({ analyze_pulse (dcf_run calls) t false with pin_old := false }, false) := by
    have c : (!true) ≠ (dcf_run calls).pin_old := by rw [hp]; decide
    rw [dcf_poll_eq, if_pos c]
    rfl
  exact ⟨hev, hpoll, analyze_pulse_falling_cases (dcf_run calls) t d hev.1 hev.2 hd⟩

/-- C27 on a run: after the poll that sees the level rise at 1000 µs, the poll
that sees it fall at 101000 µs completes a pulse of 100000 µs: the good counter
goes from 0 to 1, the bad counter stays 0, and the pulse is the last accepted
bit. -/
theorem analyze_pulse_falling_counters_witness :
    (dcf_run [dcf_call.poll 1000 false]).pin_old = true ∧
    (analyze_pulse (dcf_run [dcf_call.poll 1000 false]) 101000 false).q_good_cnt = 1 ∧
    (analyze_pulse (dcf_run [dcf_call.poll 1000 false]) 101000 false).q_bad_cnt = 0 ∧
    (analyze_pulse (dcf_run [dcf_call.poll 1000 false]) 101000 false).bit_s =
      (analyze_pulse (dcf_run [dcf_call.poll 1000 false]) 101000 false).pulse := by
  have h := (analyze_pulse_falling_counters [dcf_call.poll 1000 false] 101000 100000
    (by decide) (by decide)).2.2.1 (Or.inl (by decide))
  exact ⟨by decide, h.1.trans (by decide), h.2.1.trans (by decide), h.2.2.1⟩

/-! ## Theorems: the cycle that interprets the slot buffer -/

/-- The part of `dcf_poll` after the quality evaluation either interprets the
slot buffer, in a cycle with no freshly detected sync, a valid sync and more
than 59 s since that sync, or returns false. -/
theorem dcf_poll_tail_cases (q : DcfState) (t : Nat) :
    ((q.sync_detected = false ∧ q.sync_valid = true ∧
        get_diff_ustime t q.sync_time > DCF_T_59SEC) ∧
      dcf_poll_tail q t = interpret_rx_bits { q with sync_valid := false }) ∨
    (¬ (q.sync_detected = false ∧ q.sync_valid = true ∧
        get_diff_ustime t q.sync_time > DCF_T_59SEC) ∧
      ∃ x : DcfState, dcf_poll_tail q t = (x, false)) := by
  unfold dcf_poll_tail
  by_cases c1 : q.sync_detected = true
  · rw [if_pos c1]
    exact Or.inr ⟨fun h => by rw [h.1] at c1; exact absurd c1 (by decide), _, rfl⟩
  · rw [if_neg c1]
    by_cases c2 : (!q.sync_valid) = true
    · rw [if_pos c2]
      exact Or.inr ⟨fun h => by rw [h.2.1] at c2; exact absurd c2 (by decide), _, rfl⟩
    · rw [if_neg c2]
      by_cases c3 : get_diff_ustime t q.sync_time > DCF_T_59SEC
      · rw [if_pos c3]
        exact Or.inl ⟨⟨by simpa using c1, by simpa using c2, c3⟩, rfl⟩
      · rw [if_neg c3]
        by_cases c4 : q.bit_s.val ≠ dcf_bitval_t.dcf_bitval_none
        · rw [if_pos c4]
          exact Or.inr ⟨fun h => c3 h.2.2, _, rfl⟩
        · rw [if_neg c4]
          exact Or.inr ⟨fun h => c3 h.2.2, _, rfl⟩

/-- The interpretation at the sync timeout leaves the sync invalid. -/
theorem interpret_rx_bits_timeout_sync (q : DcfState) :
    (interpret_rx_bits { q with sync_valid := false }).1.sync_valid = false :=
  interpret_rx_bits_ind (fun r => r.1.sync_valid = false) { q with sync_valid := false }
    (fun _ _ _ _ => rfl)

/-- The cycle that interprets the slot buffer leaves the sync invalid. -/
theorem dcf_poll_tail_sync (q : DcfState) (t : Nat)
    (h : q.sync_detected = false ∧ q.sync_valid = true ∧
      get_diff_ustime t q.sync_time > DCF_T_59SEC) :
    (dcf_poll_tail q t).1.sync_valid = false := by
  rcases dcf_poll_tail_cases q t with ⟨-, e⟩ | ⟨k, -⟩
  · rw [e]
    exact interpret_rx_bits_timeout_sync q
  · exact absurd h k

/-- `dcf_poll` either interprets the slot buffer, in a cycle with no level
change, no freshly detected sync, a valid sync and more than 59 s since that
sync, or returns false. -/
theorem dcf_poll_cases (s : DcfState) (t : Nat) (gpio : Bool) :
    (((!gpio) = s.pin_old ∧ s.sync_detected = false ∧ s.sync_valid = true ∧
        get_diff_ustime t s.sync_time > DCF_T_59SEC) ∧
      dcf_poll s t gpio = interpret_rx_bits { dcf_sig_quality s t with sync_valid := false } ∧
      (dcf_poll s t gpio).1.sync_valid = false) ∨
    (¬ ((!gpio) = s.pin_old ∧ s.sync_detected = false ∧ s.sync_valid = true ∧
        get_diff_ustime t s.sync_time > DCF_T_59SEC) ∧
      ∃ x : DcfState, dcf_poll s t gpio = (x, false)) := by
  obtain ⟨-, f1, f2, f3, -, -, -⟩ := dcf_sig_quality_frame s t
  rw [dcf_poll_eq]
  by_cases c : (!gpio) ≠ s.pin_old
  · rw [if_pos c]
    exact Or.inr ⟨fun h => c h.1, _, rfl⟩
  · rw [if_neg c]
    rcases dcf_poll_tail_cases (dcf_sig_quality s t) t with ⟨h, e⟩ | ⟨h, x, e⟩
    · have hv := dcf_poll_tail_sync (dcf_sig_quality s t) t h
      rw [f1, f2, f3] at h
      exact Or.inl ⟨⟨not_not.1 c, h⟩, e, hv⟩
    · rw [f1, f2, f3] at h
      exact Or.inr ⟨fun k => h k.2, x, e⟩

/-- A classification never makes an invalid sync valid. -/
theorem analyze_pulse_classify_sync (len : Nat) (v : dcf_bitval_t) (sv : Bool)
    (h : (analyze_pulse_classify len v sv).2 = true) : sv = true := by
  unfold analyze_pulse_classify at h
  split_ifs at h
  all_goals exact h

/-- The falling edge in `analyze_pulse`, with the pulse length named `len`:
every state it can return differs from the state it was called in at most in
the pulse records, the two pulse counters and the sync validity, which it never
turns from false to true. -/
theorem analyze_pulse_falling_ind_sync (Q : DcfState → Prop) (s : DcfState) (t len : Nat)
    (hl : get_diff_ustime t s.pulse.start = len)
    (h : ∀ (pulse bit_s bit_c : dcf_bit_t) (sv : Bool) (g b : Int),
      (sv = true → s.sync_valid = true) →
      Q { s with pulse := pulse, bit_s := bit_s, bit_c := bit_c, sync_valid := sv,
                 q_good_cnt := g, q_bad_cnt := b }) :
    Q (analyze_pulse s t false) := by
  unfold analyze_pulse
  rw [hl]
  rw [if_neg Bool.false_ne_true]
  dsimp only
  by_cases c1 : s.pulse.edge ||| DCF_EDGE_FALLING = DCF_EDGE_RAISING ||| DCF_EDGE_FALLING
  · rw [if_pos c1]
    by_cases c2 : (analyze_pulse_classify len s.pulse.val s.sync_valid).1
        ≠ dcf_bitval_t.dcf_bitval_none
    · rw [if_pos c2]
      exact h _ _ _ _ _ s.q_bad_cnt (analyze_pulse_classify_sync len s.pulse.val s.sync_valid)
    · rw [if_neg c2]
      exact h _ s.bit_s s.bit_c _ s.q_good_cnt _
        (analyze_pulse_classify_sync len s.pulse.val s.sync_valid)
  · rw [if_neg c1]
    exact h _ s.bit_s s.bit_c s.sync_valid s.q_good_cnt s.q_bad_cnt id

/-- The four branches of the part of `dcf_poll` after the quality evaluation. -/
theorem dcf_poll_tail_eq_cases (q : DcfState) (t : Nat) :
    (q.sync_detected = true ∧
      dcf_poll_tail q t =
        ({ q with sync_detected := false, sync_valid := true, bit_s := DCF_CLEAR_BIT,
                  rx_bits_val := fun _ => dcf_bitval_t.dcf_bitval_none,
                  rx_bits_len := fun _ => 0 }, false)) ∨
    (q.sync_detected = false ∧ q.sync_valid = false ∧ dcf_poll_tail q t = (q, false)) ∨
    (q.sync_detected = false ∧ q.sync_valid = true ∧
      get_diff_ustime t q.sync_time > DCF_T_59SEC ∧
      dcf_poll_tail q t = interpret_rx_bits { q with sync_valid := false }) ∨
    (q.sync_detected = false ∧ q.sync_valid = true ∧
      ¬ get_diff_ustime t q.sync_time > DCF_T_59SEC ∧
      ∃ (v : Nat → dcf_bitval_t) (l : Nat → Nat) (bs : dcf_bit_t),
        dcf_poll_tail q t = ({ q with rx_bits_val := v, rx_bits_len := l, bit_s := bs }, false)) := by
  unfold dcf_poll_tail
  by_cases c1 : q.sync_detected = true
  · rw [if_pos c1]
    exact Or.inl ⟨c1, rfl⟩
  · rw [if_neg c1]
    have d1 : q.sync_detected = false := by simpa using c1
    by_cases c2 : (!q.sync_valid) = true
    · rw [if_pos c2]
      exact Or.inr (Or.inl ⟨d1, by simpa using c2, rfl⟩)
    · rw [if_neg c2]
      have d2 : q.sync_valid = true := by simpa using c2
      by_cases c3 : get_diff_ustime t q.sync_time > DCF_T_59SEC
      · rw [if_pos c3]
        exact Or.inr (Or.inr (Or.inl ⟨d1, d2, c3, rfl⟩))
      · rw [if_neg c3]
        refine Or.inr (Or.inr (Or.inr ⟨d1, d2, c3, ?_⟩))
        by_cases c4 : q.bit_s.val ≠ dcf_bitval_t.dcf_bitval_none
        · rw [if_pos c4]
          exact store_bit_s_ind
            (fun x => ∃ (v : Nat → dcf_bitval_t) (l : Nat → Nat) (bs : dcf_bit_t),
              (({ x with bit_s := DCF_CLEAR_BIT } : DcfState), false) =
                ({ q with rx_bits_val := v, rx_bits_len := l, bit_s := bs }, false)) q
            (fun v l => ⟨v, l, DCF_CLEAR_BIT, rfl⟩)
        · rw [if_neg c4]
          exact ⟨q.rx_bits_val, q.rx_bits_len, q.bit_s, rfl⟩

/-- The interpretation at the sync timeout leaves `sync_detected` and changes
nothing but the last reading, its validity and the counter. -/
theorem interpret_rx_bits_timeout_detected (q : DcfState) :
    (interpret_rx_bits { q with sync_valid := false }).1.sync_detected = q.sync_detected :=
  interpret_rx_bits_ind (fun r => r.1.sync_detected = q.sync_detected)
    { q with sync_valid := false } (fun _ _ _ _ => rfl)

/-- The sync flags after the part of `dcf_poll` that follows the quality
evaluation: `sync_detected` is clear; the sync is valid after the adoption of a
detected sync, invalid after an interpretation, and otherwise as before. -/
theorem dcf_poll_tail_sync_flags (q : DcfState) (t : Nat) :
    (dcf_poll_tail q t).1.sync_detected = false ∧
    (q.sync_detected = true →
      (dcf_poll_tail q t).1.sync_valid = true ∧
      (dcf_poll_tail q t).1.rx_bits_val = fun _ => dcf_bitval_t.dcf_bitval_none) ∧
    (q.sync_detected = false → q.sync_valid = false →
      (dcf_poll_tail q t).1.sync_valid = false) ∧
    (¬ (q.sync_detected = false ∧ q.sync_valid = true ∧
        get_diff_ustime t q.sync_time > DCF_T_59SEC) →
      (dcf_poll_tail q t).1.dt_last = q.dt_last ∧
      (dcf_poll_tail q t).1.dt_last_valid = q.dt_last_valid ∧
      (dcf_poll_tail q t).1.cnt_dt_valid = q.cnt_dt_valid) := by
  rcases dcf_poll_tail_eq_cases q t with ⟨h1, e⟩ | ⟨h1, h2, e⟩ | ⟨h1, h2, h3, e⟩ |
    ⟨h1, h2, h3, v, l, bs, e⟩
  · rw [e]
    exact ⟨rfl, fun _ => ⟨rfl, rfl⟩, fun k => by rw [h1] at k; exact absurd k (by decide),
      fun _ => ⟨rfl, rfl, rfl⟩⟩
  · rw [e]
    exact ⟨h1, fun k => by rw [h1] at k; exact absurd k (by decide), fun _ _ => h2,
      fun _ => ⟨rfl, rfl, rfl⟩⟩
  · rw [e]
    exact ⟨(interpret_rx_bits_timeout_detected q).trans h1,
      fun k => by rw [h1] at k; exact absurd k (by decide),
      fun _ k => by rw [h2] at k; exact absurd k (by decide),
      fun k => absurd ⟨h1, h2, h3⟩ k⟩
  · rw [e]
    exact ⟨h1, fun k => by rw [h1] at k; exact absurd k (by decide),
      fun _ k => by rw [h2] at k; exact absurd k (by decide), fun _ => ⟨rfl, rfl, rfl⟩⟩

/-- The sync flags after a poll that sees the level change: the sync is never
made valid; `sync_detected` is set, with the sync stamped with the current
time, when the level rises while a falling edge is recorded more than
`DCF_SYNC_MIN` ago, and is otherwise as before; the last reading, its validity
and the counter are untouched. -/
theorem dcf_poll_edge_sync_flags (s : DcfState) (t : Nat) (gpio : Bool)
    (c : (!gpio) ≠ s.pin_old) :
    ((dcf_poll s t gpio).1.sync_valid = true → s.sync_valid = true) ∧
    ((gpio = false ∧ s.pulse.edge &&& DCF_EDGE_FALLING ≠ 0 ∧
        get_diff_ustime t s.pulse.end_ > DCF_SYNC_MIN) →
      (dcf_poll s t gpio).1.sync_detected = true ∧ (dcf_poll s t gpio).1.sync_time = t) ∧
    (¬ (gpio = false ∧ s.pulse.edge &&& DCF_EDGE_FALLING ≠ 0 ∧
        get_diff_ustime t s.pulse.end_ > DCF_SYNC_MIN) →
      (dcf_poll s t gpio).1.sync_detected = s.sync_detected) ∧
    ((dcf_poll s t gpio).1.dt_last = s.dt_last ∧
     (dcf_poll s t gpio).1.dt_last_valid = s.dt_last_valid ∧
     (dcf_poll s t gpio).1.cnt_dt_valid = s.cnt_dt_valid) := by
  rw [dcf_poll_eq, if_pos c]
  cases gpio
  · have e : analyze_pulse s t (!false) = analyze_pulse s t true := rfl
    rw [e, analyze_pulse_rising_eq]
    by_cases k : s.pulse.edge &&& DCF_EDGE_FALLING ≠ 0 ∧ get_diff_ustime t s.pulse.end_ > 1500000
    · rw [if_pos k]
      exact ⟨id, fun _ => ⟨rfl, rfl⟩, fun n => absurd ⟨rfl, k⟩ n, rfl, rfl, rfl⟩
    · rw [if_neg k]
      exact ⟨id, fun n => absurd n.2 k, fun _ => rfl, rfl, rfl, rfl⟩
  · have e : analyze_pulse s t (!true) = analyze_pulse s t false := rfl
    rw [e]
    exact analyze_pulse_falling_ind_sync
      (fun x =>
        ((({ x with pin_old := !true } : DcfState), false).1.sync_valid = true →
          s.sync_valid = true) ∧
        ((true = false ∧ s.pulse.edge &&& DCF_EDGE_FALLING ≠ 0 ∧
            get_diff_ustime t s.pulse.end_ > DCF_SYNC_MIN) →
          (({ x with pin_old := !true } : DcfState), false).1.sync_detected = true ∧
          (({ x with pin_old := !true } : DcfState), false).1.sync_time = t) ∧
        (¬ (true = false ∧ s.pulse.edge &&& DCF_EDGE_FALLING ≠ 0 ∧
            get_diff_ustime t s.pulse.end_ > DCF_SYNC_MIN) →
          (({ x with pin_old := !true } : DcfState), false).1.sync_detected = s.sync_detected) ∧
        ((({ x with pin_old := !true } : DcfState), false).1.dt_last = s.dt_last ∧
         (({ x with pin_old := !true } : DcfState), false).1.dt_last_valid = s.dt_last_valid ∧
         (({ x with pin_old := !true } : DcfState), false).1.cnt_dt_valid = s.cnt_dt_valid))
      s t _ rfl
      (fun _ _ _ _ _ _ hsv =>
        ⟨hsv, fun n => absurd n.1 (by decide), fun _ => rfl, rfl, rfl, rfl⟩)

/-- The sync flags after a poll with no level change, in terms of the state the
poll started in. -/
theorem dcf_poll_level_sync_flags (s : DcfState) (t : Nat) (gpio : Bool)
    (c : (!gpio) = s.pin_old) :
    (dcf_poll s t gpio).1.sync_detected = false ∧
    (s.sync_detected = true →
      (dcf_poll s t gpio).1.sync_valid = true ∧
      (dcf_poll s t gpio).1.rx_bits_val = fun _ => dcf_bitval_t.dcf_bitval_none) ∧
    (s.sync_detected = false → s.sync_valid = false →
      (dcf_poll s t gpio).1.sync_valid = false) ∧
    (¬ (s.sync_detected = false ∧ s.sync_valid = true ∧
        get_diff_ustime t s.sync_time > DCF_T_59SEC) →
      (dcf_poll s t gpio).1.dt_last = s.dt_last ∧
      (dcf_poll s t gpio).1.dt_last_valid = s.dt_last_valid ∧
      (dcf_poll s t gpio).1.cnt_dt_valid = s.cnt_dt_valid) := by
  obtain ⟨-, f1, f2, f3, f4, f5, f6⟩ := dcf_sig_quality_frame s t
  have h := dcf_poll_tail_sync_flags (dcf_sig_quality s t) t
  rw [f1, f2, f3, f4, f5, f6] at h
  rw [dcf_poll_eq, if_neg (not_not.2 c)]
  exact h

/-- Arithmetic of one step of a counting argument. -/
theorem dcf_count_step_arith (i p' a p ci pe ca : Nat) (h1 : i + p' ≤ a + p)
    (h2 : ci + pe ≤ ca + p') : i + ci + pe ≤ a + ca + p := by
  omega

/-- One call and the sync validity: an interpretation uses up a valid sync, and
only the adoption of a detected sync makes the sync valid. -/
theorem dcf_call_step_sync_valid (s : DcfState) (c : dcf_call) :
    (if dcf_interprets s c = true then 1 else 0) +
        (if (dcf_call_step s c).sync_valid = true then 1 else 0) ≤
      (if dcf_adopts_sync s c = true then 1 else 0) +
        (if s.sync_valid = true then 1 else 0) := by
  cases c with
  | sig_quality t =>
    have hV : (dcf_call_step s (dcf_call.sig_quality t)).sync_valid = s.sync_valid :=
      (dcf_sig_quality_frame s t).2.2.1
    have hi : dcf_interprets s (dcf_call.sig_quality t) = false := rfl
    have ha : dcf_adopts_sync s (dcf_call.sig_quality t) = false := rfl
    rw [hV, hi, ha]
  | poll t g =>
    have hs : dcf_call_step s (dcf_call.poll t g) = (dcf_poll s t g).1 := rfl
    rw [hs]
    by_cases c : (!g) = s.pin_old
    · obtain ⟨-, hA, hN, -⟩ := dcf_poll_level_sync_flags s t g c
      by_cases d : s.sync_detected = true
      · have ha : dcf_adopts_sync s (dcf_call.poll t g) = true := decide_eq_true ⟨c, d⟩
        have hi : dcf_interprets s (dcf_call.poll t g) = false :=
          decide_eq_false (fun k => by rw [d] at k; exact absurd k.2.1 (by decide))
        rw [ha, hi, (hA d).1]
        generalize s.sync_valid = b
        cases b <;> decide
      · have d0 : s.sync_detected = false := by simpa using d
        have ha : dcf_adopts_sync s (dcf_call.poll t g) = false :=
          decide_eq_false (fun k => d k.2)
        by_cases v : s.sync_valid = true
        · by_cases tmo : get_diff_ustime t s.sync_time > DCF_T_59SEC
          · have hi : dcf_interprets s (dcf_call.poll t g) = true :=
              decide_eq_true ⟨c, d0, v, tmo⟩
            rcases dcf_poll_cases s t g with ⟨-, -, hv⟩ | ⟨k, -⟩
            · rw [ha, hi, hv, v]
              decide
            · exact absurd ⟨c, d0, v, tmo⟩ k
          · have hi : dcf_interprets s (dcf_call.poll t g) = false :=
              decide_eq_false (fun k => tmo k.2.2.2)
            rw [ha, hi, v]
            generalize (dcf_poll s t g).1.sync_valid = b
            cases b <;> decide
        · have v0 : s.sync_valid = false := by simpa using v
          have hi : dcf_interprets s (dcf_call.poll t g) = false :=
            decide_eq_false (fun k => v k.2.2.1)
          rw [ha, hi, hN d0 v0, v0]
    · obtain ⟨hm, -, -, -⟩ := dcf_poll_edge_sync_flags s t g c
      have ha : dcf_adopts_sync s (dcf_call.poll t g) = false :=
        decide_eq_false (fun k => c k.1)
      have hi : dcf_interprets s (dcf_call.poll t g) = false :=
        decide_eq_false (fun k => c k.1)
      rw [ha, hi]
      by_cases v' : (dcf_poll s t g).1.sync_valid = true
      · rw [v', hm v']
      · have v0 : (dcf_poll s t g).1.sync_valid = false := by simpa using v'
        rw [v0]
        generalize s.sync_valid = b
        cases b <;> decide

/-- One call and the detected-sync flag: an adoption uses up a detected sync,
and only a sync declared by `analyze_pulse` sets the flag. -/
theorem dcf_call_step_sync_detected (s : DcfState) (c : dcf_call) :
    (if dcf_adopts_sync s c = true then 1 else 0) +
        (if (dcf_call_step s c).sync_detected = true then 1 else 0) ≤
      (if dcf_declares_sync s c = true then 1 else 0) +
        (if s.sync_detected = true then 1 else 0) := by
  cases c with
  | sig_quality t =>
    have hD : (dcf_call_step s (dcf_call.sig_quality t)).sync_detected = s.sync_detected :=
      (dcf_sig_quality_frame s t).2.1
    have hi : dcf_declares_sync s (dcf_call.sig_quality t) = false := rfl
    have ha : dcf_adopts_sync s (dcf_call.sig_quality t) = false := rfl
    rw [hD, hi, ha]
  | poll t g =>
    have hs : dcf_call_step s (dcf_call.poll t g) = (dcf_poll s t g).1 := rfl
    rw [hs]
    by_cases c : (!g) = s.pin_old
    · obtain ⟨hD, -, -, -⟩ := dcf_poll_level_sync_flags s t g c
      have hi : dcf_declares_sync s (dcf_call.poll t g) = false :=
        decide_eq_false (fun k => k.1 c)
      rw [hD, hi]
      by_cases d : s.sync_detected = true
      · have ha : dcf_adopts_sync s (dcf_call.poll t g) = true := decide_eq_true ⟨c, d⟩
        rw [ha, d]
        decide
      · have d0 : s.sync_detected = false := by simpa using d
        have ha : dcf_adopts_sync s (dcf_call.poll t g) = false :=
          decide_eq_false (fun k => d k.2)
        rw [ha, d0]
    · obtain ⟨-, hY, hNo, -⟩ := dcf_poll_edge_sync_flags s t g c
      have ha : dcf_adopts_sync s (dcf_call.poll t g) = false :=
        decide_eq_false (fun k => c k.1)
      rw [ha]
      by_cases k : g = false ∧ s.pulse.edge &&& DCF_EDGE_FALLING ≠ 0 ∧
          get_diff_ustime t s.pulse.end_ > DCF_SYNC_MIN
      · have hi : dcf_declares_sync s (dcf_call.poll t g) = true := decide_eq_true ⟨c, k⟩
        rw [hi, (hY k).1]
        generalize s.sync_detected = b
        cases b <;> decide
      · have hi : dcf_declares_sync s (dcf_call.poll t g) = false :=
          decide_eq_false (fun n => k n.2)
        rw [hi, hNo k]

/-- In every run of calls the interpretations, together with the sync validity
at the end, are covered by the adoptions of a detected sync and the sync
validity at the start. -/
theorem dcf_count_interprets_le (calls : List dcf_call) :
    ∀ s : DcfState,
      dcf_count dcf_interprets s calls +
          (if (calls.foldl dcf_call_step s).sync_valid = true then 1 else 0) ≤
        dcf_count dcf_adopts_sync s calls + (if s.sync_valid = true then 1 else 0) := by
  induction calls with
  | nil => intro s; exact Nat.le_refl _
  | cons c cs ih =>
    intro s
    exact dcf_count_step_arith _ _ _ _ _ _ _ (dcf_call_step_sync_valid s c)
      (ih (dcf_call_step s c))

/-- In every run of calls the adoptions of a detected sync, together with the
detected-sync flag at the end, are covered by the syncs `analyze_pulse` declares
and the flag at the start. -/
theorem dcf_count_adopts_le (calls : List dcf_call) :
    ∀ s : DcfState,
      dcf_count dcf_adopts_sync s calls +
          (if (calls.foldl dcf_call_step s).sync_detected = true then 1 else 0) ≤
        dcf_count dcf_declares_sync s calls + (if s.sync_detected = true then 1 else 0) := by
  induction calls with
  | nil => intro s; exact Nat.le_refl _
  | cons c cs ih =>
    intro s
    exact dcf_count_step_arith _ _ _ _ _ _ _ (dcf_call_step_sync_detected s c)
      (ih (dcf_call_step s c))

/-- C28: `dcf_poll` interprets the slot buffer only in a cycle with no level
change, no freshly detected sync, a valid sync and more than 59000000 µs
elapsed since that sync (as `get_diff_ustime` measures it). In that cycle its
result is the result of `interpret_rx_bits` and the state it leaves has the
sync invalid, so that the next call returns false whatever the time and the
level. In every other cycle `dcf_poll` returns false and leaves the last
telegram, its validity and the counter of valid telegrams as they were.
Each sync leads to at most one interpretation, over every run of calls
(`dcf_poll` and `dcf_sig_quality` in any order, from any state): the sync
becomes valid only in a cycle that adopts a detected sync, and a sync is
detected only in a cycle in which `analyze_pulse` declares one; so the number
of interpretations, plus one if the sync is valid at the end, is at most the
number of adoptions, plus one if the sync was valid at the start; the number of
adoptions, plus one if a detected sync is pending at the end, is at most the
number of declared syncs, plus one if one was pending at the start; a run
without adoption has at most one interpretation; and after `dcf_init` there are
at most as many interpretations as adoptions and as many adoptions as declared
syncs. -/
theorem dcf_poll_interprets (s : DcfState) (t : Nat) (gpio : Bool) :
    ((!gpio) = s.pin_old ∧ s.sync_detected = false ∧ s.sync_valid = true ∧
        get_diff_ustime t s.sync_time > 59000000 →
      dcf_poll s t gpio = interpret_rx_bits { dcf_sig_quality s t with sync_valid := false } ∧
      (dcf_poll s t gpio).1.sync_valid = false ∧
      (∀ (t2 : Nat) (gpio2 : Bool), (dcf_poll (dcf_poll s t gpio).1 t2 gpio2).2 = false)) ∧
    (¬ ((!gpio) = s.pin_old ∧ s.sync_detected = false ∧ s.sync_valid = true ∧
        get_diff_ustime t s.sync_time > 59000000) →
      (dcf_poll s t gpio).2 = false ∧
      (dcf_poll s t gpio).1.dt_last = s.dt_last ∧
      (dcf_poll s t gpio).1.dt_last_valid = s.dt_last_valid ∧
      (dcf_poll s t gpio).1.cnt_dt_valid = s.cnt_dt_valid) ∧
    (dcf_interprets s (dcf_call.poll t gpio) = true ↔
      ((!gpio) = s.pin_old ∧ s.sync_detected = false ∧ s.sync_valid = true ∧
        get_diff_ustime t s.sync_time > 59000000)) ∧
    ((dcf_poll s t gpio).1.sync_valid = true →
      s.sync_valid = true ∨ dcf_adopts_sync s (dcf_call.poll t gpio) = true) ∧
    (dcf_adopts_sync s (dcf_call.poll t gpio) = true →
      s.sync_detected = true ∧
      (dcf_poll s t gpio).1.sync_detected = false ∧
      (dcf_poll s t gpio).1.sync_valid = true ∧
      (dcf_poll s t gpio).1.rx_bits_val = fun _ => dcf_bitval_t.dcf_bitval_none) ∧
    ((dcf_poll s t gpio).1.sync_detected = true →
      s.sync_detected = true ∨ dcf_declares_sync s (dcf_call.poll t gpio) = true) ∧
    (dcf_declares_sync s (dcf_call.poll t gpio) = true →
      (dcf_poll s t gpio).1.sync_detected = true ∧ (dcf_poll s t gpio).1.sync_time = t) ∧
    (∀ calls : List dcf_call,
      dcf_count dcf_interprets s calls +
          (if (calls.foldl dcf_call_step s).sync_valid = true then 1 else 0) ≤
        dcf_count dcf_adopts_sync s calls + (if s.sync_valid = true then 1 else 0) ∧
      dcf_count dcf_adopts_sync s calls +
          (if (calls.foldl dcf_call_step s).sync_detected = true then 1 else 0) ≤
        dcf_count dcf_declares_sync s calls + (if s.sync_detected = true then 1 else 0) ∧
      (dcf_count dcf_adopts_sync s calls = 0 → dcf_count dcf_interprets s calls ≤ 1)) ∧
    (∀ calls : List dcf_call,
      dcf_count dcf_interprets dcf_init calls ≤ dcf_count dcf_adopts_sync dcf_init calls ∧
      dcf_count dcf_adopts_sync dcf_init calls ≤ dcf_count dcf_declares_sync dcf_init calls) := by
  refine ⟨?_, ?_, ?_, ?_, ?_, ?_, ?_, ?_, ?_⟩
  · intro h
    rcases dcf_poll_cases s t gpio with ⟨-, e, hv⟩ | ⟨k, -⟩
    · refine ⟨e, hv, ?_⟩
      intro t2 gpio2
      rcases dcf_poll_cases (dcf_poll s t gpio).1 t2 gpio2 with ⟨k2, -⟩ | ⟨-, x, e2⟩
      · rw [hv] at k2
        exact absurd k2.2.2.1 (by decide)
      · rw [e2]
    · exact absurd h k
  · intro h
    refine ⟨?_, ?_⟩
    · rcases dcf_poll_cases s t gpio with ⟨k, -⟩ | ⟨-, x, e⟩
      · exact absurd k h
      · rw [e]
    · by_cases c : (!gpio) = s.pin_old
      · exact (dcf_poll_level_sync_flags s t gpio c).2.2.2 (fun k => h ⟨c, k⟩)
      · exact (dcf_poll_edge_sync_flags s t gpio c).2.2.2
  · exact decide_eq_true_iff
  · intro h
    by_cases c : (!gpio) = s.pin_old
    · by_cases d : s.sync_detected = true
      · exact Or.inr (decide_eq_true ⟨c, d⟩)
      · have d0 : s.sync_detected = false := by simpa using d
        by_cases v : s.sync_valid = true
        · exact Or.inl v
        · have v0 : s.sync_valid = false := by simpa using v
          rw [(dcf_poll_level_sync_flags s t gpio c).2.2.1 d0 v0] at h
          exact absurd h (by decide)
    · exact Or.inl ((dcf_poll_edge_sync_flags s t gpio c).1 h)
  · intro h
    have k : (!gpio) = s.pin_old ∧ s.sync_detected = true := of_decide_eq_true h
    obtain ⟨hD, hA, -, -⟩ := dcf_poll_level_sync_flags s t gpio k.1
    exact ⟨k.2, hD, hA k.2⟩
  · intro h
    by_cases c : (!gpio) = s.pin_old
    · rw [(dcf_poll_level_sync_flags s t gpio c).1] at h
      exact absurd h (by decide)
    · by_cases k : gpio = false ∧ s.pulse.edge &&& DCF_EDGE_FALLING ≠ 0 ∧
          get_diff_ustime t s.pulse.end_ > DCF_SYNC_MIN
      · exact Or.inr (decide_eq_true ⟨c, k⟩)
      · rw [(dcf_poll_edge_sync_flags s t gpio c).2.2.1 k] at h
        exact Or.inl h
  · intro h
    have k : (!gpio) ≠ s.pin_old ∧ gpio = false ∧ s.pulse.edge &&& DCF_EDGE_FALLING ≠ 0 ∧
        get_diff_ustime t s.pulse.end_ > DCF_SYNC_MIN := of_decide_eq_true h
    exact (dcf_poll_edge_sync_flags s t gpio k.1).2.1 k.2
  · intro calls
    have h1 := dcf_count_interprets_le calls s
    refine ⟨h1, dcf_count_adopts_le calls s, ?_⟩
    intro h0
    rw [h0] at h1
    exact Nat.le_trans (Nat.le_add_right _ _)
      (Nat.le_trans h1 (by rw [Nat.zero_add]; split_ifs <;> decide))
  · intro calls
    have h1 := dcf_count_interprets_le calls dcf_init
    have h2 := dcf_count_adopts_le calls dcf_init
    have v0 : dcf_init.sync_valid = false := rfl
    have d0 : dcf_init.sync_detected = false := rfl
    rw [v0] at h1
    rw [d0] at h2
    exact ⟨Nat.le_trans (Nat.le_add_right _ _) h1, Nat.le_trans (Nat.le_add_right _ _) h2⟩

/-- C28 on concrete states. After `dcf_init` with a valid sync stamped 0 the
cycle at 59000001 µs with the level unchanged interprets the (empty) slot buffer
and leaves the sync invalid; the cycle at 59000000 µs returns false. In the run
`dcf_sync_run` one sync is declared, it is adopted once and the slot buffer is
interpreted once, although two more polls follow the interpretation. -/
theorem dcf_poll_interprets_witness :
    (dcf_poll { dcf_init with sync_valid := true } 59000001 true).1.sync_valid = false ∧
    (dcf_poll { dcf_init with sync_valid := true } 59000000 true).2 = false ∧
    (dcf_count dcf_interprets dcf_init dcf_sync_run ≤ dcf_count dcf_adopts_sync dcf_init dcf_sync_run ∧
      dcf_count dcf_adopts_sync dcf_init dcf_sync_run ≤
        dcf_count dcf_declares_sync dcf_init dcf_sync_run) ∧
    dcf_count dcf_interprets dcf_init dcf_sync_run = 1 ∧
    dcf_count dcf_adopts_sync dcf_init dcf_sync_run = 1 ∧
    dcf_count dcf_declares_sync dcf_init dcf_sync_run = 1 := by
  have h1 : dcf_count dcf_interprets dcf_init dcf_sync_run = 1 := by
    set_option maxRecDepth 100000 in decide
  have h2 : dcf_count dcf_adopts_sync dcf_init dcf_sync_run = 1 := by
    set_option maxRecDepth 100000 in decide
  have h3 : dcf_count dcf_declares_sync dcf_init dcf_sync_run = 1 := by
    set_option maxRecDepth 100000 in decide
  exact ⟨((dcf_poll_interprets { dcf_init with sync_valid := true } 59000001 true).1
      ⟨by decide, by decide, by decide, by decide⟩).2.1,
    ((dcf_poll_interprets { dcf_init with sync_valid := true } 59000000 true).2.1
      (by decide)).1,
    (dcf_poll_interprets dcf_init 0 false).2.2.2.2.2.2.2.2 dcf_sync_run, h1, h2, h3⟩

/-! ## Theorems: the year of an accepted date -/

/-- `bcd_to_int8` returns -1 or a value in 0..99. -/
theorem bcd_to_int8_range (v : Nat) : -1 ≤ bcd_to_int8 v ∧ bcd_to_int8 v ≤ 99 := by
  unfold bcd_to_int8
  dsimp only
  split_ifs <;> omega

/-- The year of a date that `rx_bits_extract_date` accepts is 2000 plus the
result of `bcd_to_int8` on the code in the year slots. -/
theorem rx_bits_extract_date_year (rx : Nat → dcf_bitval_t) (u d : datetime_t)
    (h : rx_bits_extract_date rx u = some d) :
    ∃ vy : Nat, rx_bits_to_uint8 rx 50 57 = some vy ∧ d.year = bcd_to_int8 vy + 2000 := by
  by_cases h58 : rx 58 = dcf_bitval_t.dcf_bitval_none
  · rw [rx_bits_extract_date_undefined rx u 58 (by omega) (by omega) h58] at h
    exact Option.noConfusion h
  · cases hd : rx_bits_to_uint8 rx 36 41 with
    | none =>
      exfalso
      unfold rx_bits_extract_date at h
      rw [if_neg h58, hd] at h
      exact Option.noConfusion h
    | some vd =>
      cases hw : rx_bits_to_uint8 rx 42 44 with
      | none =>
        exfalso
        unfold rx_bits_extract_date at h
        rw [if_neg h58, hd] at h
        dsimp only at h
        rw [hw] at h
        exact Option.noConfusion h
      | some vw =>
        cases hmo : rx_bits_to_uint8 rx 45 49 with
        | none =>
          exfalso
          unfold rx_bits_extract_date at h
          rw [if_neg h58, hd] at h
          dsimp only at h
          rw [hw] at h
          dsimp only at h
          rw [hmo] at h
          exact Option.noConfusion h
        | some vmo =>
          cases hy : rx_bits_to_uint8 rx 50 57 with
          | none =>
            exfalso
            unfold rx_bits_extract_date at h
            rw [if_neg h58, hd] at h
            dsimp only at h
            rw [hw] at h
            dsimp only at h
            rw [hmo] at h
            dsimp only at h
            rw [hy] at h
            exact Option.noConfusion h
          | some vy =>
            refine ⟨vy, rfl, ?_⟩
            rw [rx_bits_extract_date_eq rx u vd vw vmo vy h58 hd hw hmo hy] at h
            split_ifs at h
            all_goals
              injection h with h
              rw [← h]

/-- C29 (the code at the failing input): the frame `frame_bad_year 30` has
correct markers and parity and holds the code 0xA0 in the year slots 50..57, on
which `bcd_to_int8` reports the error value -1. `rx_bits_extract_date` does not
reject it: it accepts the date with year -1 + 2000 = 1999, and
`interpret_rx_bits` stores the reading as the last valid one. In general the
year of an accepted date lies in 1999..2099, and it is 1999 exactly when the
code in the year slots is not BCD. -/
theorem rx_bits_extract_date_year_1999 :
    (rx_bits_to_uint8 (frame_bad_year 30) 50 57 = some 0xA0 ∧ bcd_to_int8 0xA0 = -1 ∧
     rx_bits_extract_date (frame_bad_year 30) datetime_uninit =
       some { datetime_uninit with day := 17, month := 5, year := 1999, dotw := 5 } ∧
     (interpret_frame dcf_init (frame_bad_year 30)).1.dt_last_valid = true ∧
     (interpret_frame dcf_init (frame_bad_year 30)).1.dt_last.year = 1999) ∧
    (∀ (rx : Nat → dcf_bitval_t) (u d : datetime_t), rx_bits_extract_date rx u = some d →
      (1999 ≤ d.year ∧ d.year ≤ 2099) ∧
      (d.year = 1999 ↔ ∃ vy : Nat, rx_bits_to_uint8 rx 50 57 = some vy ∧ bcd_to_int8 vy = -1)) := by
  refine ⟨⟨by decide, by decide, by decide, by decide, by decide⟩, ?_⟩
  intro rx u d h
  obtain ⟨vy, e, hy⟩ := rx_bits_extract_date_year rx u d h
  have r := bcd_to_int8_range vy
  refine ⟨⟨by omega, by omega⟩, ?_, ?_⟩
  · intro k
    exact ⟨vy, e, by omega⟩
  · rintro ⟨v, e2, k⟩
    rw [e] at e2
    injection e2 with e2
    rw [← e2] at k
    omega

/-! ## Theorems: the register image of the external RTC -/

/-- `datetime_is_valid` accepts exactly the values with all seven fields in
range. -/
theorem datetime_is_valid_iff (d : datetime_t) :
    datetime_is_valid d = true ↔
      ((0 ≤ d.sec ∧ d.sec ≤ 59) ∧ (0 ≤ d.min ∧ d.min ≤ 59) ∧ (0 ≤ d.hour ∧ d.hour ≤ 23)) ∧
      ((1 ≤ d.day ∧ d.day ≤ 31) ∧ (1 ≤ d.month ∧ d.month ≤ 12) ∧
       (0 ≤ d.year ∧ d.year ≤ 4095) ∧ (0 ≤ d.dotw ∧ d.dotw ≤ 6)) := by
  have ht : datetime_is_valid_time d = true ↔
      ((0 ≤ d.sec ∧ d.sec ≤ 59) ∧ (0 ≤ d.min ∧ d.min ≤ 59) ∧ (0 ≤ d.hour ∧ d.hour ≤ 23)) := by
    unfold datetime_is_valid_time
    split_ifs <;> simp <;> omega
  have hd : datetime_is_valid_date d = true ↔
      ((1 ≤ d.day ∧ d.day ≤ 31) ∧ (1 ≤ d.month ∧ d.month ≤ 12) ∧
       (0 ≤ d.year ∧ d.year ≤ 4095) ∧ (0 ≤ d.dotw ∧ d.dotw ≤ 6)) := by
    unfold datetime_is_valid_date
    split_ifs <;> simp <;> omega
  unfold datetime_is_valid
  rw [Bool.and_eq_true, ht, hd]

/-- A field value in 0..99 survives the conversion to `uint8_t`, `int8_to_bcd`
and `bcd_to_int8`. -/
theorem bcd_roundtrip_field (x : Int) (h0 : 0 ≤ x) (h1 : x ≤ 99) :
    uint8_wrap x = x.toNat ∧ bcd_to_int8 (int8_to_bcd (uint8_wrap x)) = x := by
  have e : uint8_wrap x = x.toNat := by
    unfold uint8_wrap
    congr 1
    omega
  rw [e]
  refine ⟨rfl, ?_⟩
  rw [(bcd_roundtrip.1 x.toNat (by omega)).1]
  omega

/-- The codes of the month and of the day of week. -/
theorem bcd_month_dotw :
    (∀ n, n < 13 → int8_to_bcd n &&& 0x7F = int8_to_bcd n) ∧
    (∀ n, n < 7 → int8_to_bcd n = n) ∧ bcd_to_int8 7 = 7 := by
  decide

/-- The seven bytes `rtc_datetime_to_mem` writes for a valid datetime. -/
theorem rtc_datetime_to_mem_bytes (mem : Nat → Nat) (n : Int) (d : datetime_t) (hn : 7 ≤ n)
    (hv : datetime_is_valid d = true) :
    (rtc_datetime_to_mem mem n d).2 = 7 ∧
    (rtc_datetime_to_mem mem n d).1 0 = int8_to_bcd (uint8_wrap d.sec) ∧
    (rtc_datetime_to_mem mem n d).1 1 = int8_to_bcd (uint8_wrap d.min) ∧
    (rtc_datetime_to_mem mem n d).1 2 = int8_to_bcd (uint8_wrap d.hour) ∧
    (rtc_datetime_to_mem mem n d).1 3 =
      (if int8_to_bcd (uint8_wrap d.dotw) = 0 then 7 else int8_to_bcd (uint8_wrap d.dotw)) ∧
    (rtc_datetime_to_mem mem n d).1 4 = int8_to_bcd (uint8_wrap d.day) ∧
    (rtc_datetime_to_mem mem n d).1 5 = int8_to_bcd (uint8_wrap d.month) ∧
    (rtc_datetime_to_mem mem n d).1 6 = int8_to_bcd (uint8_wrap (Int.tmod d.year 100)) := by
  have c : ¬ (n < 7 ∨ (!datetime_is_valid d) = true) := by
    rw [hv]
    simp
    omega
  unfold rtc_datetime_to_mem
  rw [if_neg c]
  dsimp only
  by_cases z : int8_to_bcd (uint8_wrap d.dotw) = 0
  · simp [Function.update, z]
  · simp [Function.update, z]

/-- C30: for every valid datetime with year in 2000..2099,
`rtc_datetime_to_mem` (buffer of at least 7 bytes) returns 7 and
`rtc_mem_to_datetime` on the bytes it wrote returns 7 and the same datetime;
the day of week is stored as itself, Sunday (0) as 7. For every datetime that
is not valid `rtc_datetime_to_mem` returns -1 and leaves the buffer. -/
theorem rtc_datetime_mem_roundtrip (mem : Nat → Nat) (n : Int) (u d : datetime_t) (hn : 7 ≤ n) :
    (datetime_is_valid d = true → 2000 ≤ d.year → d.year ≤ 2099 →
      (rtc_datetime_to_mem mem n d).2 = 7 ∧
      rtc_mem_to_datetime u (rtc_datetime_to_mem mem n d).1 n = (d, 7) ∧
      (rtc_datetime_to_mem mem n d).1 3 = (if d.dotw = 0 then 7 else d.dotw.toNat)) ∧
    (datetime_is_valid d = false → rtc_datetime_to_mem mem n d = (mem, -1)) := by
  constructor
  · intro hv y1 y2
    obtain ⟨⟨s1, m1, h1⟩, d1, mo1, -, w1⟩ := (datetime_is_valid_iff d).1 hv
    obtain ⟨b7, b0, b1, b2, b3, b4, b5, b6⟩ := rtc_datetime_to_mem_bytes mem n d hn hv
    obtain ⟨-, rs⟩ := bcd_roundtrip_field d.sec s1.1 (by omega)
    obtain ⟨-, rm⟩ := bcd_roundtrip_field d.min m1.1 (by omega)
    obtain ⟨-, rh⟩ := bcd_roundtrip_field d.hour h1.1 (by omega)
    obtain ⟨-, rd⟩ := bcd_roundtrip_field d.day (by omega) (by omega)
    obtain ⟨emo, rmo⟩ := bcd_roundtrip_field d.month (by omega) (by omega)
    obtain ⟨ew, rw_⟩ := bcd_roundtrip_field d.dotw w1.1 (by omega)
    have ty : Int.tmod d.year 100 = d.year - 2000 := by
      rw [Int.tmod_eq_emod (by omega) (by decide)]
      omega
    obtain ⟨-, ry⟩ := bcd_roundtrip_field (Int.tmod d.year 100) (by omega) (by omega)
    have hw : int8_to_bcd (uint8_wrap d.dotw) = d.dotw.toNat := by
      rw [ew]
      exact bcd_month_dotw.2.1 _ (by omega)
    have hmo : int8_to_bcd (uint8_wrap d.month) &&& 0x7F = int8_to_bcd (uint8_wrap d.month) := by
      rw [emo]
      exact bcd_month_dotw.1 _ (by omega)
    have e3 : (rtc_datetime_to_mem mem n d).1 3 = (if d.dotw = 0 then 7 else d.dotw.toNat) := by
      rw [b3, hw]
      split_ifs <;> omega
    have ew3 : (if bcd_to_int8 ((rtc_datetime_to_mem mem n d).1 3) = 7 then 0
        else bcd_to_int8 ((rtc_datetime_to_mem mem n d).1 3)) = d.dotw := by
      rw [e3]
      by_cases z : d.dotw = 0
      · rw [if_pos z, bcd_month_dotw.2.2, if_pos rfl, z]
      · rw [if_neg z, ← hw, rw_, if_neg (by omega)]
    have ey : bcd_to_int8 ((rtc_datetime_to_mem mem n d).1 6) + 2000 = d.year := by
      rw [b6, ry]
      omega
    refine ⟨b7, ?_, e3⟩
    unfold rtc_mem_to_datetime
    rw [if_neg (by omega)]
    dsimp only
    rw [ew3, ey, b0, b1, b2, b4, b5, hmo, rs, rm, rh, rd, rmo]
    rw [show (⟨d.year, d.month, d.day, d.dotw, d.hour, d.min, d.sec⟩ : datetime_t) = d from rfl,
      hv]
    rfl
  · intro hv
    unfold rtc_datetime_to_mem
    rw [if_pos (Or.inr (by rw [hv]; rfl))]

/-- C30 on Sunday 19.05.2024, 23:59:58: the seven bytes are written, byte 3
holds 7, and reading them back gives the same datetime. -/
theorem rtc_datetime_mem_roundtrip_witness :
    (rtc_datetime_to_mem (fun _ => 0) 7 dt_sunday).2 = 7 ∧
    rtc_mem_to_datetime datetime_clear (rtc_datetime_to_mem (fun _ => 0) 7 dt_sunday).1 7 =
      (dt_sunday, 7) ∧
    (rtc_datetime_to_mem (fun _ => 0) 7 dt_sunday).1 3 = 7 := by
  have h := (rtc_datetime_mem_roundtrip (fun _ => 0) 7 datetime_clear dt_sunday (by decide)).1
    (by decide) (by decide) (by decide)
  exact ⟨h.1, h.2.1, h.2.2⟩

end MstHora
